import Mathlib

/-!
# Spline and Bezier patch tessellation (GPU/Common/SplineCommon.cpp)

A shallow embedding of the tessellation code.  Floats are exact rationals (`ℚ`),
C arrays reached through a pointer are total functions `Nat → α` (the pointed-to
memory), loops are folds over `List.range`, and `while` loops take a fuel argument
and return `Option`.
-/

namespace SplineCommon

/-! ## Math3D vectors -/

/-- Modelled from the spec: `Math3D::Vec2f`, the 2D texture coordinate vector; the class is
declared in Math3D.h, outside the given sources.  Components are exact rationals. -/
structure Vec2f where
  x : ℚ
  y : ℚ
deriving DecidableEq

/-- Modelled from the spec: `Vec3f`, the 3D position / normal vector of Math3D.h. -/
structure Vec3f where
  x : ℚ
  y : ℚ
  z : ℚ
deriving DecidableEq

/-- Modelled from the spec: `Vec4f`, the unpacked RGBA colour vector of Math3D.h. -/
structure Vec4f where
  x : ℚ
  y : ℚ
  z : ℚ
  w : ℚ
deriving DecidableEq

/-- Componentwise `operator+` of `Vec2f`. -/
def Vec2f.add (a b : Vec2f) : Vec2f := ⟨a.x + b.x, a.y + b.y⟩

/-- Vector times scalar, `operator*(float)` of `Vec2f`. -/
def Vec2f.scale (a : Vec2f) (f : ℚ) : Vec2f := ⟨a.x * f, a.y * f⟩

/-- Componentwise `operator+` of `Vec3f`. -/
def Vec3f.add (a b : Vec3f) : Vec3f := ⟨a.x + b.x, a.y + b.y, a.z + b.z⟩

/-- Componentwise `operator-` of `Vec3f`. -/
def Vec3f.sub (a b : Vec3f) : Vec3f := ⟨a.x - b.x, a.y - b.y, a.z - b.z⟩

/-- Vector times scalar, `operator*(float)` of `Vec3f`. -/
def Vec3f.scale (a : Vec3f) (f : ℚ) : Vec3f := ⟨a.x * f, a.y * f, a.z * f⟩

/-- Componentwise `operator+` of `Vec4f`. -/
def Vec4f.add (a b : Vec4f) : Vec4f := ⟨a.x + b.x, a.y + b.y, a.z + b.z, a.w + b.w⟩

/-- Vector times scalar, `operator*(float)` of `Vec4f`. -/
def Vec4f.scale (a : Vec4f) (f : ℚ) : Vec4f := ⟨a.x * f, a.y * f, a.z * f, a.w * f⟩

instance : Add Vec2f := ⟨Vec2f.add⟩
instance : HMul Vec2f ℚ Vec2f := ⟨Vec2f.scale⟩
instance : Add Vec3f := ⟨Vec3f.add⟩
instance : Sub Vec3f := ⟨Vec3f.sub⟩
instance : HMul Vec3f ℚ Vec3f := ⟨Vec3f.scale⟩
instance : Add Vec4f := ⟨Vec4f.add⟩
instance : HMul Vec4f ℚ Vec4f := ⟨Vec4f.scale⟩

/-- The zero vector, `SetZero`. -/
def Vec3f.zero : Vec3f := ⟨0, 0, 0⟩

/-- The scalar (`#else`) path of `AccumulateWeighted` on positions: `out += in * w.x`. -/
def AccumulateWeighted (out inp : Vec3f) (w : ℚ) : Vec3f := out + inp * w

/-- Cross product of two `Vec3f`, the `Cross` of Math3D.h. -/
def Cross (a b : Vec3f) : Vec3f :=
  ⟨a.y * b.z - a.z * b.y, a.z * b.x - a.x * b.z, a.x * b.y - a.y * b.x⟩

/-- Modelled from the spec: the Math3D routines the tessellators call whose bodies are outside
the given sources: unpacking a packed RGBA colour to a `Vec4f`, packing it back, and
normalising a vector (a square root, so not a rational operation). -/
structure Math3D where
  FromRGBA : Nat → Vec4f
  ToRGBA : Vec4f → Nat
  Normalized : Vec3f → Vec3f

/-- Modelled from the spec: the packed RGBA colour of a control point unpacked to a float
colour vector, as `Vec4f::FromRGBA` of Math3D.h (outside the given sources) does it: the four
bytes, least significant first, each scaled by `1/255` to the unit range. -/
def unpackRGBA (rgba : Nat) : Vec4f :=
  ⟨((rgba % 256 : Nat) : ℚ) * (1 / 255), ((rgba / 256 % 256 : Nat) : ℚ) * (1 / 255),
   ((rgba / 65536 % 256 : Nat) : ℚ) * (1 / 255), ((rgba / 16777216 % 256 : Nat) : ℚ) * (1 / 255)⟩

/-! ## Bernstein basis (lines 116-152) -/

/-- Bernstein basis function `bern0`. -/
def bern0 (x : ℚ) : ℚ := (1 - x) * (1 - x) * (1 - x)
/-- Bernstein basis function `bern1`. -/
def bern1 (x : ℚ) : ℚ := 3 * x * (1 - x) * (1 - x)
/-- Bernstein basis function `bern2`. -/
def bern2 (x : ℚ) : ℚ := 3 * x * x * (1 - x)
/-- Bernstein basis function `bern3`. -/
def bern3 (x : ℚ) : ℚ := x * x * x

/-- Derivative polynomial `bern0deriv`. -/
def bern0deriv (x : ℚ) : ℚ := -3 * (x - 1) * (x - 1)
/-- Derivative polynomial `bern1deriv`. -/
def bern1deriv (x : ℚ) : ℚ := 9 * x * x - 12 * x + 3
/-- Derivative polynomial `bern2deriv`. -/
def bern2deriv (x : ℚ) : ℚ := 3 * (2 - 3 * x) * x
/-- Derivative polynomial `bern3deriv`. -/
def bern3deriv (x : ℚ) : ℚ := 3 * x * x

/-- The `Math3D::Vec2f` overload of `Bernstein3D`. -/
def Bernstein3D_Vec2f (p0 p1 p2 p3 : Vec2f) (x : ℚ) : Vec2f :=
  if x = 0 then p0
  else if x = 1 then p3
  else p0 * bern0 x + p1 * bern1 x + p2 * bern2 x + p3 * bern3 x

/-- The `Vec3f` overload of `Bernstein3D`. -/
def Bernstein3D_Vec3f (p0 p1 p2 p3 : Vec3f) (x : ℚ) : Vec3f :=
  if x = 0 then p0
  else if x = 1 then p3
  else p0 * bern0 x + p1 * bern1 x + p2 * bern2 x + p3 * bern3 x

/-- The `Vec4f` overload of `Bernstein3D`. -/
def Bernstein3D_Vec4f (p0 p1 p2 p3 : Vec4f) (x : ℚ) : Vec4f :=
  if x = 0 then p0
  else if x = 1 then p3
  else p0 * bern0 x + p1 * bern1 x + p2 * bern2 x + p3 * bern3 x

/-- The packed-colour (`u32`) overload of `Bernstein3D`: unpacks the four colours and calls the
`Vec4f` overload. -/
def Bernstein3D_u32 (FromRGBA : Nat → Vec4f) (p0 p1 p2 p3 : Nat) (x : ℚ) : Vec4f :=
  Bernstein3D_Vec4f (FromRGBA p0) (FromRGBA p1) (FromRGBA p2) (FromRGBA p3) x

/-- The function `Bernstein3DDerivative`. -/
def Bernstein3DDerivative (p0 p1 p2 p3 : Vec3f) (x : ℚ) : Vec3f :=
  p0 * bern0deriv x + p1 * bern1deriv x + p2 * bern2deriv x + p3 * bern3deriv x

/-! ## Knot divisors and the spline basis (lines 154-257) -/

/-- The struct `KnotDiv` with its default member initialisers. -/
structure KnotDiv where
  _3_0 : ℚ := 1 / 3
  _4_1 : ℚ := 1 / 3
  _5_2 : ℚ := 1 / 3
  _3_1 : ℚ := 1 / 2
  _4_2 : ℚ := 1 / 2
  _3_2 : ℚ := 1
deriving DecidableEq

/-- The two output arrays of `spline_n_4`, four entries each. -/
structure SplineOut where
  splineVal : List ℚ
  derivs : List ℚ
deriving DecidableEq

/-- The function `spline_n_4`, scalar (`#else`) path.  `knot` is the memory behind the pointer,
read at `i`, `i + 1` and `i + 2` after `knot += i`. -/
def spline_n_4 (i : Nat) (t : ℚ) (knot : Nat → ℚ) (div : KnotDiv) : SplineOut :=
  let t0 := t - knot (i + 0)
  let t1 := t - knot (i + 1)
  let t2 := t - knot (i + 2)
  let f30 := t0 * div._3_0
  let f41 := t1 * div._4_1
  let f52 := t2 * div._5_2
  let f31 := t1 * div._3_1
  let f42 := t2 * div._4_2
  let f32 := t2 * div._3_2
  let a := (1 - f30) * (1 - f31)
  let b := f31 * f41
  let c := (1 - f41) * (1 - f42)
  let d := f42 * f52
  let i1 := (1 - f31) * (1 - f32)
  let i2 := f31 * (1 - f32) + (1 - f42) * f32
  let i3 := f42 * f32
  let f130 := i1 * div._3_0
  let f241 := i2 * div._4_1
  let f352 := i3 * div._5_2
  { splineVal := [a - a * f32, 1 - a - b + (a + b + c - 1) * f32,
                  b + (1 - b - c - d) * f32, d * f32]
    derivs := [3 * (0 - f130), 3 * (f130 - f241), 3 * (f241 - f352), 3 * (f352 - 0)] }

/-- The function `spline_n_4`, `_M_SSE` path: the same products taken lane-wise; `f32` is lane 2
of `t012` itself, with no multiplication by `div._3_2`. -/
def spline_n_4_sse (i : Nat) (t : ℚ) (knot : Nat → ℚ) (div : KnotDiv) : SplineOut :=
  let t0 := t - knot (i + 0)
  let t1 := t - knot (i + 1)
  let t2 := t - knot (i + 2)
  let f30 := t0 * div._3_0
  let f41 := t1 * div._4_1
  let f52 := t2 * div._5_2
  let f31 := t1 * div._3_1
  let f42 := t2 * div._4_2
  let f32 := t2
  let a := (1 - f30) * (1 - f31)
  let c := (1 - f41) * (1 - f42)
  let b := (0 - f31) * (0 - f41)
  let d := (0 - f42) * (0 - f52)
  let i1 := (1 - f31) * (1 - f32)
  let i2 := f31 * (1 - f32) + (1 - f42) * f32
  let i3 := f42 * f32
  let f130 := i1 * div._3_0
  let f241 := i2 * div._4_1
  let f352 := i3 * div._5_2
  { splineVal := [a - a * f32, 1 - a - b + (a + b + c - 1) * f32,
                  b + (1 - b - c - d) * f32, d * f32]
    derivs := [3 * (0 - f130), 3 * (f130 - f241), 3 * (f241 - f352), 3 * (f352 - 0)] }

/-- The knot-filling loop of `spline_knot`: `for (i = 0; i < n + 2; ++i) knots[i] = (float)i - 2`. -/
def spline_knot_fill (n : Nat) (knots : Nat → ℚ) : Nat → ℚ :=
  (List.range (n + 2)).foldl (fun k i => Function.update k i ((i : ℚ) - 2)) knots

/-- The function `spline_knot`.  `knots` and `divs` are the memory behind the two pointers on
entry; the result is that memory on return.  `n` is `count - 3`, at least 1 at every call. -/
def spline_knot (n type : Nat) (knots : Nat → ℚ) (divs : Nat → KnotDiv) :
    (Nat → ℚ) × (Nat → KnotDiv) :=
  let knots := spline_knot_fill n knots
  let (knots, divs) :=
    if type &&& 1 ≠ 0 then
      let knots := Function.update knots 0 0
      let knots := Function.update knots 1 0
      let divs := Function.update divs 0 { divs 0 with _3_0 := 1 }
      let divs := Function.update divs 0 { divs 0 with _4_1 := 1 / 2 }
      let divs := Function.update divs 0 { divs 0 with _3_1 := 1 }
      let divs := if n > 1 then Function.update divs 1 { divs 1 with _3_0 := 1 / 2 } else divs
      (knots, divs)
    else (knots, divs)
  let divs :=
    if type &&& 2 ≠ 0 then
      let divs := Function.update divs (n - 1) { divs (n - 1) with _4_1 := 1 / 2 }
      let divs := Function.update divs (n - 1) { divs (n - 1) with _5_2 := 1 }
      let divs := Function.update divs (n - 1) { divs (n - 1) with _4_2 := 1 }
      let divs := if n > 1 then Function.update divs (n - 2) { divs (n - 2) with _5_2 := 1 / 2 } else divs
      divs
    else divs
  (knots, divs)

/-- The array `new KnotDiv[count - 3]`: every element default-initialised. -/
def newKnotDivs : Nat → KnotDiv := fun _ => {}

/-- The position accumulation of the spline tessellator along one axis: starting from zero, each
of the four control points of the window is added with its weight when that weight is
positive. -/
def accumulateAxis (w : List ℚ) (p : Nat → Vec3f) : Vec3f :=
  (List.range 4).foldl
    (fun acc ii => if w.getD ii 0 > 0 then AccumulateWeighted acc (p ii) (w.getD ii 0) else acc)
    Vec3f.zero

/-! ## Vertices, patches and the output buffers -/

/-- Modelled from the spec: the control point record `SimpleVertex` (texture coordinate, packed
RGBA colour, normal, position), declared outside the given sources. -/
structure SimpleVertex where
  uv : Vec2f
  color_32 : Nat
  nrm : Vec3f
  pos : Vec3f
deriving DecidableEq

/-- Modelled from the spec: the enum `GEPatchPrimType` of ge_constants.h (triangle mesh, line
mesh, points, and the unused fourth value), the primitive kind of a patch. -/
inductive GEPatchPrimType where
  | GE_PATCHPRIM_TRIANGLES
  | GE_PATCHPRIM_LINES
  | GE_PATCHPRIM_POINTS
  | GE_PATCHPRIM_UNKNOWN
deriving DecidableEq

/-- Modelled from the spec: the format descriptor bitmask `origVertType`, seen through the three
presence tests the code makes on it: `(origVertType & GE_VTYPE_NRM_MASK) != 0`,
`(origVertType & GE_VTYPE_COL_MASK) != 0` and `(origVertType & GE_VTYPE_TC_MASK) != 0`.  The
masks are defined in ge_constants.h, outside the given sources. -/
structure VertType where
  NRM : Bool
  COL : Bool
  TC : Bool
deriving DecidableEq

/-- Modelled from the spec: the global quality setting `g_Config.iSplineBezierQuality`, one of
low, medium, high. -/
inductive SplineQuality where
  | LOW_QUALITY
  | MEDIUM_QUALITY
  | HIGH_QUALITY
deriving DecidableEq

/-- Modelled from the spec: the struct `BezierPatch` of SplineCommon.h: sixteen control points
(`points[k]` dereferenced), the patch position in the grid, the patch index and the flags. -/
structure BezierPatch where
  points : Nat → SimpleVertex
  u_index : Int
  v_index : Int
  index : Int
  primType : GEPatchPrimType
  computeNormals : Bool
  patchFacing : Bool

/-- Modelled from the spec: the struct `SplinePatchLocal` of SplineCommon.h: tessellation
factors, open/closed flags, grid size, the control points (`points[idx]` dereferenced) and
the flags. -/
structure SplinePatchLocal where
  tess_u : Int
  tess_v : Int
  type_u : Nat
  type_v : Nat
  count_u : Int
  count_v : Int
  points : Int → SimpleVertex
  computeNormals : Bool
  primType : GEPatchPrimType
  patchFacing : Bool

/-- The output of a tessellator: `dest` is the offset of the vertex write pointer from the start
of the vertex buffer, counted in `SimpleVertex` records; `vertices` logs every vertex record
written as (slot, record), in the order written; `indices` logs the 16-bit values stored
through the index pointer, in order; `count` is the running index count. -/
structure TessState where
  dest : Int
  vertices : List (Int × SimpleVertex)
  indices : List Int
  count : Int

/-- The state at entry: `count = 0`, `dest = splineBuffer`, nothing written. -/
def TessState.init : TessState := { dest := 0, vertices := [], indices := [], count := 0 }

/-- The function `CopyQuad`: four records copied to `dest`, which advances by four. -/
def CopyQuad (st : TessState) (v1 v2 v3 v4 : SimpleVertex) : TessState :=
  { st with
    vertices := st.vertices ++ [(st.dest, v1), (st.dest + 1, v2), (st.dest + 2, v3),
      (st.dest + 3, v4)]
    dest := st.dest + 4 }

/-- The function `CopyQuadIndex`; each `int` is stored as a `u16`, that is modulo `2^16`. -/
def CopyQuadIndex (indices : List Int) (type : GEPatchPrimType) (idx0 idx1 idx2 idx3 : Int) :
    List Int :=
  if type = GEPatchPrimType.GE_PATCHPRIM_LINES then
    indices ++ [idx0 % 65536, idx2 % 65536, idx1 % 65536, idx3 % 65536, idx1 % 65536,
      idx2 % 65536]
  else
    indices ++ [idx0 % 65536, idx2 % 65536, idx1 % 65536, idx1 % 65536, idx2 % 65536,
      idx3 % 65536]

/-- The vertex loop shared by the grid tessellators: for `tile_v < div_v + 1` and
`tile_u < div_u + 1` the record `vertex tile_u tile_v` is written to
`vertices[tile_v * (div_u + 1) + tile_u]`, where `vertices` aliases `dest`. -/
def writeGrid (dest div_u div_v : Int) (vertex : Nat → Nat → SimpleVertex)
    (vs : List (Int × SimpleVertex)) : List (Int × SimpleVertex) :=
  (List.range (div_v + 1).toNat).foldl (fun (vs : List (Int × SimpleVertex)) (tile_v : Nat) =>
    (List.range (div_u + 1).toNat).foldl (fun (vs : List (Int × SimpleVertex)) (tile_u : Nat) =>
      vs ++ [(dest + ((tile_v : Int) * (div_u + 1) + (tile_u : Int)), vertex tile_u tile_v)])
      vs) vs

/-- The body of the index loop shared by the grid tessellators, for cell `(tile_u, tile_v)`:
the four corners, offset by `total` (zero except in `_BezierPatchHighQuality`), go through
`CopyQuadIndex` and `count += 6`.  The pair is (index log, count). -/
def tessellateCell (prim_type : GEPatchPrimType) (total div_u : Int) (tile_v : Nat)
    (ic : List Int × Int) (tile_u : Nat) : List Int × Int :=
  let idx0 := total + (tile_v : Int) * (div_u + 1) + (tile_u : Int)
  let idx1 := total + (tile_v : Int) * (div_u + 1) + (tile_u : Int) + 1
  let idx2 := total + ((tile_v : Int) + 1) * (div_u + 1) + (tile_u : Int)
  let idx3 := total + ((tile_v : Int) + 1) * (div_u + 1) + (tile_u : Int) + 1
  (CopyQuadIndex ic.1 prim_type idx0 idx1 idx2 idx3, ic.2 + 6)

/-- The index loop shared by the grid tessellators: `tessellateCell` for `tile_v < div_v` and
`tile_u < div_u`. -/
def tessellateGrid (prim_type : GEPatchPrimType) (total div_u div_v : Int)
    (ic : List Int × Int) : List Int × Int :=
  (List.range div_v.toNat).foldl (fun (ic : List Int × Int) (tile_v : Nat) =>
    (List.range div_u.toNat).foldl (tessellateCell prim_type total div_u tile_v) ic) ic

/-- The body of the two loops of `_BezierPatchLowQuality`, for tile `(tile_u, tile_v)`: one
quad of four control points is copied out, with its UVs and facet normal, and indexed. -/
def _BezierPatchLowQuality_tile (m : Math3D) (patch : BezierPatch) (origVertType : VertType)
    (tile_v : Nat) (st : TessState) (tile_u : Nat) : TessState :=
  let third : ℚ := 1 / 3
  let u_base : ℚ := (patch.u_index : ℚ) / 3
  let v_base : ℚ := (patch.v_index : ℚ) / 3
  let prim_type := patch.primType
  let point_index : Nat := tile_u + tile_v * 4
  let v0 := patch.points point_index
  let v1 := patch.points (point_index + 1)
  let v2 := patch.points (point_index + 4)
  let v3 := patch.points (point_index + 5)
  let u : ℚ := u_base + (tile_u : ℚ) * third
  let v : ℚ := v_base + (tile_v : ℚ) * third
  let v0 := if origVertType.TC = false then { v0 with uv := ⟨u, v⟩ } else v0
  let v1 := if origVertType.TC = false then { v1 with uv := ⟨u + third, v⟩ } else v1
  let v2 := if origVertType.TC = false then { v2 with uv := ⟨u, v + third⟩ } else v2
  let v3 := if origVertType.TC = false then { v3 with uv := ⟨u + third, v + third⟩ } else v3
  let norm := m.Normalized (Cross (v1.pos - v0.pos) (v2.pos - v0.pos))
  let norm := if patch.patchFacing then norm * (-1 : ℚ) else norm
  let v0 := if patch.computeNormals then { v0 with nrm := norm } else v0
  let v1 := if patch.computeNormals then { v1 with nrm := norm } else v1
  let v2 := if patch.computeNormals then { v2 with nrm := norm } else v2
  let v3 := if patch.computeNormals then { v3 with nrm := norm } else v3
  let total : Int := patch.index * 3 * 3 * 4
  let tile_index : Int := (tile_u : Int) + (tile_v : Int) * 3
  let idx0 := total + tile_index * 4 + 0
  let idx1 := total + tile_index * 4 + 1
  let idx2 := total + tile_index * 4 + 2
  let idx3 := total + tile_index * 4 + 3
  let st := CopyQuad st v0 v1 v2 v3
  { st with
    indices := CopyQuadIndex st.indices prim_type idx0 idx1 idx2 idx3
    count := st.count + 6 }

/-- The function `_BezierPatchLowQuality`: the tile body for `tile_v < 3` and `tile_u < 3`. -/
def _BezierPatchLowQuality (m : Math3D) (st : TessState) (_tess_u _tess_v : Int)
    (patch : BezierPatch) (origVertType : VertType) : TessState :=
  (List.range 3).foldl (fun (st : TessState) (tile_v : Nat) =>
    (List.range 3).foldl (_BezierPatchLowQuality_tile m patch origVertType tile_v) st) st

/-- The vertex record `_BezierPatchHighQuality` writes for grid point `(tile_u, tile_v)`.  The
four precomputed horizontal curves `horiz1..horiz4` at sample `i` are the `Bernstein3D` values
of the four control rows at `u = i / tess_u`; they are read only at samples the first loop has
filled.  A zero `tess_u` or `tess_v` makes the C division a float division by zero, which the
rational model does not represent. -/
def _BezierPatchHighQuality_vertex (m : Math3D) (tess_u tess_v : Int) (patch : BezierPatch)
    (origVertType : VertType) (tile_u tile_v : Nat) : SimpleVertex :=
  let third : ℚ := 1 / 3
  let computeNormals := patch.computeNormals
  let sampleColors := origVertType.COL
  let sampleTexcoords := origVertType.TC
  let P := patch.points
  let u : ℚ := (tile_u : ℚ) / (tess_u : ℚ)
  let v : ℚ := (tile_v : ℚ) / (tess_v : ℚ)
  let bv := v
  let prepos (r : Nat) : Vec3f :=
    Bernstein3D_Vec3f (P (4 * r)).pos (P (4 * r + 1)).pos (P (4 * r + 2)).pos (P (4 * r + 3)).pos u
  let precol (r : Nat) : Vec4f :=
    Bernstein3D_u32 m.FromRGBA (P (4 * r)).color_32 (P (4 * r + 1)).color_32
      (P (4 * r + 2)).color_32 (P (4 * r + 3)).color_32 u
  let pretex (r : Nat) : Vec2f :=
    Bernstein3D_Vec2f (P (4 * r)).uv (P (4 * r + 1)).uv (P (4 * r + 2)).uv (P (4 * r + 3)).uv u
  let prederivU (r : Nat) : Vec3f :=
    Bernstein3DDerivative (P (4 * r)).pos (P (4 * r + 1)).pos (P (4 * r + 2)).pos
      (P (4 * r + 3)).pos u
  let nrm :=
    if computeNormals then
      let derivU := Bernstein3D_Vec3f (prederivU 0) (prederivU 1) (prederivU 2) (prederivU 3) bv
      let derivV := Bernstein3DDerivative (prepos 0) (prepos 1) (prepos 2) (prepos 3) bv
      let nrm := m.Normalized (Cross derivU derivV)
      if patch.patchFacing then nrm * (-1 : ℚ) else nrm
    else Vec3f.zero
  let pos := Bernstein3D_Vec3f (prepos 0) (prepos 1) (prepos 2) (prepos 3) bv
  let uv : Vec2f :=
    if sampleTexcoords = false then
      ⟨u + (patch.u_index : ℚ) * third, v + (patch.v_index : ℚ) * third⟩
    else
      let res := Bernstein3D_Vec2f (pretex 0) (pretex 1) (pretex 2) (pretex 3) bv
      ⟨res.x, res.y⟩
  let color_32 :=
    if sampleColors then
      m.ToRGBA (Bernstein3D_Vec4f (precol 0) (precol 1) (precol 2) (precol 3) bv)
    else (P 0).color_32
  { uv := uv, color_32 := color_32, nrm := nrm, pos := pos }

/-- The function `_BezierPatchHighQuality`: the vertex loop over the `(tess_u + 1) × (tess_v + 1)`
grid, the index loop over the `tess_u × tess_v` cells with
`total = patch.index * (tess_u + 1) * (tess_v + 1)`, and the final advance of `dest`. -/
def _BezierPatchHighQuality (m : Math3D) (st : TessState) (tess_u tess_v : Int)
    (patch : BezierPatch) (origVertType : VertType) : TessState :=
  let vertices := writeGrid st.dest tess_u tess_v
    (_BezierPatchHighQuality_vertex m tess_u tess_v patch origVertType) st.vertices
  let prim_type := patch.primType
  let ic := tessellateGrid prim_type (patch.index * (tess_u + 1) * (tess_v + 1)) tess_u tess_v
    (st.indices, st.count)
  { dest := st.dest + (tess_u + 1) * (tess_v + 1)
    vertices := vertices
    indices := ic.1
    count := ic.2 }

/-- The function `TessellateBezierPatchHardware`: only `pos.x` and `pos.y` of each grid vertex
are written, the other fields keep what the buffer `mem` held; `dest` is not advanced. -/
def TessellateBezierPatchHardware (mem : Int → SimpleVertex) (st : TessState)
    (tess_u tess_v : Int) (primType : GEPatchPrimType) : TessState :=
  let inv_u : ℚ := 1 / (tess_u : ℚ)
  let inv_v : ℚ := 1 / (tess_v : ℚ)
  let vertices := writeGrid st.dest tess_u tess_v (fun tile_u tile_v =>
    let vert := mem (st.dest + ((tile_v : Int) * (tess_u + 1) + (tile_u : Int)))
    { vert with pos := { vert.pos with x := (tile_u : ℚ) * inv_u, y := (tile_v : ℚ) * inv_v } })
    st.vertices
  let ic := tessellateGrid primType 0 tess_u tess_v (st.indices, st.count)
  { st with vertices := vertices, indices := ic.1, count := ic.2 }

/-- The function `TessellateBezierPatch`, a switch on the configured quality. -/
def TessellateBezierPatch (m : Math3D) (iSplineBezierQuality : SplineQuality) (st : TessState)
    (tess_u tess_v : Int) (patch : BezierPatch) (origVertType : VertType) : TessState :=
  match iSplineBezierQuality with
  | SplineQuality.LOW_QUALITY => _BezierPatchLowQuality m st tess_u tess_v patch origVertType
  | SplineQuality.MEDIUM_QUALITY =>
    _BezierPatchHighQuality m st (max (tess_u.tdiv 2) 1) (max (tess_v.tdiv 2) 1) patch
      origVertType
  | SplineQuality.HIGH_QUALITY => _BezierPatchHighQuality m st tess_u tess_v patch origVertType

/-- The function `TessellateSplinePatchHardware`: `pos.x`, `pos.y`, `nrm.x` and `nrm.y` of each
grid vertex are written, the other fields keep what the buffer `mem` held; `dest` is not
advanced. -/
def TessellateSplinePatchHardware (mem : Int → SimpleVertex) (st : TessState)
    (spatch : SplinePatchLocal) : TessState :=
  let inv_u : ℚ := 1 / (spatch.tess_u : ℚ)
  let inv_v : ℚ := 1 / (spatch.tess_v : ℚ)
  let vertices := writeGrid st.dest spatch.tess_u spatch.tess_v (fun tile_u tile_v =>
    let vert := mem (st.dest + ((tile_v : Int) * (spatch.tess_u + 1) + (tile_u : Int)))
    { vert with
      pos := { vert.pos with x := (tile_u : ℚ) * inv_u, y := (tile_v : ℚ) * inv_v }
      nrm := { vert.nrm with x := inv_u, y := inv_v } })
    st.vertices
  let ic := tessellateGrid spatch.primType 0 spatch.tess_u spatch.tess_v (st.indices, st.count)
  { st with vertices := vertices, indices := ic.1, count := ic.2 }

/-- The lower tile bound of `_SplinePatchLowQuality` on an axis of the given type. -/
def tile_min (type : Nat) : Int := if type &&& 1 ≠ 0 then 0 else 1

/-- The upper tile bound of `_SplinePatchLowQuality` on an axis of the given type and size. -/
def tile_max (type : Nat) (count : Int) : Int := if type &&& 2 ≠ 0 then count - 1 else count - 2

/-- The body of the two loops of `_SplinePatchLowQuality`, for the tile
`(tile_min_u + ku, tile_min_v + kv)`.  The pair is the output state and the quad counter `i`. -/
def _SplinePatchLowQuality_tile (m : Math3D) (spatch : SplinePatchLocal)
    (origVertType : VertType) (kv : Nat) (si : TessState × Int) (ku : Nat) : TessState × Int :=
  let tile_min_u : Int := tile_min spatch.type_u
  let tile_min_v : Int := tile_min spatch.type_v
  let tile_max_u : Int := tile_max spatch.type_u spatch.count_u
  let tile_max_v : Int := tile_max spatch.type_v spatch.count_v
  let tu_width : ℚ := ((spatch.count_u : ℚ) - 3) / ((tile_max_u - tile_min_u : Int) : ℚ)
  let tv_height : ℚ := ((spatch.count_v : ℚ) - 3) / ((tile_max_v - tile_min_v : Int) : ℚ)
  let prim_type := spatch.primType
  let computeNormals := spatch.computeNormals
  let patchFacing := spatch.patchFacing
  let tile_v : Int := tile_min_v + (kv : Int)
  let tile_u : Int := tile_min_u + (ku : Int)
  let st := si.1
  let i := si.2
  let point_index := tile_u + tile_v * spatch.count_u
  let v0 := spatch.points point_index
  let v1 := spatch.points (point_index + 1)
  let v2 := spatch.points (point_index + spatch.count_u)
  let v3 := spatch.points (point_index + spatch.count_u + 1)
  let u : ℚ := ((tile_u - tile_min_u : Int) : ℚ) * tu_width
  let v : ℚ := ((tile_v - tile_min_v : Int) : ℚ) * tv_height
  let v0 := if origVertType.TC = false then { v0 with uv := ⟨u, v⟩ } else v0
  let v1 := if origVertType.TC = false then { v1 with uv := ⟨u + tu_width, v⟩ } else v1
  let v2 := if origVertType.TC = false then { v2 with uv := ⟨u, v + tv_height⟩ } else v2
  let v3 := if origVertType.TC = false then { v3 with uv := ⟨u + tu_width, v + tv_height⟩ } else v3
  let norm := m.Normalized (Cross (v1.pos - v0.pos) (v2.pos - v0.pos))
  let norm := if patchFacing then norm * (-1 : ℚ) else norm
  let v0 := if computeNormals then { v0 with nrm := norm } else v0
  let v1 := if computeNormals then { v1 with nrm := norm } else v1
  let v2 := if computeNormals then { v2 with nrm := norm } else v2
  let v3 := if computeNormals then { v3 with nrm := norm } else v3
  let idx0 := i * 4 + 0
  let idx1 := i * 4 + 1
  let idx2 := i * 4 + 2
  let idx3 := i * 4 + 3
  let st := CopyQuad st v0 v1 v2 v3
  ({ st with
     indices := CopyQuadIndex st.indices prim_type idx0 idx1 idx2 idx3
     count := st.count + 6 }, i + 1)

/-- The function `_SplinePatchLowQuality`: the tile body for `tile_min_v ≤ tile_v < tile_max_v`
and `tile_min_u ≤ tile_u < tile_max_u`, with the quad counter starting at 0. -/
def _SplinePatchLowQuality (m : Math3D) (st : TessState) (spatch : SplinePatchLocal)
    (origVertType : VertType) : TessState :=
  ((List.range (tile_max spatch.type_v spatch.count_v - tile_min spatch.type_v).toNat).foldl
    (fun (si : TessState × Int) (kv : Nat) =>
      (List.range (tile_max spatch.type_u spatch.count_u - tile_min spatch.type_u).toNat).foldl
        (_SplinePatchLowQuality_tile m spatch origVertType kv) si) (st, 0)).1

/-! ## SplinePatchFullQuality (lines 387-563) -/

/-- The value a 32-bit `int` holds when an arithmetic result is `x`: `x` itself inside
`[-2^31, 2^31)`, and outside it the two's-complement wrap that the compiled multiplication
performs (in C++ a signed overflow is undefined). -/
def int32 (x : Int) : Int := (x + 2147483648) % 4294967296 - 2147483648

/-- The loop "Downsample until it fits" of `SplinePatchFullQuality` (lines 413-416); `none` when
the fuel runs out.  The product tested is an `int` product, so it is taken modulo `2^32`:
for densities of 46340 and more it wraps to a negative number and the test fails. -/
def SplinePatchFullQuality_downsample : Nat → Int → Int → Int → Option (Int × Int)
  | 0, _, _, _ => none
  | fuel + 1, patch_div_s, patch_div_t, maxVertices =>
    if int32 ((patch_div_s + 1) * (patch_div_t + 1)) > maxVertices then
      SplinePatchFullQuality_downsample fuel (patch_div_s.tdiv 2) (patch_div_t.tdiv 2) maxVertices
    else some (patch_div_s, patch_div_t)

/-- The density computation of `SplinePatchFullQuality` (lines 399-419): size times tessellation
factor, the quality scaling, the downsampling loop and the floor at 1.  The two products of
lines 400-401 are taken exactly, as they are in the code while they fit a 32-bit `int`. -/
def SplinePatchFullQuality_patch_div (fuel : Nat)
    (count_u count_v tess_u tess_v quality maxVertices : Int) : Option (Int × Int) :=
  let patch_div_s := (count_u - 3) * tess_u
  let patch_div_t := (count_v - 3) * tess_v
  let patch_div_s :=
    if quality > 1 then (if patch_div_s > 2 then patch_div_s.tdiv quality else patch_div_s)
    else patch_div_s
  let patch_div_t :=
    if quality > 1 then (if patch_div_t > 2 then patch_div_t.tdiv quality else patch_div_t)
    else patch_div_t
  match SplinePatchFullQuality_downsample fuel patch_div_s patch_div_t maxVertices with
  | none => none
  | some (patch_div_s, patch_div_t) =>
    some (if patch_div_s < 1 then 1 else patch_div_s, if patch_div_t < 1 then 1 else patch_div_t)

/-- The accumulators of one grid point of `SplinePatchFullQuality`. -/
structure SplineAccum where
  vert_pos : Vec3f
  uv : Vec2f
  vert_color : Vec4f
  du : Vec3f
  dv : Vec3f

/-- The vertex record `SplinePatchFullQuality` writes for grid point `(tile_u, tile_v)`, given
the knots and divisors of both axes and the final densities.  The template flags `origNrm`,
`origCol`, `origTc` are the three tests on `origVertType` made by the dispatch functions.
`(int)u` truncates a non-negative value, which is its floor. -/
def SplinePatchFullQuality_vertex (m : Math3D) (spatch : SplinePatchLocal)
    (origVertType : VertType) (knot_u knot_v : Nat → ℚ) (divs_u divs_v : Nat → KnotDiv)
    (patch_div_s patch_div_t : Int) (tile_u tile_v : Nat) : SimpleVertex :=
  let origNrm := origVertType.NRM
  let origCol := origVertType.COL
  let origTc := origVertType.TC
  let tu_width : ℚ := (spatch.count_u : ℚ) - 3
  let tv_height : ℚ := (spatch.count_v : ℚ) - 3
  let one_over_patch_div_s : ℚ := 1 / (patch_div_s : ℚ)
  let one_over_patch_div_t : ℚ := 1 / (patch_div_t : ℚ)
  let v : ℚ := (tile_v : ℚ) * ((spatch.count_v - 3 : Int) : ℚ) * one_over_patch_div_t
  let v : ℚ := if v < 0 then 0 else v
  let u : ℚ := (tile_u : ℚ) * ((spatch.count_u - 3 : Int) : ℚ) * one_over_patch_div_s
  let u : ℚ := if u < 0 then 0 else u
  let uv0 : Vec2f :=
    if origTc then ⟨0, 0⟩
    else ⟨tu_width * ((tile_u : ℚ) * one_over_patch_div_s),
          tv_height * ((tile_v : ℚ) * one_over_patch_div_t)⟩
  let iu : Int := Rat.floor u
  let iv : Int := Rat.floor v
  let iu := if iu ≥ spatch.count_u - 3 then spatch.count_u - 4 else iu
  let iv := if iv ≥ spatch.count_v - 3 then spatch.count_v - 4 else iv
  let su := spline_n_4 iu.toNat u knot_u (divs_u iu.toNat)
  let sv := spline_n_4 iv.toNat v knot_v (divs_v iv.toNat)
  let u_weights := su.splineVal
  let u_derivs := su.derivs
  let v_weights := sv.splineVal
  let v_derivs := sv.derivs
  let patch_w : Int := min (spatch.count_u - iu) 4
  let patch_h : Int := min (spatch.count_v - iv) 4
  let acc : SplineAccum :=
    (List.range patch_w.toNat).foldl (fun (acc : SplineAccum) (ii : Nat) =>
      (List.range patch_h.toNat).foldl (fun (acc : SplineAccum) (jj : Nat) =>
        let u_spline := u_weights.getD ii 0
        let v_spline := v_weights.getD jj 0
        let f := u_spline * v_spline
        if f > 0 then
          let idx : Int := spatch.count_u * (iv + (jj : Int)) + (iu + (ii : Int))
          let a := spatch.points idx
          { vert_pos := AccumulateWeighted acc.vert_pos a.pos f
            uv := if origTc then ⟨acc.uv.x + a.uv.x * f, acc.uv.y + a.uv.y * f⟩ else acc.uv
            vert_color :=
              if origCol then acc.vert_color + m.FromRGBA a.color_32 * f else acc.vert_color
            du :=
              if origNrm then
                AccumulateWeighted acc.du a.pos (u_derivs.getD ii 0 * v_weights.getD jj 0)
              else acc.du
            dv :=
              if origNrm then
                AccumulateWeighted acc.dv a.pos (u_weights.getD ii 0 * v_derivs.getD jj 0)
              else acc.dv }
        else acc) acc)
      { vert_pos := Vec3f.zero, uv := uv0, vert_color := ⟨0, 0, 0, 0⟩, du := Vec3f.zero,
        dv := Vec3f.zero }
  { pos := acc.vert_pos
    uv := acc.uv
    nrm := if origNrm then m.Normalized (Cross acc.du acc.dv) else ⟨0, 0, 1⟩
    color_32 := if origCol then m.ToRGBA acc.vert_color else (spatch.points 0).color_32 }

/-- The function `SplinePatchFullQuality`: knots and divisors of both axes, the densities, the
vertex loop over the grid and the index loop over its cells.  `dest` is not advanced.
`knot_u0`, `knot_v0` are the contents of the freshly allocated knot arrays. -/
def SplinePatchFullQuality (m : Math3D) (fuel : Nat) (knot_u0 knot_v0 : Nat → ℚ)
    (st : TessState) (spatch : SplinePatchLocal) (origVertType : VertType)
    (quality maxVertices : Int) : Option TessState :=
  let ku := spline_knot (spatch.count_u - 3).toNat spatch.type_u knot_u0 newKnotDivs
  let kv := spline_knot (spatch.count_v - 3).toNat spatch.type_v knot_v0 newKnotDivs
  match SplinePatchFullQuality_patch_div fuel spatch.count_u spatch.count_v spatch.tess_u
      spatch.tess_v quality maxVertices with
  | none => none
  | some (patch_div_s, patch_div_t) =>
    let vertices := writeGrid st.dest patch_div_s patch_div_t
      (SplinePatchFullQuality_vertex m spatch origVertType ku.1 kv.1 ku.2 kv.2 patch_div_s
        patch_div_t) st.vertices
    let prim_type := spatch.primType
    let ic := tessellateGrid prim_type 0 patch_div_s patch_div_t (st.indices, st.count)
    some { dest := st.dest, vertices := vertices, indices := ic.1, count := ic.2 }

/-- The function `TessellateSplinePatch`, a switch on the configured quality (the dispatch
functions in between only turn `origVertType` into the template flags). -/
def TessellateSplinePatch (m : Math3D) (iSplineBezierQuality : SplineQuality) (fuel : Nat)
    (knot_u0 knot_v0 : Nat → ℚ) (st : TessState) (spatch : SplinePatchLocal)
    (origVertType : VertType) (maxVertexCount : Int) : Option TessState :=
  match iSplineBezierQuality with
  | SplineQuality.LOW_QUALITY => some (_SplinePatchLowQuality m st spatch origVertType)
  | SplineQuality.MEDIUM_QUALITY =>
    SplinePatchFullQuality m fuel knot_u0 knot_v0 st spatch origVertType 2 maxVertexCount
  | SplineQuality.HIGH_QUALITY =>
    SplinePatchFullQuality m fuel knot_u0 knot_v0 st spatch origVertType 1 maxVertexCount

/-! ## SubmitBezier, software path (lines 1019-1034 and 1066-1093) -/

/-- The patch-building loops of `SubmitBezier`: slot `patch_u + patch_v * num_patches_u` of the
allocated (uninitialised) array `patches` receives the sub-patch `(patch_u, patch_v)`. -/
def SubmitBezier_patches (points : Int → SimpleVertex) (count_u num_patches_u num_patches_v : Int)
    (prim_type : GEPatchPrimType) (computeNormals patchFacing : Bool)
    (patches : Int → BezierPatch) : Int → BezierPatch :=
  (List.range num_patches_u.toNat).foldl (fun (patches : Int → BezierPatch) (patch_u : Nat) =>
    (List.range num_patches_v.toNat).foldl (fun (patches : Int → BezierPatch) (patch_v : Nat) =>
      Function.update patches ((patch_u : Int) + (patch_v : Int) * num_patches_u)
        { points := fun point =>
            points (((patch_u : Int) * 3 + ((point % 4 : Nat) : Int)) +
              ((patch_v : Int) * 3 + ((point / 4 : Nat) : Int)) * count_u)
          u_index := (patch_u : Int) * 3
          v_index := (patch_v : Int) * 3
          index := (patch_v : Int) * num_patches_u + (patch_u : Int)
          primType := prim_type
          computeNormals := computeNormals
          patchFacing := patchFacing }) patches) patches

/-- The loop "Downsample until it fits" of `SubmitBezier`; `none` when the fuel runs out. -/
def SubmitBezier_downsample : Nat → Int → Int → Int → Int → Int → Option (Int × Int)
  | 0, _, _, _, _, _ => none
  | fuel + 1, tess_u, tess_v, num_patches_u, num_patches_v, maxVertices =>
    if (tess_u + 1) * (tess_v + 1) * num_patches_u * num_patches_v > maxVertices then
      SubmitBezier_downsample fuel (tess_u.tdiv 2) (tess_v.tdiv 2) num_patches_u num_patches_v
        maxVertices
    else some (tess_u, tess_v)

/-- The densities `_BezierPatchHighQuality` receives from `TessellateBezierPatch` in medium and
high quality (the low quality tessellator ignores them). -/
def TessellateBezierPatch_densities (iSplineBezierQuality : SplineQuality) (tess_u tess_v : Int) :
    Int × Int :=
  match iSplineBezierQuality with
  | SplineQuality.MEDIUM_QUALITY => (max (tess_u.tdiv 2) 1, max (tess_v.tdiv 2) 1)
  | _ => (tess_u, tess_v)

/-- The software branch of `SubmitBezier` after the `count < 4` guard has passed: the clamp of
the tessellation factors, the patch count, the patch array, the downsampling loop and the
tessellation of every sub-patch.  `maxVertices` is `SPLINE_BUFFER_SIZE / vertexSize`, both
defined outside the given sources, and `patches0` is the memory the patch array is allocated
in.  `int` arithmetic is exact (no overflow). -/
def SubmitBezier_software (m : Math3D) (iSplineBezierQuality : SplineQuality) (fuel : Nat)
    (points : Int → SimpleVertex) (patches0 : Int → BezierPatch)
    (tess_u tess_v count_u count_v : Int) (prim_type : GEPatchPrimType)
    (computeNormals patchFacing : Bool) (origVertType : VertType) (maxVertices : Int) :
    Option TessState :=
  let tess_u := if tess_u < 1 then 1 else tess_u
  let tess_v := if tess_v < 1 then 1 else tess_v
  let num_patches_u := (count_u - 1).tdiv 3
  let num_patches_v := (count_v - 1).tdiv 3
  let patches := SubmitBezier_patches points count_u num_patches_u num_patches_v prim_type
    computeNormals patchFacing patches0
  match SubmitBezier_downsample fuel tess_u tess_v num_patches_u num_patches_v maxVertices with
  | none => none
  | some (tess_u, tess_v) =>
    some ((List.range (num_patches_u * num_patches_v).toNat).foldl
      (fun (st : TessState) (patch_idx : Nat) =>
        TessellateBezierPatch m iSplineBezierQuality st tess_u tess_v (patches (patch_idx : Int))
          origVertType) TessState.init)

/-! ## Normals of the Bezier tessellator -/

/-- Dot product of two `Vec3f` (the `Dot` of Math3D.h), used to state orthogonality. -/
def Dot (a b : Vec3f) : ℚ := a.x * b.x + a.y * b.y + a.z * b.z

/-- The local `derivU` of `_BezierPatchHighQuality` at grid point `(tile_u, tile_v)`:
`prederivU.Bernstein3D(tile_u, bv)`, the vertical curve through the four horizontal
derivative samples. -/
def _BezierPatchHighQuality_derivU (tess_u tess_v : Int) (patch : BezierPatch)
    (tile_u tile_v : Nat) : Vec3f :=
  let P := patch.points
  let u : ℚ := (tile_u : ℚ) / (tess_u : ℚ)
  let v : ℚ := (tile_v : ℚ) / (tess_v : ℚ)
  let bv := v
  let prederivU (r : Nat) : Vec3f :=
    Bernstein3DDerivative (P (4 * r)).pos (P (4 * r + 1)).pos (P (4 * r + 2)).pos
      (P (4 * r + 3)).pos u
  Bernstein3D_Vec3f (prederivU 0) (prederivU 1) (prederivU 2) (prederivU 3) bv

/-- The local `derivV` of `_BezierPatchHighQuality` at grid point `(tile_u, tile_v)`:
`prepos.Bernstein3DDerivative(tile_u, bv)`, the derivative of the vertical curve through the
four horizontal position samples. -/
def _BezierPatchHighQuality_derivV (tess_u tess_v : Int) (patch : BezierPatch)
    (tile_u tile_v : Nat) : Vec3f :=
  let P := patch.points
  let u : ℚ := (tile_u : ℚ) / (tess_u : ℚ)
  let v : ℚ := (tile_v : ℚ) / (tess_v : ℚ)
  let bv := v
  let prepos (r : Nat) : Vec3f :=
    Bernstein3D_Vec3f (P (4 * r)).pos (P (4 * r + 1)).pos (P (4 * r + 2)).pos (P (4 * r + 3)).pos u
  Bernstein3DDerivative (prepos 0) (prepos 1) (prepos 2) (prepos 3) bv

/-! ## Clamped knot vector -/

/-- The clamped knot vector `k` as the specification words it: `k[j] = j - 2`, with
`k[0..2] = 0` when bit 0 of `type` is set and `k[n+2..n+4] = n` when bit 1 is set.  This is the
vector documented by the commented-out stores `knots[n + 2] = knots[n + 3] = knots[n + 4] = n`
of `spline_knot`; it is stated independently of the code, to be compared with it. -/
def clampedKnotSpec (n type : Nat) (j : Nat) : ℚ :=
  if type &&& 1 ≠ 0 ∧ j ≤ 2 then 0
  else if type &&& 2 ≠ 0 ∧ n + 2 ≤ j then (n : ℚ)
  else (j : ℚ) - 2

/-- The divisor set of segment `i` as the specification words it: the reciprocals of the knot
differences of a knot vector `k`, with `_3_2 = 1`.  Stated independently of the code. -/
def knotDivSpec (k : Nat → ℚ) (i : Nat) : KnotDiv :=
  { _3_0 := 1 / (k (i + 3) - k i)
    _4_1 := 1 / (k (i + 4) - k (i + 1))
    _5_2 := 1 / (k (i + 5) - k (i + 2))
    _3_1 := 1 / (k (i + 3) - k (i + 1))
    _4_2 := 1 / (k (i + 4) - k (i + 2))
    _3_2 := 1 }

/-- The stores of `spline_knot` into `divs`, read back at one index `i` starting from the
element `d`: the bit 0 stores go to `divs[0]` and, if `n > 1`, `divs[1]`; the bit 1 stores go to
`divs[n - 1]` and, if `n > 1`, `divs[n - 2]`. -/
def spline_knot_divs_closed (n type i : Nat) (d : KnotDiv) : KnotDiv :=
  let d := if type &&& 1 ≠ 0 then
      (if i = 0 then { d with _3_0 := 1, _4_1 := 1 / 2, _3_1 := 1 }
       else if n > 1 ∧ i = 1 then { d with _3_0 := 1 / 2 } else d)
    else d
  if type &&& 2 ≠ 0 then
    (if i = n - 1 then { d with _4_1 := 1 / 2, _5_2 := 1, _4_2 := 1 }
     else if n > 1 ∧ i = n - 2 then { d with _5_2 := 1 / 2 } else d)
  else d

/-! ## SimpleBufferManager (lines 849-867) -/

/-- The rounding of `SimpleBufferManager::Allocate`, `size = (size + 15) & ~15` on a `size_t` of
`w` bits: the sum wraps modulo `2 ^ w` and the mask clears the four low bits. -/
def Allocate_align (w size : Nat) : Nat := (size + 15) % 2 ^ w / 16 * 16

/-- The class `SimpleBufferManager`: `totalSize` and `maxSize_`.  The arena `buf_` is the origin
of the offsets returned by `Allocate`. -/
structure SimpleBufferManager where
  totalSize : Nat
  maxSize_ : Nat
deriving DecidableEq

/-- The constructor `SimpleBufferManager(buf, maxSize)`: `totalSize(0), maxSize_(maxSize)`. -/
def SimpleBufferManager.init (maxSize : Nat) : SimpleBufferManager :=
  { totalSize := 0, maxSize_ := maxSize }

/-- The method `SimpleBufferManager::Allocate` on a `size_t` of `w` bits.  The result is the
offset of the returned pointer from `buf_`, `none` for `nullptr`, and the object afterwards. -/
def SimpleBufferManager.Allocate (w : Nat) (b : SimpleBufferManager) (size : Nat) :
    Option Nat × SimpleBufferManager :=
  let size := Allocate_align w size
  if (b.totalSize + size) % 2 ^ w > b.maxSize_ then (none, b)
  else
    let tmp := b.totalSize
    (some tmp, { b with totalSize := (b.totalSize + size) % 2 ^ w })

/-- The object after a run of `Allocate` calls with the given request sizes, in order. -/
def SimpleBufferManager.after (w : Nat) (b : SimpleBufferManager) (sizes : List Nat) :
    SimpleBufferManager :=
  sizes.foldl (fun (b : SimpleBufferManager) (size : Nat) => (b.Allocate w size).2) b

/-- The slices handed out by a run of `Allocate` calls, in order: for each call that did not
return `nullptr`, the offset returned and the rounded size reserved for it. -/
def SimpleBufferManager.slices (w : Nat) : SimpleBufferManager → List Nat → List (Nat × Nat)
  | _, [] => []
  | b, size :: rest =>
    match (b.Allocate w size).1 with
    | some p => (p, Allocate_align w size) :: SimpleBufferManager.slices w (b.Allocate w size).2 rest
    | none => SimpleBufferManager.slices w (b.Allocate w size).2 rest

/-! ## Test input: a flat spline control grid -/

/-- The flat control grid `P(i, j) = (i, j, 0)` of a 4 x 4 spline patch, stored row by row. -/
def flatGrid : Int → SimpleVertex := fun idx =>
  { pos := ⟨((idx % 4 : Int) : ℚ), ((idx / 4 : Int) : ℚ), 0⟩, uv := ⟨0, 0⟩, nrm := ⟨0, 0, 0⟩,
    color_32 := 0 }

/-! ## SubmitSpline and SubmitBezier (lines 872-1117) -/

/-- Modelled from the spec: the struct `UVScale` of GPUState.h, the UV transform held in
`gstate_c.uv`: two scales and two offsets. -/
structure UVScale where
  uScale : ℚ
  vScale : ℚ
  uOff : ℚ
  vOff : ℚ
deriving DecidableEq

/-- The calls `SubmitSpline` and `SubmitBezier` make to code outside this file, with the
arguments this development follows.  `PrepareBuffers` and `SendDataToShader` are the methods of
`tessDataTransfer`; the three lists of `SendDataToShader` are the `memcpy` stores made into
`pos`, `tex` and `col` before the call, as (offset in floats, floats stored); the two lists of
`DispatchSubmitPrim` are what the tessellation stored into `splineBuffer` and `quadIndices_`. -/
inductive Call where
  | DispatchFlush
  | GetIndexBounds (count : Int)
  | GetVertexDecoder
  | NormalizeVertices (index_lower_bound index_upper_bound : Int)
  | ERROR_LOG
  | PrepareBuffers (size : Int) (hasColor hasTexCoords : Bool)
  | SendDataToShader (pos tex col : List (Int × List ℚ)) (size : Int)
      (hasColor hasTexCoords : Bool)
  | GetVertTypeID
  | DispatchSubmitPrim (verts : List (Int × SimpleVertex)) (inds : List Int)
      (prim : GEPatchPrimType) (vertexCount : Int)

/-- Whether a call is a call of `DispatchFlush`. -/
def Call.isFlush : Call → Bool
  | Call.DispatchFlush => true
  | _ => false

/-- Modelled from the spec: what the two functions read from outside the given sources:
`Math3D`, the configuration `g_Config`, `CanUseHardwareTransform` (taken after
`PatchPrimToPrim`), the buffer sizes and `sizeof` values, the width of `size_t`, the results of
the collaborators (the bounds stored by `GetIndexBounds`, the two `VertexSize()` values, the
records `NormalizeVertices` leaves in `simplified_control_points`, `idxConv.convert`, the strides
stored by `PrepareBuffers`), and the contents of memory that is read before it is written
(`splineBuffer`, the patch array, the knot arrays, the local `prevUVScale`). -/
structure SubmitEnv where
  m : Math3D
  iSplineBezierQuality : SplineQuality
  bHardwareTessellation : Bool
  bSoftwareRendering : Bool
  CanUseHardwareTransform : GEPatchPrimType → Bool
  size_t_bits : Nat
  DECODED_VERTEX_BUFFER_SIZE : Nat
  SPLINE_BUFFER_SIZE : Int
  sizeof_SimpleVertex : Nat
  sizeof_pointer : Nat
  sizeof_float : Nat
  sizeof_BezierPatch : Nat
  indexBounds : Int × Int
  origVertexSize : Int
  vertexSize : Int
  normalized : Int → SimpleVertex
  convert : Int → Int
  posStride : Int
  texStride : Int
  colStride : Int
  splineBuffer : Int → SimpleVertex
  patches : Int → BezierPatch
  knot_u : Nat → ℚ
  knot_v : Nat → ℚ
  prevUVScale : UVScale

/-- The state the two functions act on: the UV transform `gstate_c.uv`, the member
`numPatches`, the value behind `bytesRead`, the stores made so far into `splineBuffer` and
`quadIndices_`, and the calls made so far, each with the value `gstate_c.uv` had when it was
made.  The collaborators leave `gstate_c.uv` as it is. -/
structure DrawEngineCommon where
  uv : UVScale
  numPatches : Int
  bytesRead : Int
  vertices : List (Int × SimpleVertex)
  indices : List Int
  calls : List (Call × UVScale)

/-- One call to a collaborator. -/
def DrawEngineCommon.call (s : DrawEngineCommon) (c : Call) : DrawEngineCommon :=
  { s with calls := s.calls ++ [(c, s.uv)] }

/-- The stores of one tessellation into `splineBuffer` and `quadIndices_`. -/
def DrawEngineCommon.store (s : DrawEngineCommon) (st : TessState) : DrawEngineCommon :=
  { s with vertices := s.vertices ++ st.vertices, indices := s.indices ++ st.indices }

/-- The function `CanUseHardwareTessellation`. -/
def CanUseHardwareTessellation (env : SubmitEnv) (prim : GEPatchPrimType) : Bool :=
  if env.bHardwareTessellation && !env.bSoftwareRendering then env.CanUseHardwareTransform prim
  else false

/-- The locals both functions hold after their three allocations: the buffer manager, the
index bounds, and the three pointers `simplified_control_points`, `temp_buffer` and `points`
(offsets into `decoded`, `none` for null). -/
structure SubmitLocals where
  managedBuf : SimpleBufferManager
  index_lower_bound : Int
  index_upper_bound : Int
  simplified_control_points : Option Nat
  temp_buffer : Option Nat
  points_array : Option Nat

/-- The common opening of `SubmitSpline` (lines 880-906) and `SubmitBezier` (lines 993-1024)
after the guard, up to the third allocation: the buffer manager, the index bounds (`u16`),
`GetIndexBounds` when `indices` is not null, the decoder lookups, `*bytesRead`, the three
allocations with the sizes as written, `NormalizeVertices` and the size check.  None of the
three results of `Allocate` is tested by the source; what it does with a null pointer is in
`Submit_points`.  The counts are at least 4 here, so their conversion to `size_t` keeps their
value. -/
def Submit_opening (env : SubmitEnv) (s : DrawEngineCommon) (indices : Bool)
    (count_u count_v : Int) : DrawEngineCommon × SubmitLocals :=
  let managedBuf := SimpleBufferManager.init env.DECODED_VERTEX_BUFFER_SIZE
  let index_lower_bound : Int := 0
  let index_upper_bound : Int := (count_u * count_v - 1) % 65536
  let s := if indices then s.call (Call.GetIndexBounds (count_u * count_v)) else s
  let index_lower_bound := if indices then env.indexBounds.1 else index_lower_bound
  let index_upper_bound := if indices then env.indexBounds.2 else index_upper_bound
  let s := s.call Call.GetVertexDecoder
  let s := { s with bytesRead := count_u * count_v * env.origVertexSize }
  let a1 := managedBuf.Allocate env.size_t_bits
    (env.sizeof_SimpleVertex * index_upper_bound.toNat + 1)
  let a2 := a1.2.Allocate env.size_t_bits
    (env.sizeof_SimpleVertex * count_u.toNat * count_v.toNat)
  let s := s.call (Call.NormalizeVertices index_lower_bound index_upper_bound)
  let s := s.call Call.GetVertexDecoder
  let s := if env.vertexSize ≠ (env.sizeof_SimpleVertex : Int) then s.call Call.ERROR_LOG else s
  let a3 := a2.2.Allocate env.size_t_bits (env.sizeof_pointer * count_u.toNat * count_v.toNat)
  (s, { managedBuf := a3.2
        index_lower_bound := index_lower_bound
        index_upper_bound := index_upper_bound
        simplified_control_points := a1.1
        temp_buffer := a2.1
        points_array := a3.1 })

/-- The loop that fills the pointer array (lines 907-908 and 1025-1026):
`points[idx] = simplified_control_points + (indices ? idxConv.convert(idx) : idx)`, seen as the
records the tessellators read through `points[idx]`.  The counts are at least 4, so the loop
body runs: with `points` null the first store goes through the null pointer and the call does
not come back.  With `simplified_control_points` or `temp_buffer` null, `NormalizeVertices`
has been handed a null buffer and the pointers stored do not point at control points; the call
is not followed any further.  In each of these cases the result is `none`. -/
def Submit_points (env : SubmitEnv) (loc : SubmitLocals) (indices : Bool) :
    Option (Int → SimpleVertex) :=
  if loc.simplified_control_points.isNone || loc.temp_buffer.isNone || loc.points_array.isNone
  then none
  else some (fun idx => env.normalized (if indices then env.convert idx else idx))

/-- The cursors and stores of the copy loop of the hardware branch. -/
structure TessData where
  p : Int
  t : Int
  c : Int
  pos : List (Int × List ℚ)
  tex : List (Int × List ℚ)
  col : List (Int × List ℚ)

/-- One pass of the copy loop of the hardware branch (lines 937-948 and 1047-1058). -/
def Submit_copy (env : SubmitEnv) (points : Int → SimpleVertex) (hasColor hasTexCoords : Bool)
    (d : TessData) (idx : Nat) : TessData :=
  let pt := points (idx : Int)
  let d := { d with pos := d.pos ++ [(d.p, [pt.pos.x, pt.pos.y, pt.pos.z])],
                    p := d.p + env.posStride }
  let d := if hasTexCoords then
      { d with tex := d.tex ++ [(d.t, [pt.uv.x, pt.uv.y])], t := d.t + env.texStride }
    else d
  if hasColor then
    { d with col := d.col ++ [(d.c, [(env.m.FromRGBA pt.color_32).x,
        (env.m.FromRGBA pt.color_32).y, (env.m.FromRGBA pt.color_32).z,
        (env.m.FromRGBA pt.color_32).w])], c := d.c + env.colStride }
  else d

/-- The data transfer of the hardware branch (lines 926-951 and 1036-1061): three allocations,
`PrepareBuffers`, the copy loop, the single colour when the format has none, and
`SendDataToShader`.  None of the three results of `Allocate` is tested: they are handed to
`PrepareBuffers`, which is declared outside the sources, and then written through by the
`memcpy` calls of the loop; the stores are logged relative to `pos`, `tex` and `col`.  With a
null pointer among the three the stores have nowhere to go and the call is not followed any
further: the result is `none`. -/
def Submit_transfer (env : SubmitEnv) (s : DrawEngineCommon) (loc : SubmitLocals)
    (points : Int → SimpleVertex) (count_u count_v : Int) (origVertType : VertType) :
    Option (DrawEngineCommon × SubmitLocals) :=
  let a1 := loc.managedBuf.Allocate env.size_t_bits
    (env.sizeof_float * count_u.toNat * count_v.toNat * 4)
  let a2 := a1.2.Allocate env.size_t_bits (env.sizeof_float * count_u.toNat * count_v.toNat * 4)
  let a3 := a2.2.Allocate env.size_t_bits (env.sizeof_float * count_u.toNat * count_v.toNat * 4)
  if a1.1.isNone || a2.1.isNone || a3.1.isNone then none
  else
    let hasColor := origVertType.COL
    let hasTexCoords := origVertType.TC
    let s := s.call (Call.PrepareBuffers (count_u * count_v) hasColor hasTexCoords)
    let d := (List.range (count_u * count_v).toNat).foldl
      (Submit_copy env points hasColor hasTexCoords)
      { p := 0, t := 0, c := 0, pos := [], tex := [], col := [] }
    let d := if !hasColor then
        { d with col := d.col ++ [(0, [(env.m.FromRGBA (points 0).color_32).x,
            (env.m.FromRGBA (points 0).color_32).y, (env.m.FromRGBA (points 0).color_32).z,
            (env.m.FromRGBA (points 0).color_32).w])] }
      else d
    let s := s.call (Call.SendDataToShader d.pos d.tex d.col (count_u * count_v) hasColor
      hasTexCoords)
    some (s, { loc with managedBuf := a3.2 })

/-- The common close of `SubmitSpline` (lines 960-982) and `SubmitBezier` (lines 1096-1117):
the UV transform is saved and overridden when the original format has texture coordinates,
then `GetVertTypeID`, `DispatchSubmitPrim` on what the tessellation `st` stored,
`DispatchFlush`, and the transform is put back under the same test. -/
def Submit_close (env : SubmitEnv) (s : DrawEngineCommon) (origVertType : VertType)
    (prim_type : GEPatchPrimType) (st : TessState) : DrawEngineCommon :=
  let prevUVScale := env.prevUVScale
  let prevUVScale := if origVertType.TC then s.uv else prevUVScale
  let s := if origVertType.TC then
      { s with uv := { uScale := 1, vScale := 1, uOff := 0, vOff := 0 } }
    else s
  let s := s.call Call.GetVertTypeID
  let s := s.call (Call.DispatchSubmitPrim st.vertices st.indices prim_type st.count)
  let s := s.call Call.DispatchFlush
  if origVertType.TC then { s with uv := prevUVScale } else s

/-- The function `DrawEngineCommon::SubmitSpline`.  `indices` tells whether the index pointer
is not null, `vertType` is seen through its three presence tests, and `fuel` bounds the passes
of the downsampling loop of the software tessellator.  The result is `none` when the call does
not come back: the fuel runs out, or an allocation whose result is stored through returned
null (`Submit_points`, `Submit_transfer`). -/
def SubmitSpline (env : SubmitEnv) (fuel : Nat) (s : DrawEngineCommon) (indices : Bool)
    (tess_u tess_v count_u count_v : Int) (type_u type_v : Nat) (prim_type : GEPatchPrimType)
    (computeNormals patchFacing : Bool) (vertType : VertType) : Option DrawEngineCommon :=
  let s := s.call Call.DispatchFlush
  if count_u < 4 ∨ count_v < 4 then some s
  else
    let (s, loc) := Submit_opening env s indices count_u count_v
    match Submit_points env loc indices with
    | none => none
    | some points =>
      let origVertType := vertType
      let patch : SplinePatchLocal :=
        { tess_u := tess_u, tess_v := tess_v, type_u := type_u, type_v := type_v,
          count_u := count_u, count_v := count_v, points := points,
          computeNormals := computeNormals, primType := prim_type, patchFacing := patchFacing }
      if CanUseHardwareTessellation env prim_type then
        match Submit_transfer env s loc points count_u count_v origVertType with
        | none => none
        | some (s, _) =>
          let st := TessellateSplinePatchHardware env.splineBuffer TessState.init patch
          let s := s.store st
          let s := { s with numPatches := (count_u - 3) * (count_v - 3) }
          some (Submit_close env s origVertType prim_type st)
      else
        let maxVertexCount := env.SPLINE_BUFFER_SIZE.tdiv env.vertexSize
        match TessellateSplinePatch env.m env.iSplineBezierQuality fuel env.knot_u env.knot_v
            TessState.init patch origVertType maxVertexCount with
        | none => none
        | some st => some (Submit_close env (s.store st) origVertType prim_type st)

/-- The function `DrawEngineCommon::SubmitBezier`, with the conventions of `SubmitSpline`.  The
clamp of the tessellation factors to at least 1 is applied here for the hardware branch and
inside `SubmitBezier_software` for the software branch.  In the software branch the patch
array is allocated and filled at once (lines 1066-1081): there is at least one sub-patch, so
with a null `patches` the first store goes through the null pointer and the result is
`none`. -/
def SubmitBezier (env : SubmitEnv) (fuel : Nat) (s : DrawEngineCommon) (indices : Bool)
    (tess_u tess_v count_u count_v : Int) (prim_type : GEPatchPrimType)
    (computeNormals patchFacing : Bool) (vertType : VertType) : Option DrawEngineCommon :=
  let s := s.call Call.DispatchFlush
  if count_u < 4 ∨ count_v < 4 then some s
  else
    let (s, loc) := Submit_opening env s indices count_u count_v
    match Submit_points env loc indices with
    | none => none
    | some points =>
      let origVertType := vertType
      let num_patches_u := (count_u - 1).tdiv 3
      let num_patches_v := (count_v - 1).tdiv 3
      if CanUseHardwareTessellation env prim_type then
        let tess_u := if tess_u < 1 then 1 else tess_u
        let tess_v := if tess_v < 1 then 1 else tess_v
        match Submit_transfer env s loc points count_u count_v origVertType with
        | none => none
        | some (s, _) =>
          let st := TessellateBezierPatchHardware env.splineBuffer TessState.init tess_u tess_v
            prim_type
          let s := s.store st
          let s := { s with numPatches := num_patches_u * num_patches_v }
          some (Submit_close env s origVertType prim_type st)
      else
        match (loc.managedBuf.Allocate env.size_t_bits
            (env.sizeof_BezierPatch * num_patches_u.toNat * num_patches_v.toNat)).1 with
        | none => none
        | some _ =>
          let maxVertices := env.SPLINE_BUFFER_SIZE.tdiv env.vertexSize
          match SubmitBezier_software env.m env.iSplineBezierQuality fuel points env.patches
              tess_u tess_v count_u count_v prim_type computeNormals patchFacing origVertType
              maxVertices with
          | none => none
          | some st => some (Submit_close env (s.store st) origVertType prim_type st)

/-! ## Test input: a call environment -/

/-- A software-tessellation environment: high quality, a spline buffer of 100 records of 36
bytes, the flat grid as normalised control points. -/
def sampleEnv : SubmitEnv :=
  { m := ⟨unpackRGBA, fun _ => 0, fun v => v⟩
    iSplineBezierQuality := SplineQuality.HIGH_QUALITY
    bHardwareTessellation := false
    bSoftwareRendering := false
    CanUseHardwareTransform := fun _ => true
    size_t_bits := 64
    DECODED_VERTEX_BUFFER_SIZE := 65536
    SPLINE_BUFFER_SIZE := 3600
    sizeof_SimpleVertex := 36
    sizeof_pointer := 8
    sizeof_float := 4
    sizeof_BezierPatch := 160
    indexBounds := (0, 15)
    origVertexSize := 12
    vertexSize := 36
    normalized := flatGrid
    convert := fun idx => idx
    posStride := 4
    texStride := 4
    colStride := 4
    splineBuffer := fun _ => flatGrid 0
    patches := fun _ =>
      ⟨fun _ => flatGrid 0, 0, 0, 0, GEPatchPrimType.GE_PATCHPRIM_TRIANGLES, false, false⟩
    knot_u := fun _ => 0
    knot_v := fun _ => 0
    prevUVScale := ⟨0, 0, 0, 0⟩ }

/-- A state with a UV transform that is not the identity and nothing drawn yet. -/
def sampleState : DrawEngineCommon :=
  { uv := ⟨2, 3, 1 / 2, 1 / 4⟩, numPatches := 0, bytesRead := 0, vertices := [], indices := [],
    calls := [] }

/-! ## SplinePatchFullQuality: the parts of one grid point -/

/-- The quality scaling of one density in `SplinePatchFullQuality` (lines 402-410):
`if (quality > 1) { if (patch_div > 2) patch_div /= quality; }`. -/
def SplinePatchFullQuality_scale (patch_div quality : Int) : Int :=
  if quality > 1 then (if patch_div > 2 then patch_div.tdiv quality else patch_div)
  else patch_div

/-- The parameter of grid column `tile_u` in `SplinePatchFullQuality` (lines 436-438; the same
statements give `v` from `tile_v`, `count_v` and `patch_div_t`). -/
def SplinePatchFullQuality_u (count_u patch_div_s : Int) (tile_u : Nat) : ℚ :=
  let one_over_patch_div_s : ℚ := 1 / (patch_div_s : ℚ)
  let u : ℚ := (tile_u : ℚ) * ((count_u - 3 : Int) : ℚ) * one_over_patch_div_s
  if u < 0 then 0 else u

/-- The segment index of `SplinePatchFullQuality` (lines 468 and 473; the same statements give
`iv`): `(int)u`, the floor of a non-negative value, then the clamp to `count_u - 4`. -/
def SplinePatchFullQuality_iu (count_u : Int) (u : ℚ) : Int :=
  let iu : Int := Rat.floor u
  if iu ≥ count_u - 3 then count_u - 4 else iu

/-- The accumulators of `SplinePatchFullQuality` for grid point `(tile_u, tile_v)` when the two
loops over the window have run (lines 436-524). -/
def SplinePatchFullQuality_accum (m : Math3D) (spatch : SplinePatchLocal)
    (origVertType : VertType) (knot_u knot_v : Nat → ℚ) (divs_u divs_v : Nat → KnotDiv)
    (patch_div_s patch_div_t : Int) (tile_u tile_v : Nat) : SplineAccum :=
  let origNrm := origVertType.NRM
  let origCol := origVertType.COL
  let origTc := origVertType.TC
  let tu_width : ℚ := (spatch.count_u : ℚ) - 3
  let tv_height : ℚ := (spatch.count_v : ℚ) - 3
  let one_over_patch_div_s : ℚ := 1 / (patch_div_s : ℚ)
  let one_over_patch_div_t : ℚ := 1 / (patch_div_t : ℚ)
  let v : ℚ := SplinePatchFullQuality_u spatch.count_v patch_div_t tile_v
  let u : ℚ := SplinePatchFullQuality_u spatch.count_u patch_div_s tile_u
  let uv0 : Vec2f :=
    if origTc then ⟨0, 0⟩
    else ⟨tu_width * ((tile_u : ℚ) * one_over_patch_div_s),
          tv_height * ((tile_v : ℚ) * one_over_patch_div_t)⟩
  let iu := SplinePatchFullQuality_iu spatch.count_u u
  let iv := SplinePatchFullQuality_iu spatch.count_v v
  let su := spline_n_4 iu.toNat u knot_u (divs_u iu.toNat)
  let sv := spline_n_4 iv.toNat v knot_v (divs_v iv.toNat)
  let u_weights := su.splineVal
  let u_derivs := su.derivs
  let v_weights := sv.splineVal
  let v_derivs := sv.derivs
  let patch_w : Int := min (spatch.count_u - iu) 4
  let patch_h : Int := min (spatch.count_v - iv) 4
  (List.range patch_w.toNat).foldl (fun (acc : SplineAccum) (ii : Nat) =>
    (List.range patch_h.toNat).foldl (fun (acc : SplineAccum) (jj : Nat) =>
      let u_spline := u_weights.getD ii 0
      let v_spline := v_weights.getD jj 0
      let f := u_spline * v_spline
      if f > 0 then
        let idx : Int := spatch.count_u * (iv + (jj : Int)) + (iu + (ii : Int))
        let a := spatch.points idx
        { vert_pos := AccumulateWeighted acc.vert_pos a.pos f
          uv := if origTc then ⟨acc.uv.x + a.uv.x * f, acc.uv.y + a.uv.y * f⟩ else acc.uv
          vert_color :=
            if origCol then acc.vert_color + m.FromRGBA a.color_32 * f else acc.vert_color
          du :=
            if origNrm then
              AccumulateWeighted acc.du a.pos (u_derivs.getD ii 0 * v_weights.getD jj 0)
            else acc.du
          dv :=
            if origNrm then
              AccumulateWeighted acc.dv a.pos (u_weights.getD ii 0 * v_derivs.getD jj 0)
            else acc.dv }
      else acc) acc)
    { vert_pos := Vec3f.zero, uv := uv0, vert_color := ⟨0, 0, 0, 0⟩, du := Vec3f.zero,
      dv := Vec3f.zero }

/-! ## Test input: an upright spline control grid -/

/-- The control grid `P(i, j) = (i, 0, j)` of a 4 x 4 spline patch, stored row by row: a flat
grid in the plane `y = 0`, whose unit normal `Cross(du, dv)` is `(0, -1, 0)`. -/
def uprightGrid : Int → SimpleVertex := fun idx =>
  { pos := ⟨((idx % 4 : Int) : ℚ), 0, ((idx / 4 : Int) : ℚ)⟩, uv := ⟨0, 0⟩, nrm := ⟨0, 0, 0⟩,
    color_32 := 0 }

/-! ## SubmitBezier: the control index of a sub-patch point -/

/-- The control index `idx` computed in the patch-building loop of `SubmitBezier` (line 1071)
for point `point` of sub-patch `(patch_u, patch_v)`. -/
def SubmitBezier_idx (count_u : Int) (patch_u patch_v point : Nat) : Int :=
  ((patch_u : Int) * 3 + ((point % 4 : Nat) : Int)) +
    ((patch_v : Int) * 3 + ((point / 4 : Nat) : Int)) * count_u

/-! ## Cox-de Boor recursion -/

/-- The basis values of one axis at one grid point of `SplinePatchFullQuality`: the knots and
divisors built by `spline_knot(count - 3, type, ...)` (lines 391-396), the parameter and the
segment index (lines 436-473), and the call of `spline_n_4` (lines 475-476). -/
def SplinePatchFullQuality_basis (count : Int) (type : Nat) (knot0 : Nat → ℚ) (patch_div : Int)
    (tile : Nat) : SplineOut :=
  let k := spline_knot (count - 3).toNat type knot0 newKnotDivs
  let u := SplinePatchFullQuality_u count patch_div tile
  let iu := SplinePatchFullQuality_iu count u
  spline_n_4 iu.toNat u k.1 (k.2 iu.toNat)

/-- The full sum over the 4 x 4 window as the specification words it: every control point
`P ii jj` of the window enters with its weight `w ii jj`, none is skipped.  Stated
independently of the code, to be compared with its accumulators. -/
def SplineWindowSum (w : Nat → Nat → ℚ) (P : Nat → Nat → Vec3f) : Vec3f :=
  (List.range 4).foldl (fun (acc : Vec3f) (ii : Nat) =>
    (List.range 4).foldl (fun (acc : Vec3f) (jj : Nat) => acc + P ii jj * w ii jj) acc)
    Vec3f.zero

/-! ## Test input: a flat spline control grid off the origin -/

/-- The control grid `P(i, j) = (i, j, 1)` of a 4 x 4 spline patch, stored row by row: a flat
grid in the plane `z = 1`, with plane normal `(0, 0, 1)`. -/
def raisedGrid : Int → SimpleVertex := fun idx =>
  { pos := ⟨((idx % 4 : Int) : ℚ), ((idx / 4 : Int) : ℚ), 1⟩, uv := ⟨0, 0⟩, nrm := ⟨0, 0, 0⟩,
    color_32 := 0 }

/-! ## Basis evaluator: theorems -/

theorem Vec2f_add_def (a b : Vec2f) : a + b = ⟨a.x + b.x, a.y + b.y⟩ := rfl
theorem Vec2f_scale_def (a : Vec2f) (f : ℚ) : a * f = ⟨a.x * f, a.y * f⟩ := rfl
theorem Vec3f_add_def (a b : Vec3f) : a + b = ⟨a.x + b.x, a.y + b.y, a.z + b.z⟩ := rfl
theorem Vec3f_scale_def (a : Vec3f) (f : ℚ) : a * f = ⟨a.x * f, a.y * f, a.z * f⟩ := rfl
theorem Vec4f_add_def (a b : Vec4f) :
    a + b = ⟨a.x + b.x, a.y + b.y, a.z + b.z, a.w + b.w⟩ := rfl
theorem Vec4f_scale_def (a : Vec4f) (f : ℚ) : a * f = ⟨a.x * f, a.y * f, a.z * f, a.w * f⟩ := rfl

theorem bern_at_zero : bern0 0 = 1 ∧ bern1 0 = 0 ∧ bern2 0 = 0 ∧ bern3 0 = 0 := by
  simp [bern0, bern1, bern2, bern3]

theorem bernstein_partition (x : ℚ) : bern0 x + bern1 x + bern2 x + bern3 x = 1 := by
  simp only [bern0, bern1, bern2, bern3]
  ring

theorem bern_at_one : bern0 1 = 0 ∧ bern1 1 = 0 ∧ bern2 1 = 0 ∧ bern3 1 = 1 := by
  simp [bern0, bern1, bern2, bern3]

/-- C1: the four weights written by `spline_n_4` sum to one, for every segment index, parameter,
knot memory and divisor set, on the scalar path and on the SSE path alike. -/
theorem spline_n_4_weights_sum_one (i : Nat) (t : ℚ) (knot : Nat → ℚ) (div : KnotDiv) :
    (spline_n_4 i t knot div).splineVal.length = 4 ∧
    (spline_n_4 i t knot div).splineVal.sum = 1 ∧
    (spline_n_4_sse i t knot div).splineVal.length = 4 ∧
    (spline_n_4_sse i t knot div).splineVal.sum = 1 := by
  refine ⟨rfl, ?_, rfl, ?_⟩
  · simp only [spline_n_4, List.sum_cons, List.sum_nil]
    ring
  · simp only [spline_n_4_sse, List.sum_cons, List.sum_nil]
    ring

/-- C2: the four Bernstein weights sum to one for every `x`, and each `Bernstein3D` overload
returns the combination of its control values with these weights (on every path, the two
short cuts included), which is therefore an affine combination. -/
theorem bernstein_partition_of_unity (x : ℚ) :
    bern0 x + bern1 x + bern2 x + bern3 x = 1 ∧
    (∀ p0 p1 p2 p3 : Vec2f, Bernstein3D_Vec2f p0 p1 p2 p3 x =
      p0 * bern0 x + p1 * bern1 x + p2 * bern2 x + p3 * bern3 x) ∧
    (∀ p0 p1 p2 p3 : Vec3f, Bernstein3D_Vec3f p0 p1 p2 p3 x =
      p0 * bern0 x + p1 * bern1 x + p2 * bern2 x + p3 * bern3 x) ∧
    (∀ p0 p1 p2 p3 : Vec4f, Bernstein3D_Vec4f p0 p1 p2 p3 x =
      p0 * bern0 x + p1 * bern1 x + p2 * bern2 x + p3 * bern3 x) ∧
    (∀ (FromRGBA : Nat → Vec4f) (p0 p1 p2 p3 : Nat), Bernstein3D_u32 FromRGBA p0 p1 p2 p3 x =
      FromRGBA p0 * bern0 x + FromRGBA p1 * bern1 x + FromRGBA p2 * bern2 x +
        FromRGBA p3 * bern3 x) := by
  have h4 : ∀ p0 p1 p2 p3 : Vec4f, Bernstein3D_Vec4f p0 p1 p2 p3 x =
      p0 * bern0 x + p1 * bern1 x + p2 * bern2 x + p3 * bern3 x := by
    intro p0 p1 p2 p3
    unfold Bernstein3D_Vec4f
    split_ifs with h0 h1
    · subst h0
      obtain ⟨a, b, c, d⟩ := bern_at_zero
      simp [a, b, c, d, Vec4f_add_def, Vec4f_scale_def]
    · subst h1
      obtain ⟨a, b, c, d⟩ := bern_at_one
      simp [a, b, c, d, Vec4f_add_def, Vec4f_scale_def]
    · rfl
  refine ⟨?_, ?_, ?_, h4, ?_⟩
  · simp only [bern0, bern1, bern2, bern3]
    ring
  · intro p0 p1 p2 p3
    unfold Bernstein3D_Vec2f
    split_ifs with h0 h1
    · subst h0
      obtain ⟨a, b, c, d⟩ := bern_at_zero
      simp [a, b, c, d, Vec2f_add_def, Vec2f_scale_def]
    · subst h1
      obtain ⟨a, b, c, d⟩ := bern_at_one
      simp [a, b, c, d, Vec2f_add_def, Vec2f_scale_def]
    · rfl
  · intro p0 p1 p2 p3
    unfold Bernstein3D_Vec3f
    split_ifs with h0 h1
    · subst h0
      obtain ⟨a, b, c, d⟩ := bern_at_zero
      simp [a, b, c, d, Vec3f_add_def, Vec3f_scale_def]
    · subst h1
      obtain ⟨a, b, c, d⟩ := bern_at_one
      simp [a, b, c, d, Vec3f_add_def, Vec3f_scale_def]
    · rfl
  · intro f p0 p1 p2 p3
    exact h4 _ _ _ _

/-- C3 (as stated, refuted): with the colour unpacking of Math3D the packed-colour overload at
`x = 0` does not hand `p0` back as it is: for `p0 = 0x000000FF` it returns the unpacked colour
`(1, 0, 0, 0)`, each channel scaled by `1/255`, not the channel values `(255, 0, 0, 0)` of
`p0`. -/
theorem Bernstein3D_u32_scales_p0 :
    Bernstein3D_u32 unpackRGBA 255 0 0 0 0 = ⟨1, 0, 0, 0⟩ ∧
    Bernstein3D_u32 unpackRGBA 255 0 0 0 0 ≠ ⟨255, 0, 0, 0⟩ := by
  constructor
  · simp [Bernstein3D_u32, Bernstein3D_Vec4f, unpackRGBA]
  · simp [Bernstein3D_u32, Bernstein3D_Vec4f, unpackRGBA]

/-- C3 (amended): at `x = 0` and `x = 1` the `Vec2f`, `Vec3f` and `Vec4f` overloads of
`Bernstein3D` return `p0` and `p3` themselves, and the packed-colour overload returns the
unpacked colours `FromRGBA p0` and `FromRGBA p3`, whatever the other control values are. -/
theorem Bernstein3D_endpoints :
    (∀ p0 p1 p2 p3 : Vec2f,
      Bernstein3D_Vec2f p0 p1 p2 p3 0 = p0 ∧ Bernstein3D_Vec2f p0 p1 p2 p3 1 = p3) ∧
    (∀ p0 p1 p2 p3 : Vec3f,
      Bernstein3D_Vec3f p0 p1 p2 p3 0 = p0 ∧ Bernstein3D_Vec3f p0 p1 p2 p3 1 = p3) ∧
    (∀ p0 p1 p2 p3 : Vec4f,
      Bernstein3D_Vec4f p0 p1 p2 p3 0 = p0 ∧ Bernstein3D_Vec4f p0 p1 p2 p3 1 = p3) ∧
    (∀ (FromRGBA : Nat → Vec4f) (p0 p1 p2 p3 : Nat),
      Bernstein3D_u32 FromRGBA p0 p1 p2 p3 0 = FromRGBA p0 ∧
      Bernstein3D_u32 FromRGBA p0 p1 p2 p3 1 = FromRGBA p3) := by
  refine ⟨?_, ?_, ?_, ?_⟩
  · intro p0 p1 p2 p3
    simp [Bernstein3D_Vec2f]
  · intro p0 p1 p2 p3
    simp [Bernstein3D_Vec3f]
  · intro p0 p1 p2 p3
    simp [Bernstein3D_Vec4f]
  · intro f p0 p1 p2 p3
    simp [Bernstein3D_u32, Bernstein3D_Vec4f]

theorem spline_knot_fill_apply (n : Nat) (knots : Nat → ℚ) (j : Nat) :
    spline_knot_fill n knots j = if j < n + 2 then (j : ℚ) - 2 else knots j := by
  unfold spline_knot_fill
  generalize n + 2 = m
  induction m with
  | zero => simp
  | succ m ih =>
    rw [List.range_succ, List.foldl_append, List.foldl_cons, List.foldl_nil,
      Function.update_apply, ih]
    by_cases h : j = m
    · subst h
      simp
    · by_cases h2 : j < m
      · have h3 : j < m + 1 := by omega
        simp [h, h2, h3]
      · have h3 : ¬ j < m + 1 := by omega
        simp [h, h2, h3]

theorem spline_knot_start (n type : Nat) (hn : 1 ≤ n) (h : type &&& 1 ≠ 0) (knots0 : Nat → ℚ)
    (divs0 : Nat → KnotDiv) :
    (spline_knot n type knots0 divs0).1 0 = 0 ∧ (spline_knot n type knots0 divs0).1 1 = 0 ∧
    (spline_knot n type knots0 divs0).1 2 = 0 := by
  simp only [spline_knot, ne_eq, h, not_false_eq_true, if_true]
  have h2 : 2 < n + 2 := by omega
  simp [Function.update_apply, spline_knot_fill_apply, h2]

theorem spline_knot_end (n type : Nat) (hn : 1 ≤ n) (h : type &&& 2 ≠ 0) (knots0 : Nat → ℚ) :
    (spline_knot n type knots0 newKnotDivs).1 (n + 1) = (n : ℚ) - 1 ∧
    ((spline_knot n type knots0 newKnotDivs).2 (n - 1))._5_2 = 1 ∧
    ((spline_knot n type knots0 newKnotDivs).2 (n - 1))._4_2 = 1 ∧
    ((spline_knot n type knots0 newKnotDivs).2 (n - 1))._3_2 = 1 := by
  have h1 : n + 1 ≠ 0 := by omega
  have h2 : n + 1 ≠ 1 := by omega
  refine ⟨?_, ?_, ?_, ?_⟩
  · by_cases hb : type &&& 1 = 0
    · simp only [spline_knot, ne_eq, hb, not_true_eq_false, if_false]
      simp [spline_knot_fill_apply]
      ring
    · simp only [spline_knot, ne_eq, hb, not_false_eq_true, if_true]
      simp [Function.update_apply, spline_knot_fill_apply, h1, h2]
      ring
  all_goals
    obtain rfl | ⟨k, rfl⟩ : n = 1 ∨ ∃ k, n = k + 2 := by
      rcases Nat.lt_or_ge n 2 with h | h
      · left; omega
      · right; exact ⟨n - 2, by omega⟩
    · by_cases hb : type &&& 1 = 0 <;>
        simp only [spline_knot, ne_eq, hb, h, not_true_eq_false, not_false_eq_true, if_true,
          if_false] <;>
        simp [Function.update_apply, newKnotDivs]
    · by_cases hb : type &&& 1 = 0 <;>
        simp only [spline_knot, ne_eq, hb, h, not_true_eq_false, not_false_eq_true, if_true,
          if_false] <;>
        simp [Function.update_apply, newKnotDivs] <;>
        split_ifs <;> rfl

theorem spline_n_4_at_start (i : Nat) (t : ℚ) (knot : Nat → ℚ) (div : KnotDiv)
    (h0 : knot i = t) (h1 : knot (i + 1) = t) (h2 : knot (i + 2) = t) :
    (spline_n_4 i t knot div).splineVal = [1, 0, 0, 0] ∧
    (spline_n_4_sse i t knot div).splineVal = [1, 0, 0, 0] := by
  simp [spline_n_4, spline_n_4_sse, h0, h1, h2]

theorem spline_n_4_at_end (i : Nat) (t : ℚ) (knot : Nat → ℚ) (div : KnotDiv)
    (h2 : knot (i + 2) = t - 1) (h52 : div._5_2 = 1) (h42 : div._4_2 = 1) (h32 : div._3_2 = 1) :
    (spline_n_4 i t knot div).splineVal = [0, 0, 0, 1] ∧
    (spline_n_4_sse i t knot div).splineVal = [0, 0, 0, 1] := by
  constructor
  · simp only [spline_n_4, h2, h52, h42, h32, List.cons.injEq, and_true]
    refine ⟨?_, ?_, ?_, ?_⟩ <;> ring
  · simp only [spline_n_4_sse, h2, h52, h42, h32, List.cons.injEq, and_true]
    refine ⟨?_, ?_, ?_, ?_⟩ <;> ring

/-- C4: for every `n ≥ 1` and every type (0..3 included), on the knots and divisors left by
`spline_knot` (run on fresh default divisors and any knot memory): with bit 0 set the weights
of segment 0 at `t = 0` are `(1,0,0,0)`, with bit 1 set the weights of segment `n - 1` at
`t = n` are `(0,0,0,1)`, on both code paths; so accumulating the window along the axis gives
the first, respectively the last, control point itself. -/
theorem spline_open_end_weights (n type : Nat) (hn : 1 ≤ n)
    (knots0 : Nat → ℚ) (p : Nat → Vec3f) :
    (type &&& 1 ≠ 0 →
      (spline_n_4 0 0 (spline_knot n type knots0 newKnotDivs).1
        ((spline_knot n type knots0 newKnotDivs).2 0)).splineVal = [1, 0, 0, 0] ∧
      (spline_n_4_sse 0 0 (spline_knot n type knots0 newKnotDivs).1
        ((spline_knot n type knots0 newKnotDivs).2 0)).splineVal = [1, 0, 0, 0] ∧
      accumulateAxis (spline_n_4 0 0 (spline_knot n type knots0 newKnotDivs).1
        ((spline_knot n type knots0 newKnotDivs).2 0)).splineVal p = p 0) ∧
    (type &&& 2 ≠ 0 →
      (spline_n_4 (n - 1) n (spline_knot n type knots0 newKnotDivs).1
        ((spline_knot n type knots0 newKnotDivs).2 (n - 1))).splineVal = [0, 0, 0, 1] ∧
      (spline_n_4_sse (n - 1) n (spline_knot n type knots0 newKnotDivs).1
        ((spline_knot n type knots0 newKnotDivs).2 (n - 1))).splineVal = [0, 0, 0, 1] ∧
      accumulateAxis (spline_n_4 (n - 1) n (spline_knot n type knots0 newKnotDivs).1
        ((spline_knot n type knots0 newKnotDivs).2 (n - 1))).splineVal p = p 3) := by
  constructor
  · intro h
    obtain ⟨k0, k1, k2⟩ := spline_knot_start n type hn h knots0 newKnotDivs
    obtain ⟨w, wsse⟩ := spline_n_4_at_start 0 0 (spline_knot n type knots0 newKnotDivs).1
      ((spline_knot n type knots0 newKnotDivs).2 0) k0 k1 k2
    refine ⟨w, wsse, ?_⟩
    rw [w]
    simp [accumulateAxis, List.range_succ, AccumulateWeighted, Vec3f.zero, Vec3f_add_def,
      Vec3f_scale_def]
  · intro h
    obtain ⟨k, d52, d42, d32⟩ := spline_knot_end n type hn h knots0
    have k2 : (spline_knot n type knots0 newKnotDivs).1 (n - 1 + 2) = (n : ℚ) - 1 := by
      have e : n - 1 + 2 = n + 1 := by omega
      rw [e]
      exact k
    obtain ⟨w, wsse⟩ := spline_n_4_at_end (n - 1) n (spline_knot n type knots0 newKnotDivs).1
      ((spline_knot n type knots0 newKnotDivs).2 (n - 1)) k2 d52 d42 d32
    refine ⟨w, wsse, ?_⟩
    rw [w]
    simp [accumulateAxis, List.range_succ, AccumulateWeighted, Vec3f.zero, Vec3f_add_def,
      Vec3f_scale_def]

theorem spline_open_end_weights_witness :
    1 ≤ 2 ∧
    (spline_n_4 0 0 (spline_knot 2 3 (fun _ => 7) newKnotDivs).1
        ((spline_knot 2 3 (fun _ => 7) newKnotDivs).2 0)).splineVal = [1, 0, 0, 0] ∧
    (spline_n_4 (2 - 1) (2 : Nat) (spline_knot 2 3 (fun _ => 7) newKnotDivs).1
        ((spline_knot 2 3 (fun _ => 7) newKnotDivs).2 (2 - 1))).splineVal = [0, 0, 0, 1] :=
  ⟨by decide,
   ((spline_open_end_weights 2 3 (by decide) (fun _ => 7) (fun _ => Vec3f.zero)).1
      (by decide)).1,
   ((spline_open_end_weights 2 3 (by decide) (fun _ => 7) (fun _ => Vec3f.zero)).2
      (by decide)).1⟩

/-! ## Output grids: lemmas -/

theorem foldl_append_singleton {α β : Type} (g : β → α) (l : List β) (vs : List α) :
    l.foldl (fun vs i => vs ++ [g i]) vs = vs ++ l.map g := by
  induction l generalizing vs with
  | nil => simp
  | cons a l ih => simp [ih]

theorem foldl_append_rows {α β : Type} (row : β → List α) (l : List β) (vs : List α) :
    l.foldl (fun vs i => vs ++ row i) vs = vs ++ l.flatMap row := by
  induction l generalizing vs with
  | nil => simp
  | cons a l ih => simp [ih]

theorem foldl_measure {σ β : Type} (f : σ → β → σ) (μ : σ → Int) (c : Int)
    (h : ∀ s b, μ (f s b) = μ s + c) (l : List β) (s : σ) :
    μ (l.foldl f s) = μ s + c * (l.length : Int) := by
  induction l generalizing s with
  | nil => simp
  | cons a l ih =>
    rw [List.foldl_cons, ih, h, List.length_cons]
    push_cast
    ring

theorem range_grid (H W : Nat) :
    (List.range H).flatMap (fun tv => (List.range W).map (fun tu => tv * W + tu)) =
      List.range (H * W) := by
  induction H with
  | zero => simp
  | succ H ih =>
    rw [List.range_succ, List.flatMap_append, ih, Nat.succ_mul, List.range_add]
    simp

theorem writeGrid_eq (dest div_u div_v : Int) (vertex : Nat → Nat → SimpleVertex)
    (vs : List (Int × SimpleVertex)) :
    writeGrid dest div_u div_v vertex vs =
      vs ++ (List.range (div_v + 1).toNat).flatMap (fun (tile_v : Nat) =>
        (List.range (div_u + 1).toNat).map (fun (tile_u : Nat) =>
          (dest + ((tile_v : Int) * (div_u + 1) + (tile_u : Int)), vertex tile_u tile_v))) := by
  unfold writeGrid
  simp only [foldl_append_singleton]
  exact foldl_append_rows _ _ _

theorem writeGrid_length (dest div_u div_v : Int) (vertex : Nat → Nat → SimpleVertex)
    (vs : List (Int × SimpleVertex)) :
    (writeGrid dest div_u div_v vertex vs).length =
      vs.length + (div_v + 1).toNat * (div_u + 1).toNat := by
  rw [writeGrid_eq, List.length_append, List.length_flatMap]
  simp [Function.comp_def]

theorem writeGrid_slots (dest div_u div_v : Int) (hu : 0 ≤ div_u + 1)
    (vertex : Nat → Nat → SimpleVertex) (vs : List (Int × SimpleVertex)) :
    (writeGrid dest div_u div_v vertex vs).map Prod.fst =
      vs.map Prod.fst ++
        (List.range ((div_v + 1).toNat * (div_u + 1).toNat)).map
          (fun (k : Nat) => dest + (k : Int)) := by
  rw [writeGrid_eq, List.map_append, ← range_grid, List.map_flatMap, List.map_flatMap]
  congr 1
  apply List.flatMap_congr
  intro tile_v _
  simp only [List.map_map]
  apply List.map_congr_left
  intro tile_u _
  simp only [Function.comp]
  have e : ((div_u + 1).toNat : Int) = div_u + 1 := Int.toNat_of_nonneg hu
  push_cast
  rw [e]

theorem CopyQuadIndex_length (indices : List Int) (type : GEPatchPrimType)
    (idx0 idx1 idx2 idx3 : Int) :
    (CopyQuadIndex indices type idx0 idx1 idx2 idx3).length = indices.length + 6 := by
  unfold CopyQuadIndex
  split <;> simp

theorem tessellateGrid_count (prim_type : GEPatchPrimType) (total div_u div_v : Int)
    (ic : List Int × Int) :
    (tessellateGrid prim_type total div_u div_v ic).2 =
      ic.2 + 6 * ((div_v.toNat * div_u.toNat : Nat) : Int) := by
  unfold tessellateGrid
  have h := foldl_measure (fun (ic : List Int × Int) (tile_v : Nat) =>
    (List.range div_u.toNat).foldl (tessellateCell prim_type total div_u tile_v) ic)
    (fun ic => ic.2) (6 * (div_u.toNat : Int))
    (fun s b => by
      have h2 := foldl_measure (tessellateCell prim_type total div_u b) (fun ic => ic.2) 6
        (fun _ _ => rfl) (List.range div_u.toNat) s
      simpa using h2)
    (List.range div_v.toNat) ic
  simp only [List.length_range] at h
  rw [h]
  push_cast
  ring

theorem tessellateGrid_length (prim_type : GEPatchPrimType) (total div_u div_v : Int)
    (ic : List Int × Int) :
    (tessellateGrid prim_type total div_u div_v ic).1.length =
      ic.1.length + 6 * (div_v.toNat * div_u.toNat) := by
  unfold tessellateGrid
  have h := foldl_measure (fun (ic : List Int × Int) (tile_v : Nat) =>
    (List.range div_u.toNat).foldl (tessellateCell prim_type total div_u tile_v) ic)
    (fun ic => (ic.1.length : Int)) (6 * (div_u.toNat : Int))
    (fun s b => by
      have h2 := foldl_measure (tessellateCell prim_type total div_u b)
        (fun ic => (ic.1.length : Int)) 6
        (fun s b => by simp [tessellateCell, CopyQuadIndex_length])
        (List.range div_u.toNat) s
      simpa using h2)
    (List.range div_v.toNat) ic
  simp only [List.length_range] at h
  have h3 : (((List.foldl (fun (ic : List Int × Int) (tile_v : Nat) =>
      (List.range div_u.toNat).foldl (tessellateCell prim_type total div_u tile_v) ic) ic
      (List.range div_v.toNat)).1.length : Nat) : Int) =
      ((ic.1.length + 6 * (div_v.toNat * div_u.toNat) : Nat) : Int) := by
    rw [h]
    push_cast
    ring
  exact_mod_cast h3

/-! ## Density fitting -/

theorem tdiv_two (a : Int) (h : 0 ≤ a) : a.tdiv 2 = a / 2 :=
  Int.tdiv_eq_ediv h (by decide)

theorem int32_of_range (x : Int) (h0 : -2147483648 ≤ x) (h1 : x < 2147483648) : int32 x = x := by
  unfold int32
  omega

theorem natAbs_tdiv_two (a : Int) : (a.tdiv 2).natAbs = a.natAbs / 2 := by
  rw [Int.natAbs_tdiv]
  rfl

theorem SplinePatchFullQuality_downsample_halts (maxVertices : Int) (hm : 1 ≤ maxVertices)
    (fuel : Nat) :
    ∀ patch_div_s patch_div_t : Int, patch_div_s.natAbs + patch_div_t.natAbs < fuel →
      ∃ s t, SplinePatchFullQuality_downsample fuel patch_div_s patch_div_t maxVertices =
          some (s, t) ∧ int32 ((s + 1) * (t + 1)) ≤ maxVertices := by
  induction fuel with
  | zero =>
    intro s t h
    omega
  | succ fuel ih =>
    intro s t h
    unfold SplinePatchFullQuality_downsample
    by_cases hc : int32 ((s + 1) * (t + 1)) > maxVertices
    · rw [if_pos hc]
      have hpos : 1 ≤ s.natAbs + t.natAbs := by
        by_contra hn
        have h0 : s = 0 := by omega
        have h1 : t = 0 := by omega
        subst h0 h1
        have : int32 ((0 + 1) * (0 + 1)) = 1 := by decide
        omega
      apply ih
      rw [natAbs_tdiv_two, natAbs_tdiv_two]
      omega
    · rw [if_neg hc]
      exact ⟨s, t, rfl, by omega⟩

theorem SplinePatchFullQuality_downsample_fits (maxVertices : Int) (fuel : Nat) :
    ∀ patch_div_s patch_div_t s t : Int, 0 ≤ patch_div_s → 0 ≤ patch_div_t →
      (patch_div_s + 1) * (patch_div_t + 1) < 2147483648 →
      SplinePatchFullQuality_downsample fuel patch_div_s patch_div_t maxVertices = some (s, t) →
      0 ≤ s ∧ 0 ≤ t ∧ (s + 1) * (t + 1) ≤ maxVertices := by
  induction fuel with
  | zero =>
    intro s t a b _ _ _ h
    simp [SplinePatchFullQuality_downsample] at h
  | succ fuel ih =>
    intro s t a b hs ht hr h
    unfold SplinePatchFullQuality_downsample at h
    have hp : 0 ≤ (s + 1) * (t + 1) := Int.mul_nonneg (by omega) (by omega)
    rw [int32_of_range _ (by omega) hr] at h
    by_cases hc : (s + 1) * (t + 1) > maxVertices
    · rw [if_pos hc] at h
      have e1 := tdiv_two s hs
      have e2 := tdiv_two t ht
      refine ih _ _ a b (by omega) (by omega) ?_ h
      have h1 : (s.tdiv 2 + 1) * (t.tdiv 2 + 1) ≤ (s + 1) * (t + 1) :=
        Int.mul_le_mul (by omega) (by omega) (by omega) (by omega)
      omega
    · rw [if_neg hc] at h
      simp only [Option.some.injEq, Prod.mk.injEq] at h
      obtain ⟨rfl, rfl⟩ := h
      exact ⟨hs, ht, by omega⟩

theorem SplinePatchFullQuality_downsample_returns (patch_div_s patch_div_t maxVertices : Int)
    (hm : 1 ≤ maxVertices) :
    ∃ fuel0 : Nat, ∀ fuel : Nat, fuel0 ≤ fuel →
      ∃ s t, SplinePatchFullQuality_downsample fuel patch_div_s patch_div_t maxVertices =
          some (s, t) := by
  refine ⟨patch_div_s.natAbs + patch_div_t.natAbs + 1, fun fuel hf => ?_⟩
  obtain ⟨s, t, e, _⟩ := SplinePatchFullQuality_downsample_halts maxVertices hm fuel
    patch_div_s patch_div_t (by omega)
  exact ⟨s, t, e⟩

theorem SplinePatchFullQuality_patch_div_returns
    (count_u count_v tess_u tess_v quality maxVertices : Int) (hm : 1 ≤ maxVertices) :
    ∃ fuel0 : Nat, ∀ fuel : Nat, fuel0 ≤ fuel →
      ∃ s t, SplinePatchFullQuality_patch_div fuel count_u count_v tess_u tess_v quality
        maxVertices = some (s, t) := by
  obtain ⟨fuel0, hf⟩ := SplinePatchFullQuality_downsample_returns
    (if quality > 1 then
      (if (count_u - 3) * tess_u > 2 then ((count_u - 3) * tess_u).tdiv quality
       else (count_u - 3) * tess_u) else (count_u - 3) * tess_u)
    (if quality > 1 then
      (if (count_v - 3) * tess_v > 2 then ((count_v - 3) * tess_v).tdiv quality
       else (count_v - 3) * tess_v) else (count_v - 3) * tess_v) maxVertices hm
  refine ⟨fuel0, fun fuel hfuel => ?_⟩
  obtain ⟨s, t, e⟩ := hf fuel hfuel
  unfold SplinePatchFullQuality_patch_div
  simp only [e]
  exact ⟨_, _, rfl⟩

/-- C7 (counterexample): starting densities `46340 x 46340`, both non-negative, and
`maxVertices = 100`.  The product `46341 * 46341 = 2147488281` does not fit a 32-bit `int`; the
value the test of line 413 sees is `-2147479015`, which is not above 100, so the loop is left
at once, without a single halving, with densities whose product is far above `maxVertices`:
for no amount of fuel does it return densities that fit.  `SplinePatchFullQuality` reaches these
densities for a 4 x 4 control grid with `tess_u = tess_v = 46340` in high quality. -/
theorem SplinePatchFullQuality_downsample_wraps :
    (1 : Int) ≤ 100 ∧ (0 : Int) ≤ 46340 ∧
    int32 ((46340 + 1) * (46340 + 1)) = -2147479015 ∧
    (∀ fuel : Nat, 1 ≤ fuel →
      SplinePatchFullQuality_downsample fuel 46340 46340 100 = some (46340, 46340)) ∧
    (∀ (fuel : Nat) (s t : Int),
      SplinePatchFullQuality_downsample fuel 46340 46340 100 = some (s, t) →
      ¬ ((s + 1) * (t + 1) ≤ 100)) ∧
    (∀ fuel : Nat, 1 ≤ fuel →
      SplinePatchFullQuality_patch_div fuel 4 4 46340 46340 1 100 = some (46340, 46340)) := by
  have hw : ∀ fuel : Nat, 1 ≤ fuel →
      SplinePatchFullQuality_downsample fuel 46340 46340 100 = some (46340, 46340) := by
    intro fuel hf
    obtain ⟨f, rfl⟩ : ∃ f, fuel = f + 1 := ⟨fuel - 1, by omega⟩
    unfold SplinePatchFullQuality_downsample
    rw [if_neg (by decide)]
  refine ⟨by decide, by decide, by decide, hw, ?_, ?_⟩
  · intro fuel s t h
    cases fuel with
    | zero => simp [SplinePatchFullQuality_downsample] at h
    | succ f =>
      rw [hw (f + 1) (by omega)] at h
      simp only [Option.some.injEq, Prod.mk.injEq] at h
      obtain ⟨rfl, rfl⟩ := h
      decide
  · intro fuel hf
    unfold SplinePatchFullQuality_patch_div
    have q1 : ¬ ((1 : Int) > 1) := by decide
    have c1 : ((4 : Int) - 3) * 46340 = 46340 := by decide
    simp only [q1, if_false, c1, hw fuel hf]
    rfl

/-- C7 (amended): for every `maxVertices ≥ 1` and non-negative starting densities the halving
loop of `SplinePatchFullQuality` terminates: with enough fuel it returns densities `(s, t)`, and
the 32-bit product the test of line 413 computes for them is at most `maxVertices`.  When the
starting product `(patch_div_s + 1) * (patch_div_t + 1)` fits a 32-bit `int` (is below `2^31`),
the densities returned fit: `(s + 1) * (t + 1) ≤ maxVertices`. -/
theorem SplinePatchFullQuality_downsample_terminates (patch_div_s patch_div_t maxVertices : Int)
    (hm : 1 ≤ maxVertices) (hs : 0 ≤ patch_div_s) (ht : 0 ≤ patch_div_t) :
    ∃ fuel0 : Nat, ∀ fuel : Nat, fuel0 ≤ fuel →
      ∃ s t, SplinePatchFullQuality_downsample fuel patch_div_s patch_div_t maxVertices =
          some (s, t) ∧ int32 ((s + 1) * (t + 1)) ≤ maxVertices ∧
        ((patch_div_s + 1) * (patch_div_t + 1) < 2147483648 →
          (s + 1) * (t + 1) ≤ maxVertices) := by
  refine ⟨patch_div_s.natAbs + patch_div_t.natAbs + 1, ?_⟩
  intro fuel hf
  obtain ⟨s, t, e, hfit⟩ := SplinePatchFullQuality_downsample_halts maxVertices hm fuel
    patch_div_s patch_div_t (by omega)
  exact ⟨s, t, e, hfit, fun hr =>
    (SplinePatchFullQuality_downsample_fits maxVertices fuel patch_div_s patch_div_t s t hs ht
      hr e).2.2⟩

theorem SplinePatchFullQuality_downsample_terminates_witness :
    (1 : Int) ≤ 5 ∧ (0 : Int) ≤ 1 ∧ (0 : Int) ≤ 4 ∧
    ∃ fuel0 : Nat, ∀ fuel : Nat, fuel0 ≤ fuel →
      ∃ s t, SplinePatchFullQuality_downsample fuel 1 4 5 = some (s, t) ∧
        int32 ((s + 1) * (t + 1)) ≤ 5 ∧
        (((1 : Int) + 1) * (4 + 1) < 2147483648 → (s + 1) * (t + 1) ≤ 5) :=
  ⟨by decide, by decide, by decide,
   SplinePatchFullQuality_downsample_terminates 1 4 5 (by decide) (by decide) (by decide)⟩

theorem SplinePatchFullQuality_of_patch_div (m : Math3D) (fuel : Nat) (knot_u0 knot_v0 : Nat → ℚ)
    (st : TessState) (spatch : SplinePatchLocal) (origVertType : VertType)
    (quality maxVertices patch_div_s patch_div_t : Int)
    (h : SplinePatchFullQuality_patch_div fuel spatch.count_u spatch.count_v spatch.tess_u
      spatch.tess_v quality maxVertices = some (patch_div_s, patch_div_t)) :
    ∃ st1, SplinePatchFullQuality m fuel knot_u0 knot_v0 st spatch origVertType quality
        maxVertices = some st1 ∧
      st1.dest = st.dest ∧
      st1.vertices = writeGrid st.dest patch_div_s patch_div_t
        (SplinePatchFullQuality_vertex m spatch origVertType
          (spline_knot (spatch.count_u - 3).toNat spatch.type_u knot_u0 newKnotDivs).1
          (spline_knot (spatch.count_v - 3).toNat spatch.type_v knot_v0 newKnotDivs).1
          (spline_knot (spatch.count_u - 3).toNat spatch.type_u knot_u0 newKnotDivs).2
          (spline_knot (spatch.count_v - 3).toNat spatch.type_v knot_v0 newKnotDivs).2
          patch_div_s patch_div_t) st.vertices ∧
      (st1.indices, st1.count) =
        tessellateGrid spatch.primType 0 patch_div_s patch_div_t (st.indices, st.count) := by
  unfold SplinePatchFullQuality
  simp only [h]
  exact ⟨_, rfl, rfl, rfl, rfl⟩

theorem SplinePatchFullQuality_patch_div_overshoots (maxVertices : Int) (h : 2 ≤ maxVertices)
    (hr : maxVertices ≤ 536870912) :
    SplinePatchFullQuality_patch_div 2 4 4 1 (2 * maxVertices - 2) 1 maxVertices =
      some (1, maxVertices - 1) ∧
    maxVertices < (1 + 1) * (maxVertices - 1 + 1) := by
  constructor
  · have r1 : int32 (((1 : Int) + 1) * (2 * maxVertices - 2 + 1)) =
        ((1 : Int) + 1) * (2 * maxVertices - 2 + 1) :=
      int32_of_range _ (by omega) (by omega)
    have r2 : int32 (((0 : Int) + 1) * (maxVertices - 1 + 1)) =
        ((0 : Int) + 1) * (maxVertices - 1 + 1) :=
      int32_of_range _ (by omega) (by omega)
    have h1 : int32 (((1 : Int) + 1) * (2 * maxVertices - 2 + 1)) > maxVertices := by
      rw [r1]
      omega
    have h2 : ¬ (int32 (((0 : Int) + 1) * (maxVertices - 1 + 1)) > maxVertices) := by
      rw [r2]
      omega
    have e1 : (1 : Int).tdiv 2 = 0 := by decide
    have e2 : (2 * maxVertices - 2).tdiv 2 = maxVertices - 1 := by
      rw [tdiv_two _ (by omega)]
      omega
    have hd : SplinePatchFullQuality_downsample 2 1 (2 * maxVertices - 2) maxVertices =
        some (0, maxVertices - 1) := by
      unfold SplinePatchFullQuality_downsample
      rw [if_pos h1, e1, e2]
      unfold SplinePatchFullQuality_downsample
      rw [if_neg h2]
    unfold SplinePatchFullQuality_patch_div
    have q1 : ¬ ((1 : Int) > 1) := by decide
    simp only [q1, if_false]
    have c1 : ((4 : Int) - 3) * 1 = 1 := by decide
    have c2 : ((4 : Int) - 3) * (2 * maxVertices - 2) = 2 * maxVertices - 2 := by omega
    rw [c1, c2, hd]
    have f1 : (0 : Int) < 1 := by decide
    have f2 : ¬ (maxVertices - 1 < 1) := by omega
    simp only [f1, f2, if_true, if_false]
  · omega

/-- C5 (failing input): for a 4 x 4 control grid with `tess_u = 1`, `tess_v = 4`, high quality
(`quality = 1`) and room for `maxVertices = 5` vertices, the loop stops at densities `(0, 2)`,
the floor at 1 turns them into `(1, 2)`, and `SplinePatchFullQuality` writes the six slots
`0..5`: one more vertex than the buffer holds. -/
theorem SplinePatchFullQuality_exceeds_maxVertices (m : Math3D) (knot_u0 knot_v0 : Nat → ℚ)
    (type_u type_v : Nat) (points : Int → SimpleVertex) (computeNormals patchFacing : Bool)
    (primType : GEPatchPrimType) (origVertType : VertType) :
    SplinePatchFullQuality_downsample 2 1 4 5 = some (0, 2) ∧
    SplinePatchFullQuality_patch_div 2 4 4 1 4 1 5 = some (1, 2) ∧
    ∃ st, SplinePatchFullQuality m 2 knot_u0 knot_v0 TessState.init
        { tess_u := 1, tess_v := 4, type_u := type_u, type_v := type_v, count_u := 4,
          count_v := 4, points := points, computeNormals := computeNormals,
          primType := primType, patchFacing := patchFacing } origVertType 1 5 = some st ∧
      st.vertices.map Prod.fst = [0, 1, 2, 3, 4, 5] ∧
      (5 : Int) < ((1 : Int) + 1) * (2 + 1) := by
  have hd : SplinePatchFullQuality_downsample 2 1 4 5 = some (0, 2) := by decide
  have hp : SplinePatchFullQuality_patch_div 2 4 4 1 4 1 5 = some (1, 2) := by decide
  refine ⟨hd, hp, ?_⟩
  obtain ⟨st, e, _, hv, _⟩ := SplinePatchFullQuality_of_patch_div m 2 knot_u0 knot_v0
    TessState.init
    { tess_u := 1, tess_v := 4, type_u := type_u, type_v := type_v, count_u := 4,
      count_v := 4, points := points, computeNormals := computeNormals,
      primType := primType, patchFacing := patchFacing } origVertType 1 5 1 2 hp
  refine ⟨st, e, ?_, by decide⟩
  rw [hv, writeGrid_slots _ _ _ (by decide)]
  decide

theorem foldl_range_measure {σ : Type} (f : Nat → σ → Nat → σ) (μ : σ → Int) (c : Int)
    (h : ∀ a s b, μ (f a s b) = μ s + c) (H W : Nat) (s : σ) :
    μ ((List.range H).foldl (fun s a => (List.range W).foldl (f a) s) s) =
      μ s + c * ((H * W : Nat) : Int) := by
  have h1 := foldl_measure (fun s a => (List.range W).foldl (f a) s) μ (c * (W : Int))
    (fun s a => by
      have h2 := foldl_measure (f a) μ c (h a) (List.range W) s
      simpa using h2)
    (List.range H) s
  rw [h1, List.length_range]
  push_cast
  ring

theorem _BezierPatchHighQuality_counts (m : Math3D) (st : TessState) (tess_u tess_v : Int)
    (patch : BezierPatch) (origVertType : VertType) :
    (_BezierPatchHighQuality m st tess_u tess_v patch origVertType).dest =
      st.dest + (tess_u + 1) * (tess_v + 1) ∧
    (_BezierPatchHighQuality m st tess_u tess_v patch origVertType).vertices.length =
      st.vertices.length + (tess_v + 1).toNat * (tess_u + 1).toNat ∧
    (_BezierPatchHighQuality m st tess_u tess_v patch origVertType).indices.length =
      st.indices.length + 6 * (tess_v.toNat * tess_u.toNat) ∧
    (_BezierPatchHighQuality m st tess_u tess_v patch origVertType).count =
      st.count + 6 * ((tess_v.toNat * tess_u.toNat : Nat) : Int) := by
  refine ⟨rfl, ?_, ?_, ?_⟩
  · exact writeGrid_length _ _ _ _ _
  · exact tessellateGrid_length _ _ _ _ _
  · exact tessellateGrid_count _ _ _ _ _

theorem _BezierPatchLowQuality_tile_counts (m : Math3D) (patch : BezierPatch)
    (origVertType : VertType) (tile_v : Nat) (st : TessState) (tile_u : Nat) :
    (_BezierPatchLowQuality_tile m patch origVertType tile_v st tile_u).dest = st.dest + 4 ∧
    (_BezierPatchLowQuality_tile m patch origVertType tile_v st tile_u).vertices.length =
      st.vertices.length + 4 ∧
    (_BezierPatchLowQuality_tile m patch origVertType tile_v st tile_u).indices.length =
      st.indices.length + 6 ∧
    (_BezierPatchLowQuality_tile m patch origVertType tile_v st tile_u).count = st.count + 6 := by
  simp [_BezierPatchLowQuality_tile, CopyQuad, CopyQuadIndex_length]

theorem _BezierPatchLowQuality_counts (m : Math3D) (st : TessState) (tess_u tess_v : Int)
    (patch : BezierPatch) (origVertType : VertType) :
    (_BezierPatchLowQuality m st tess_u tess_v patch origVertType).dest = st.dest + 36 ∧
    (_BezierPatchLowQuality m st tess_u tess_v patch origVertType).vertices.length =
      st.vertices.length + 36 ∧
    (_BezierPatchLowQuality m st tess_u tess_v patch origVertType).indices.length =
      st.indices.length + 54 ∧
    (_BezierPatchLowQuality m st tess_u tess_v patch origVertType).count = st.count + 54 := by
  unfold _BezierPatchLowQuality
  have hd := foldl_range_measure (_BezierPatchLowQuality_tile m patch origVertType)
    (fun st => st.dest) 4
    (fun a s b => (_BezierPatchLowQuality_tile_counts m patch origVertType a s b).1) 3 3 st
  have hv := foldl_range_measure (_BezierPatchLowQuality_tile m patch origVertType)
    (fun st => (st.vertices.length : Int)) 4
    (fun a s b => by
      simp [(_BezierPatchLowQuality_tile_counts m patch origVertType a s b).2.1]) 3 3 st
  have hi := foldl_range_measure (_BezierPatchLowQuality_tile m patch origVertType)
    (fun st => (st.indices.length : Int)) 6
    (fun a s b => by
      simp [(_BezierPatchLowQuality_tile_counts m patch origVertType a s b).2.2.1]) 3 3 st
  have hc := foldl_range_measure (_BezierPatchLowQuality_tile m patch origVertType)
    (fun st => st.count) 6
    (fun a s b => (_BezierPatchLowQuality_tile_counts m patch origVertType a s b).2.2.2) 3 3 st
  simp only at hd hv hi hc
  refine ⟨?_, ?_, ?_, ?_⟩
  · rw [hd]; norm_num
  · have : ((36 : Nat) : Int) = 4 * ((3 * 3 : Nat) : Int) := by norm_num
    omega
  · have : ((54 : Nat) : Int) = 6 * ((3 * 3 : Nat) : Int) := by norm_num
    omega
  · rw [hc]; norm_num

theorem TessellateBezierPatch_eq_high (m : Math3D) (q : SplineQuality)
    (hq : q ≠ SplineQuality.LOW_QUALITY) (st : TessState) (tess_u tess_v : Int)
    (patch : BezierPatch) (origVertType : VertType) :
    TessellateBezierPatch m q st tess_u tess_v patch origVertType =
      _BezierPatchHighQuality m st (TessellateBezierPatch_densities q tess_u tess_v).1
        (TessellateBezierPatch_densities q tess_u tess_v).2 patch origVertType := by
  cases q with
  | LOW_QUALITY => exact absurd rfl hq
  | MEDIUM_QUALITY => rfl
  | HIGH_QUALITY => rfl

theorem SubmitBezier_software_of_downsample (m : Math3D) (q : SplineQuality) (fuel : Nat)
    (points : Int → SimpleVertex) (patches0 : Int → BezierPatch)
    (tess_u tess_v count_u count_v : Int) (prim_type : GEPatchPrimType)
    (computeNormals patchFacing : Bool) (origVertType : VertType) (maxVertices a b : Int)
    (h : SubmitBezier_downsample fuel (if tess_u < 1 then 1 else tess_u)
      (if tess_v < 1 then 1 else tess_v) ((count_u - 1).tdiv 3) ((count_v - 1).tdiv 3)
      maxVertices = some (a, b)) :
    SubmitBezier_software m q fuel points patches0 tess_u tess_v count_u count_v prim_type
        computeNormals patchFacing origVertType maxVertices =
      some ((List.range ((count_u - 1).tdiv 3 * (count_v - 1).tdiv 3).toNat).foldl
        (fun (st : TessState) (patch_idx : Nat) =>
          TessellateBezierPatch m q st a b
            (SubmitBezier_patches points count_u ((count_u - 1).tdiv 3) ((count_v - 1).tdiv 3)
              prim_type computeNormals patchFacing patches0 (patch_idx : Int)) origVertType)
        TessState.init) := by
  unfold SubmitBezier_software
  simp only [h]

theorem SubmitBezier_software_high_counts (m : Math3D) (q : SplineQuality)
    (hq : q ≠ SplineQuality.LOW_QUALITY) (fuel : Nat)
    (points : Int → SimpleVertex) (patches0 : Int → BezierPatch)
    (tess_u tess_v count_u count_v : Int) (prim_type : GEPatchPrimType)
    (computeNormals patchFacing : Bool) (origVertType : VertType) (maxVertices a b : Int)
    (h : SubmitBezier_downsample fuel (if tess_u < 1 then 1 else tess_u)
      (if tess_v < 1 then 1 else tess_v) ((count_u - 1).tdiv 3) ((count_v - 1).tdiv 3)
      maxVertices = some (a, b)) :
    ∃ st, SubmitBezier_software m q fuel points patches0 tess_u tess_v count_u count_v
        prim_type computeNormals patchFacing origVertType maxVertices = some st ∧
      (st.vertices.length : Int) =
        ((((TessellateBezierPatch_densities q a b).2 + 1).toNat *
            ((TessellateBezierPatch_densities q a b).1 + 1).toNat : Nat) : Int) *
          (((count_u - 1).tdiv 3 * (count_v - 1).tdiv 3).toNat : Int) ∧
      (st.indices.length : Int) =
        6 * (((TessellateBezierPatch_densities q a b).2.toNat *
            (TessellateBezierPatch_densities q a b).1.toNat : Nat) : Int) *
          (((count_u - 1).tdiv 3 * (count_v - 1).tdiv 3).toNat : Int) ∧
      st.count =
        6 * (((TessellateBezierPatch_densities q a b).2.toNat *
            (TessellateBezierPatch_densities q a b).1.toNat : Nat) : Int) *
          (((count_u - 1).tdiv 3 * (count_v - 1).tdiv 3).toNat : Int) := by
  refine ⟨_, SubmitBezier_software_of_downsample m q fuel points patches0 tess_u tess_v count_u
    count_v prim_type computeNormals patchFacing origVertType maxVertices a b h, ?_, ?_, ?_⟩
  · refine (foldl_measure _ (fun (st : TessState) => (st.vertices.length : Int))
      ((((TessellateBezierPatch_densities q a b).2 + 1).toNat *
        ((TessellateBezierPatch_densities q a b).1 + 1).toNat : Nat) : Int) ?_ _ _).trans ?_
    · intro st idx
      simp only [TessellateBezierPatch_eq_high m q hq]
      rw [(_BezierPatchHighQuality_counts m st _ _ _ origVertType).2.1]
      push_cast
      rfl
    · simp [TessState.init]
  · refine (foldl_measure _ (fun (st : TessState) => (st.indices.length : Int))
      (6 * (((TessellateBezierPatch_densities q a b).2.toNat *
        (TessellateBezierPatch_densities q a b).1.toNat : Nat) : Int)) ?_ _ _).trans ?_
    · intro st idx
      simp only [TessellateBezierPatch_eq_high m q hq]
      rw [(_BezierPatchHighQuality_counts m st _ _ _ origVertType).2.2.1]
      push_cast
      rfl
    · simp [TessState.init]
  · refine (foldl_measure _ (fun (st : TessState) => st.count)
      (6 * (((TessellateBezierPatch_densities q a b).2.toNat *
        (TessellateBezierPatch_densities q a b).1.toNat : Nat) : Int)) ?_ _ _).trans ?_
    · intro st idx
      simp only [TessellateBezierPatch_eq_high m q hq]
      rw [(_BezierPatchHighQuality_counts m st _ _ _ origVertType).2.2.2]
    · simp [TessState.init]

/-- C6 (failing input): in medium quality, for a 4 x 4 control grid (one sub-patch) with
`tess_u = tess_v = 1` and room for `maxVertices = 3` vertices, the loop of `SubmitBezier` stops at
densities `(0, 0)`, `TessellateBezierPatch` passes `(max(0/2,1), max(0/2,1)) = (1, 1)` on, and
`_BezierPatchHighQuality` writes the four slots `0..3`.  Likewise for a 253 x 232 grid
(84 x 77 sub-patches) with `tess_u = 1`, `tess_v = 16` and `maxVertices = 58254`: the loop stops
at `(0, 8)`, densities `(1, 4)` are passed on and `6468 * 10 = 64680` vertices are written. -/
theorem SubmitBezier_medium_exceeds_maxVertices (m : Math3D) (points : Int → SimpleVertex)
    (patches0 : Int → BezierPatch) (prim_type : GEPatchPrimType)
    (computeNormals patchFacing : Bool) (origVertType : VertType) :
    SubmitBezier_downsample 2 1 1 ((4 - 1 : Int).tdiv 3) ((4 - 1 : Int).tdiv 3) 3 = some (0, 0) ∧
    TessellateBezierPatch_densities SplineQuality.MEDIUM_QUALITY 0 0 = (1, 1) ∧
    (∃ st, SubmitBezier_software m SplineQuality.MEDIUM_QUALITY 2 points patches0 1 1 4 4
        prim_type computeNormals patchFacing origVertType 3 = some st ∧
      st.vertices.map Prod.fst = [0, 1, 2, 3] ∧ 3 < st.vertices.length) ∧
    SubmitBezier_downsample 2 1 16 ((253 - 1 : Int).tdiv 3) ((232 - 1 : Int).tdiv 3) 58254 =
      some (0, 8) ∧
    TessellateBezierPatch_densities SplineQuality.MEDIUM_QUALITY 0 8 = (1, 4) ∧
    (∃ st, SubmitBezier_software m SplineQuality.MEDIUM_QUALITY 2 points patches0 1 16 253 232
        prim_type computeNormals patchFacing origVertType 58254 = some st ∧
      (st.vertices.length : Int) = 64680 ∧ (58254 : Int) < st.vertices.length) := by
  have h1 : SubmitBezier_downsample 2 1 1 ((4 - 1 : Int).tdiv 3) ((4 - 1 : Int).tdiv 3) 3 =
      some (0, 0) := by decide
  have h2 : SubmitBezier_downsample 2 1 16 ((253 - 1 : Int).tdiv 3) ((232 - 1 : Int).tdiv 3)
      58254 = some (0, 8) := by decide
  refine ⟨h1, by decide, ?_, h2, by decide, ?_⟩
  · refine ⟨_, SubmitBezier_software_of_downsample m SplineQuality.MEDIUM_QUALITY 2 points
      patches0 1 1 4 4 prim_type computeNormals patchFacing origVertType 3 0 0 h1, ?_⟩
    have e : ((4 - 1 : Int).tdiv 3 * (4 - 1 : Int).tdiv 3).toNat = 1 := by decide
    rw [e]
    simp only [List.range_succ, List.range_zero, List.nil_append, List.foldl_cons,
      List.foldl_nil]
    rw [TessellateBezierPatch_eq_high m _ (by decide)]
    have hs := writeGrid_slots (TessState.init).dest 1 1 (by decide)
      (_BezierPatchHighQuality_vertex m 1 1
        (SubmitBezier_patches points 4 ((4 - 1 : Int).tdiv 3) ((4 - 1 : Int).tdiv 3) prim_type
          computeNormals patchFacing patches0 ((0 : Nat) : Int)) origVertType)
      (TessState.init).vertices
    have hl := congrArg List.length hs
    simp only [List.length_map] at hl
    constructor
    · exact hs.trans (by decide)
    · exact hl.symm ▸ (by decide)
  · obtain ⟨st, e, hv, _, _⟩ := SubmitBezier_software_high_counts m
      SplineQuality.MEDIUM_QUALITY (by decide) 2 points patches0 1 16 253 232 prim_type
      computeNormals patchFacing origVertType 58254 0 8 h2
    refine ⟨st, e, ?_, ?_⟩
    · rw [hv]
      decide
    · rw [hv]
      decide

theorem toNat_mul_cast (a b : Int) (ha : 0 ≤ a) (hb : 0 ≤ b) :
    ((b.toNat * a.toNat : Nat) : Int) = a * b := by
  push_cast
  rw [Int.toNat_of_nonneg ha, Int.toNat_of_nonneg hb]
  ring

theorem SplinePatchFullQuality_patch_div_ge_one (fuel : Nat)
    (count_u count_v tess_u tess_v quality maxVertices s t : Int)
    (h : SplinePatchFullQuality_patch_div fuel count_u count_v tess_u tess_v quality
      maxVertices = some (s, t)) : 1 ≤ s ∧ 1 ≤ t := by
  unfold SplinePatchFullQuality_patch_div at h
  simp only at h
  split at h
  · exact absurd h (by simp)
  · simp only [Option.some.injEq, Prod.mk.injEq] at h
    obtain ⟨rfl, rfl⟩ := h
    constructor <;> split <;> omega

theorem num_patches_pos (count : Int) (h : 4 ≤ count) : 1 ≤ (count - 1).tdiv 3 := by
  rw [Int.tdiv_eq_ediv (by omega) (by decide)]
  omega

theorem _BezierPatchHighQuality_output (m : Math3D) (st : TessState) (tess_u tess_v : Int)
    (patch : BezierPatch) (origVertType : VertType) (hu : 0 ≤ tess_u) (hv : 0 ≤ tess_v) :
    (_BezierPatchHighQuality m st tess_u tess_v patch origVertType).vertices.map Prod.fst =
      st.vertices.map Prod.fst ++
        (List.range ((tess_u + 1) * (tess_v + 1)).toNat).map
          (fun (k : Nat) => st.dest + (k : Int)) ∧
    ((_BezierPatchHighQuality m st tess_u tess_v patch origVertType).vertices.length : Int) =
      st.vertices.length + (tess_u + 1) * (tess_v + 1) ∧
    (_BezierPatchHighQuality m st tess_u tess_v patch origVertType).dest =
      st.dest + (tess_u + 1) * (tess_v + 1) ∧
    ((_BezierPatchHighQuality m st tess_u tess_v patch origVertType).indices.length : Int) =
      st.indices.length + 6 * tess_u * tess_v ∧
    (_BezierPatchHighQuality m st tess_u tess_v patch origVertType).count =
      st.count + 6 * tess_u * tess_v := by
  obtain ⟨hd, hl, hi, hc⟩ := _BezierPatchHighQuality_counts m st tess_u tess_v patch origVertType
  have e1 := toNat_mul_cast (tess_u + 1) (tess_v + 1) (by omega) (by omega)
  have e2 := toNat_mul_cast tess_u tess_v hu hv
  have e3 : (tess_v + 1).toNat * (tess_u + 1).toNat = ((tess_u + 1) * (tess_v + 1)).toNat := by
    have h : (((tess_v + 1).toNat * (tess_u + 1).toNat : Nat) : Int) =
        ((((tess_u + 1) * (tess_v + 1)).toNat : Nat) : Int) := by
      rw [e1]
      exact (Int.toNat_of_nonneg (by positivity)).symm
    exact_mod_cast h
  refine ⟨?_, ?_, hd, ?_, ?_⟩
  · show (writeGrid _ _ _ _ _).map Prod.fst = _
    rw [writeGrid_slots _ _ _ (by omega), e3]
  · rw [hl]
    push_cast
    push_cast at e1
    rw [e1]
  · rw [hi]
    push_cast
    push_cast at e2
    rw [e2]; ring
  · rw [hc, e2]; ring

/-- C10: `_BezierPatchHighQuality` with densities `tess_u, tess_v ≥ 1` writes exactly the
`(tess_u + 1) * (tess_v + 1)` vertex slots following `dest`, advances `dest` by that many
records, and appends `6 * tess_u * tess_v` indices (adding as much to `count`); run through
the software path of `SubmitBezier` in high quality for `count_u = count_v = 4` and
`tess_u = tess_v = 4`, with a buffer of at least 25 vertices, that is one sub-patch of 25
vertices (slots 0..24) and 96 indices. -/
theorem BezierPatchHighQuality_vertices_and_indices (m : Math3D) (st : TessState)
    (tess_u tess_v : Int) (patch : BezierPatch) (origVertType : VertType)
    (hu : 1 ≤ tess_u) (hv : 1 ≤ tess_v) :
    ((_BezierPatchHighQuality m st tess_u tess_v patch origVertType).vertices.map Prod.fst =
      st.vertices.map Prod.fst ++
        (List.range ((tess_u + 1) * (tess_v + 1)).toNat).map
          (fun (k : Nat) => st.dest + (k : Int)) ∧
    ((_BezierPatchHighQuality m st tess_u tess_v patch origVertType).vertices.length : Int) =
      st.vertices.length + (tess_u + 1) * (tess_v + 1) ∧
    (_BezierPatchHighQuality m st tess_u tess_v patch origVertType).dest =
      st.dest + (tess_u + 1) * (tess_v + 1) ∧
    ((_BezierPatchHighQuality m st tess_u tess_v patch origVertType).indices.length : Int) =
      st.indices.length + 6 * tess_u * tess_v ∧
    (_BezierPatchHighQuality m st tess_u tess_v patch origVertType).count =
      st.count + 6 * tess_u * tess_v) ∧
    (∀ (fuel : Nat) (points : Int → SimpleVertex) (patches0 : Int → BezierPatch)
        (prim_type : GEPatchPrimType) (computeNormals patchFacing : Bool) (maxVertices : Int),
      1 ≤ fuel → 25 ≤ maxVertices →
      (4 - 1 : Int).tdiv 3 * (4 - 1 : Int).tdiv 3 = 1 ∧
      ∃ st1, SubmitBezier_software m SplineQuality.HIGH_QUALITY fuel points patches0 4 4 4 4
          prim_type computeNormals patchFacing origVertType maxVertices = some st1 ∧
        st1.vertices.map Prod.fst = (List.range 25).map (fun (k : Nat) => (k : Int)) ∧
        st1.vertices.length = 25 ∧ st1.dest = 25 ∧ st1.indices.length = 96 ∧
        st1.count = 96) := by
  refine ⟨_BezierPatchHighQuality_output m st tess_u tess_v patch origVertType (by omega)
    (by omega), ?_⟩
  intro fuel points patches0 prim cn pf maxVertices hf hm
  refine ⟨by decide, ?_⟩
  obtain ⟨f, rfl⟩ : ∃ f, fuel = f + 1 := ⟨fuel - 1, by omega⟩
  have e1 : (if (4 : Int) < 1 then (1 : Int) else 4) = 4 := by decide
  have e2 : (4 - 1 : Int).tdiv 3 = 1 := by decide
  have hd : SubmitBezier_downsample (f + 1) (if (4 : Int) < 1 then 1 else 4)
      (if (4 : Int) < 1 then 1 else 4) ((4 - 1 : Int).tdiv 3) ((4 - 1 : Int).tdiv 3)
      maxVertices = some (4, 4) := by
    rw [e1, e2]
    unfold SubmitBezier_downsample
    rw [if_neg (by omega)]
  refine ⟨_, SubmitBezier_software_of_downsample m SplineQuality.HIGH_QUALITY (f + 1) points
    patches0 4 4 4 4 prim cn pf origVertType maxVertices 4 4 hd, ?_⟩
  have e : ((4 - 1 : Int).tdiv 3 * (4 - 1 : Int).tdiv 3).toNat = 1 := by decide
  rw [e]
  have r1 : List.range 1 = [0] := rfl
  rw [r1]
  simp only [List.foldl_cons, List.foldl_nil]
  obtain ⟨hs, hl, hdest, hi, hc⟩ := _BezierPatchHighQuality_output m TessState.init 4 4
    (SubmitBezier_patches points 4 ((4 - 1 : Int).tdiv 3) ((4 - 1 : Int).tdiv 3) prim cn pf
      patches0 ((0 : Nat) : Int)) origVertType (by decide) (by decide)
  have h0 : TessState.init.count = 0 := rfl
  have h1 : TessState.init.indices = [] := rfl
  have h2 : TessState.init.vertices = [] := rfl
  have h3 : TessState.init.dest = 0 := rfl
  rw [h2, h3] at hs
  rw [h2] at hl
  rw [h3] at hdest
  rw [h1] at hi
  rw [h0] at hc
  refine ⟨?_, ?_, ?_, ?_, ?_⟩
  · show (_BezierPatchHighQuality m TessState.init 4 4 _ origVertType).vertices.map Prod.fst = _
    rw [hs]
    simp
  · show (_BezierPatchHighQuality m TessState.init 4 4 _ origVertType).vertices.length = _
    norm_num at hl
    exact_mod_cast hl
  · show (_BezierPatchHighQuality m TessState.init 4 4 _ origVertType).dest = _
    rw [hdest]
    decide
  · show (_BezierPatchHighQuality m TessState.init 4 4 _ origVertType).indices.length = _
    norm_num at hi
    exact_mod_cast hi
  · show (_BezierPatchHighQuality m TessState.init 4 4 _ origVertType).count = _
    rw [hc]
    decide

theorem BezierPatchHighQuality_vertices_and_indices_witness :
    (1 : Int) ≤ 4 ∧ (1 : Int) ≤ 4 ∧
    (_BezierPatchHighQuality ⟨unpackRGBA, fun _ => 0, fun v => v⟩ TessState.init 4 4
      ⟨fun _ => ⟨⟨0, 0⟩, 0, ⟨0, 0, 0⟩, ⟨0, 0, 0⟩⟩, 0, 0, 0,
        GEPatchPrimType.GE_PATCHPRIM_TRIANGLES, true, false⟩ ⟨false, false, false⟩).dest =
      TessState.init.dest + (4 + 1) * (4 + 1) :=
  ⟨by decide, by decide,
   (BezierPatchHighQuality_vertices_and_indices ⟨unpackRGBA, fun _ => 0, fun v => v⟩
      TessState.init 4 4
      ⟨fun _ => ⟨⟨0, 0⟩, 0, ⟨0, 0, 0⟩, ⟨0, 0, 0⟩⟩, 0, 0, 0,
        GEPatchPrimType.GE_PATCHPRIM_TRIANGLES, true, false⟩ ⟨false, false, false⟩
      (by decide) (by decide)).1.2.2.1⟩

/-! ## Low quality Bezier tessellation -/

theorem _BezierPatchLowQuality_slots (m : Math3D) (st : TessState) (tess_u tess_v : Int)
    (patch : BezierPatch) (origVertType : VertType) :
    (_BezierPatchLowQuality m st tess_u tess_v patch origVertType).vertices.map Prod.fst =
      st.vertices.map Prod.fst ++ (List.range 36).map (fun (k : Nat) => st.dest + (k : Int)) := by
  simp [_BezierPatchLowQuality, _BezierPatchLowQuality_tile, CopyQuad, List.range_succ,
    add_assoc]

/-- C11 (as stated, refuted): on a 4 x 4 Bezier sub-patch, from the empty output state,
`_BezierPatchLowQuality` writes 36 vertices, not 4, and leaves the index count at 54, not 6. -/
theorem BezierPatchLowQuality_not_one_quad :
    (_BezierPatchLowQuality ⟨unpackRGBA, fun _ => 0, fun v => v⟩ TessState.init 1 1
      ⟨fun _ => ⟨⟨0, 0⟩, 0, ⟨0, 0, 0⟩, ⟨0, 0, 0⟩⟩, 0, 0, 0,
        GEPatchPrimType.GE_PATCHPRIM_TRIANGLES, false, false⟩
      ⟨false, false, false⟩).vertices.length = 36 ∧
    (_BezierPatchLowQuality ⟨unpackRGBA, fun _ => 0, fun v => v⟩ TessState.init 1 1
      ⟨fun _ => ⟨⟨0, 0⟩, 0, ⟨0, 0, 0⟩, ⟨0, 0, 0⟩⟩, 0, 0, 0,
        GEPatchPrimType.GE_PATCHPRIM_TRIANGLES, false, false⟩
      ⟨false, false, false⟩).count = 54 := by
  constructor
  · exact (_BezierPatchLowQuality_counts _ TessState.init 1 1 _ _).2.1
  · exact (_BezierPatchLowQuality_counts _ TessState.init 1 1 _ _).2.2.2

/-- C11 (amended): in low quality a 4 x 4 Bezier sub-patch produces nine quads, one per tile of
its 3 x 3 tiles: `_BezierPatchLowQuality` writes the 36 vertex slots following `dest`, advances
`dest` by 36, appends 54 indices and adds 54 to the index count. -/
theorem BezierPatchLowQuality_nine_quads (m : Math3D) (st : TessState) (tess_u tess_v : Int)
    (patch : BezierPatch) (origVertType : VertType) :
    (_BezierPatchLowQuality m st tess_u tess_v patch origVertType).vertices.map Prod.fst =
      st.vertices.map Prod.fst ++ (List.range 36).map (fun (k : Nat) => st.dest + (k : Int)) ∧
    (_BezierPatchLowQuality m st tess_u tess_v patch origVertType).vertices.length =
      st.vertices.length + 4 * 9 ∧
    (_BezierPatchLowQuality m st tess_u tess_v patch origVertType).dest = st.dest + 4 * 9 ∧
    (_BezierPatchLowQuality m st tess_u tess_v patch origVertType).indices.length =
      st.indices.length + 6 * 9 ∧
    (_BezierPatchLowQuality m st tess_u tess_v patch origVertType).count = st.count + 6 * 9 := by
  obtain ⟨hd, hv, hi, hc⟩ := _BezierPatchLowQuality_counts m st tess_u tess_v patch origVertType
  exact ⟨_BezierPatchLowQuality_slots m st tess_u tess_v patch origVertType, hv, hd, hi, hc⟩

/-! ## Uniform basis and Bernstein derivatives -/

theorem spline_knot_closed (n : Nat) (knots0 : Nat → ℚ) (divs0 : Nat → KnotDiv) :
    (∀ j, j < n + 2 → (spline_knot n 0 knots0 divs0).1 j = (j : ℚ) - 2) ∧
    (spline_knot n 0 knots0 divs0).2 = divs0 := by
  constructor
  · intro j hj
    simp [spline_knot, spline_knot_fill_apply, hj]
  · simp [spline_knot]

theorem spline_n_4_uniform_weights (i : Nat) (s : ℚ) (knot : Nat → ℚ)
    (h0 : knot i = (i : ℚ) - 2) (h1 : knot (i + 1) = ((i + 1 : Nat) : ℚ) - 2)
    (h2 : knot (i + 2) = ((i + 2 : Nat) : ℚ) - 2) :
    (spline_n_4 i ((i : ℚ) + s) knot {}).splineVal =
      [(1 - s) ^ 3 / 6, (3 * s ^ 3 - 6 * s ^ 2 + 4) / 6,
       (-3 * s ^ 3 + 3 * s ^ 2 + 3 * s + 1) / 6, s ^ 3 / 6] ∧
    (spline_n_4_sse i ((i : ℚ) + s) knot {}).splineVal =
      [(1 - s) ^ 3 / 6, (3 * s ^ 3 - 6 * s ^ 2 + 4) / 6,
       (-3 * s ^ 3 + 3 * s ^ 2 + 3 * s + 1) / 6, s ^ 3 / 6] := by
  constructor
  · simp only [spline_n_4, add_zero, h0, h1, h2, List.cons.injEq, and_true]
    push_cast
    refine ⟨?_, ?_, ?_, ?_⟩ <;> ring
  · simp only [spline_n_4_sse, add_zero, h0, h1, h2, List.cons.injEq, and_true]
    push_cast
    refine ⟨?_, ?_, ?_, ?_⟩ <;> ring

/-- C15: on a closed axis (type 0: the knots `j - 2` and the default divisors left by
`spline_knot`), for every segment `i < n` and every `t = i + s`, `spline_n_4` returns the
uniform cubic B-spline weights `((1-s)^3/6, (3s^3-6s^2+4)/6, (-3s^3+3s^2+3s+1)/6, s^3/6)`, on
both code paths. -/
theorem spline_n_4_closed_axis_uniform (n i : Nat) (hi : i < n) (s : ℚ) (knots0 : Nat → ℚ) :
    (spline_knot n 0 knots0 newKnotDivs).2 i =
      { _3_0 := 1 / 3, _4_1 := 1 / 3, _5_2 := 1 / 3, _3_1 := 1 / 2, _4_2 := 1 / 2, _3_2 := 1 } ∧
    (spline_n_4 i ((i : ℚ) + s) (spline_knot n 0 knots0 newKnotDivs).1
        ((spline_knot n 0 knots0 newKnotDivs).2 i)).splineVal =
      [(1 - s) ^ 3 / 6, (3 * s ^ 3 - 6 * s ^ 2 + 4) / 6,
       (-3 * s ^ 3 + 3 * s ^ 2 + 3 * s + 1) / 6, s ^ 3 / 6] ∧
    (spline_n_4_sse i ((i : ℚ) + s) (spline_knot n 0 knots0 newKnotDivs).1
        ((spline_knot n 0 knots0 newKnotDivs).2 i)).splineVal =
      [(1 - s) ^ 3 / 6, (3 * s ^ 3 - 6 * s ^ 2 + 4) / 6,
       (-3 * s ^ 3 + 3 * s ^ 2 + 3 * s + 1) / 6, s ^ 3 / 6] := by
  obtain ⟨hk, hd⟩ := spline_knot_closed n knots0 newKnotDivs
  have e : (spline_knot n 0 knots0 newKnotDivs).2 i = {} := by rw [hd]; rfl
  rw [e]
  exact ⟨rfl, spline_n_4_uniform_weights i s _ (hk i (by omega)) (hk (i + 1) (by omega))
    (hk (i + 2) (by omega))⟩

theorem spline_n_4_closed_axis_uniform_witness :
    1 < 2 ∧
    (spline_n_4 1 (((1 : Nat) : ℚ) + 1 / 2) (spline_knot 2 0 (fun _ => 7) newKnotDivs).1
        ((spline_knot 2 0 (fun _ => 7) newKnotDivs).2 1)).splineVal =
      [(1 - 1 / 2) ^ 3 / 6, (3 * (1 / 2) ^ 3 - 6 * (1 / 2) ^ 2 + 4) / 6,
       (-3 * (1 / 2) ^ 3 + 3 * (1 / 2) ^ 2 + 3 * (1 / 2) + 1) / 6, (1 / 2 : ℚ) ^ 3 / 6] :=
  ⟨by decide, (spline_n_4_closed_axis_uniform 2 1 (by decide) (1 / 2) (fun _ => 7)).2.1⟩

/-- C16: `bern0deriv .. bern3deriv` are, as polynomials, the derivatives of `bern0 .. bern3`:
each `bernK` is the evaluation of a polynomial over the rationals whose formal derivative
evaluates to `bernKderiv`. -/
theorem bern_deriv_is_derivative :
    (∃ p : Polynomial ℚ, (∀ x, p.eval x = bern0 x) ∧
      ∀ x, (Polynomial.derivative p).eval x = bern0deriv x) ∧
    (∃ p : Polynomial ℚ, (∀ x, p.eval x = bern1 x) ∧
      ∀ x, (Polynomial.derivative p).eval x = bern1deriv x) ∧
    (∃ p : Polynomial ℚ, (∀ x, p.eval x = bern2 x) ∧
      ∀ x, (Polynomial.derivative p).eval x = bern2deriv x) ∧
    (∃ p : Polynomial ℚ, (∀ x, p.eval x = bern3 x) ∧
      ∀ x, (Polynomial.derivative p).eval x = bern3deriv x) := by
  refine ⟨⟨1 - Polynomial.C 3 * Polynomial.X + Polynomial.C 3 * Polynomial.X ^ 2 -
      Polynomial.X ^ 3, ?_, ?_⟩,
    ⟨Polynomial.C 3 * Polynomial.X - Polynomial.C 6 * Polynomial.X ^ 2 +
      Polynomial.C 3 * Polynomial.X ^ 3, ?_, ?_⟩,
    ⟨Polynomial.C 3 * Polynomial.X ^ 2 - Polynomial.C 3 * Polynomial.X ^ 3, ?_, ?_⟩,
    ⟨Polynomial.X ^ 3, ?_, ?_⟩⟩
  · intro x
    simp [bern0]
    ring
  · intro x
    simp [bern0deriv]
    ring
  · intro x
    simp [bern1]
    ring
  · intro x
    simp [bern1deriv]
    ring
  · intro x
    simp [bern2]
    ring
  · intro x
    simp [bern2deriv]
    ring
  · intro x
    simp [bern3]
    ring
  · intro x
    simp [bern3deriv]
    ring

/-! ## Normals of the Bezier tessellator: theorems -/

theorem _BezierPatchHighQuality_vertex_nrm (m : Math3D) (tess_u tess_v : Int)
    (patch : BezierPatch) (origVertType : VertType) (tile_u tile_v : Nat) :
    (_BezierPatchHighQuality_vertex m tess_u tess_v patch origVertType tile_u tile_v).nrm =
      if patch.computeNormals then
        (if patch.patchFacing then
          m.Normalized (Cross (_BezierPatchHighQuality_derivU tess_u tess_v patch tile_u tile_v)
            (_BezierPatchHighQuality_derivV tess_u tess_v patch tile_u tile_v)) * (-1 : ℚ)
        else
          m.Normalized (Cross (_BezierPatchHighQuality_derivU tess_u tess_v patch tile_u tile_v)
            (_BezierPatchHighQuality_derivV tess_u tess_v patch tile_u tile_v)))
      else Vec3f.zero := rfl

theorem writeGrid_mem (dest div_u div_v : Int) (vertex : Nat → Nat → SimpleVertex)
    (vs : List (Int × SimpleVertex)) (p : Int × SimpleVertex)
    (h : p ∈ writeGrid dest div_u div_v vertex vs) :
    p ∈ vs ∨ ∃ tile_u tile_v : Nat, tile_u < (div_u + 1).toNat ∧ tile_v < (div_v + 1).toNat ∧
      p = (dest + ((tile_v : Int) * (div_u + 1) + (tile_u : Int)), vertex tile_u tile_v) := by
  rw [writeGrid_eq, List.mem_append, List.mem_flatMap] at h
  rcases h with h | ⟨tile_v, hv, h⟩
  · exact Or.inl h
  · rw [List.mem_map] at h
    obtain ⟨tile_u, hu, rfl⟩ := h
    exact Or.inr ⟨tile_u, tile_v, List.mem_range.mp hu, List.mem_range.mp hv, rfl⟩

/-- C19 (failing input): for every Bezier sub-patch with `computeNormals` false, the normal of
every vertex written by `_BezierPatchHighQuality` is `(0, 0, 0)`, the result of `SetZero`
alone, and not `(0, 0, 1)`. -/
theorem BezierPatchHighQuality_no_normals_zero (m : Math3D) (st : TessState)
    (tess_u tess_v : Int) (points : Nat → SimpleVertex) (u_index v_index index : Int)
    (primType : GEPatchPrimType) (patchFacing : Bool) (origVertType : VertType) :
    (∀ tile_u tile_v : Nat,
      (_BezierPatchHighQuality_vertex m tess_u tess_v
        ⟨points, u_index, v_index, index, primType, false, patchFacing⟩ origVertType
        tile_u tile_v).nrm = ⟨0, 0, 0⟩) ∧
    (∀ p ∈ (_BezierPatchHighQuality m st tess_u tess_v
        ⟨points, u_index, v_index, index, primType, false, patchFacing⟩ origVertType).vertices,
      p ∈ st.vertices ∨ p.2.nrm = ⟨0, 0, 0⟩) ∧
    (⟨0, 0, 0⟩ : Vec3f) ≠ ⟨0, 0, 1⟩ := by
  have h1 : ∀ tile_u tile_v : Nat,
      (_BezierPatchHighQuality_vertex m tess_u tess_v
        ⟨points, u_index, v_index, index, primType, false, patchFacing⟩ origVertType
        tile_u tile_v).nrm = ⟨0, 0, 0⟩ := by
    intro tile_u tile_v
    rw [_BezierPatchHighQuality_vertex_nrm]
    rfl
  refine ⟨h1, ?_, by decide⟩
  intro p hp
  rcases writeGrid_mem _ _ _ _ _ p hp with h | ⟨tile_u, tile_v, _, _, rfl⟩
  · exact Or.inl h
  · exact Or.inr (h1 tile_u tile_v)

theorem bernderiv_sum_zero (x : ℚ) :
    bern0deriv x + bern1deriv x + bern2deriv x + bern3deriv x = 0 := by
  simp only [bern0deriv, bern1deriv, bern2deriv, bern3deriv]
  ring

theorem Dot_Bernstein3DDerivative (n p0 p1 p2 p3 : Vec3f) (d x : ℚ)
    (h0 : Dot n p0 = d) (h1 : Dot n p1 = d) (h2 : Dot n p2 = d) (h3 : Dot n p3 = d) :
    Dot n (Bernstein3DDerivative p0 p1 p2 p3 x) = 0 := by
  have hs := bernderiv_sum_zero x
  simp only [Dot] at h0 h1 h2 h3
  simp only [Dot, Bernstein3DDerivative, Vec3f_add_def, Vec3f_scale_def]
  linear_combination bern0deriv x * h0 + bern1deriv x * h1 + bern2deriv x * h2 +
    bern3deriv x * h3 + d * hs

theorem Dot_Bernstein3D (n p0 p1 p2 p3 : Vec3f) (d x : ℚ)
    (h0 : Dot n p0 = d) (h1 : Dot n p1 = d) (h2 : Dot n p2 = d) (h3 : Dot n p3 = d) :
    Dot n (Bernstein3D_Vec3f p0 p1 p2 p3 x) = d := by
  have hs := (bernstein_partition x)
  unfold Bernstein3D_Vec3f
  split_ifs
  · exact h0
  · exact h3
  · simp only [Dot] at h0 h1 h2 h3
    simp only [Dot, Vec3f_add_def, Vec3f_scale_def]
    linear_combination bern0 x * h0 + bern1 x * h1 + bern2 x * h2 + bern3 x * h3 + d * hs

theorem Cross_parallel (n a b : Vec3f) (hn : n ≠ Vec3f.zero) (ha : Dot n a = 0)
    (hb : Dot n b = 0) : ∃ c : ℚ, Cross a b = n * c := by
  have hnn : Dot n n ≠ 0 := by
    intro h0
    apply hn
    simp only [Dot] at h0
    have hx : n.x = 0 := by nlinarith [sq_nonneg n.x, sq_nonneg n.y, sq_nonneg n.z]
    have hy : n.y = 0 := by nlinarith [sq_nonneg n.x, sq_nonneg n.y, sq_nonneg n.z]
    have hz : n.z = 0 := by nlinarith [sq_nonneg n.x, sq_nonneg n.y, sq_nonneg n.z]
    cases n
    simp only [Vec3f.zero, Vec3f.mk.injEq]
    exact ⟨hx, hy, hz⟩
  refine ⟨Dot n (Cross a b) / Dot n n, ?_⟩
  simp only [Dot] at ha hb hnn
  simp only [Cross, Dot, Vec3f_scale_def, Vec3f.mk.injEq]
  refine ⟨?_, ?_, ?_⟩
  · field_simp
    linear_combination (-(n.y * a.z - n.z * a.y)) * hb + (n.y * b.z - n.z * b.y) * ha
  · field_simp
    linear_combination (-(n.z * a.x - n.x * a.z)) * hb + (n.z * b.x - n.x * b.z) * ha
  · field_simp
    linear_combination (-(n.x * a.y - n.y * a.x)) * hb + (n.x * b.y - n.y * b.x) * ha

/-- C13: for a Bezier sub-patch whose sixteen control positions lie on one plane `Dot n p = d`
with normal `n ≠ 0` and with `computeNormals` set, at every grid point of
`_BezierPatchHighQuality` both `derivU` and `derivV` are orthogonal to `n`, so `Cross derivU derivV`
is a scalar multiple of `n`; the normal written is that cross product normalised, and negated
when `patchFacing` is set. -/
theorem BezierPatchHighQuality_flat_patch_normal (m : Math3D) (tess_u tess_v : Int)
    (patch : BezierPatch) (origVertType : VertType) (tile_u tile_v : Nat) (n : Vec3f) (d : ℚ)
    (hn : n ≠ Vec3f.zero) (hplane : ∀ k, k < 16 → Dot n (patch.points k).pos = d)
    (hc : patch.computeNormals = true) :
    Dot n (_BezierPatchHighQuality_derivU tess_u tess_v patch tile_u tile_v) = 0 ∧
    Dot n (_BezierPatchHighQuality_derivV tess_u tess_v patch tile_u tile_v) = 0 ∧
    (∃ c : ℚ, Cross (_BezierPatchHighQuality_derivU tess_u tess_v patch tile_u tile_v)
      (_BezierPatchHighQuality_derivV tess_u tess_v patch tile_u tile_v) = n * c) ∧
    (_BezierPatchHighQuality_vertex m tess_u tess_v patch origVertType tile_u tile_v).nrm =
      (if patch.patchFacing then
        m.Normalized (Cross (_BezierPatchHighQuality_derivU tess_u tess_v patch tile_u tile_v)
          (_BezierPatchHighQuality_derivV tess_u tess_v patch tile_u tile_v)) * (-1 : ℚ)
      else
        m.Normalized (Cross (_BezierPatchHighQuality_derivU tess_u tess_v patch tile_u tile_v)
          (_BezierPatchHighQuality_derivV tess_u tess_v patch tile_u tile_v))) := by
  have hU : Dot n (_BezierPatchHighQuality_derivU tess_u tess_v patch tile_u tile_v) = 0 := by
    unfold _BezierPatchHighQuality_derivU
    apply Dot_Bernstein3D n _ _ _ _ 0
    all_goals
      apply Dot_Bernstein3DDerivative n _ _ _ _ d
      all_goals exact hplane _ (by decide)
  have hV : Dot n (_BezierPatchHighQuality_derivV tess_u tess_v patch tile_u tile_v) = 0 := by
    unfold _BezierPatchHighQuality_derivV
    apply Dot_Bernstein3DDerivative n _ _ _ _ d
    all_goals
      apply Dot_Bernstein3D n _ _ _ _ d
      all_goals exact hplane _ (by decide)
  refine ⟨hU, hV, Cross_parallel n _ _ hn hU hV, ?_⟩
  rw [_BezierPatchHighQuality_vertex_nrm, hc]
  rfl

theorem BezierPatchHighQuality_flat_patch_normal_witness :
    (⟨0, 0, 1⟩ : Vec3f) ≠ Vec3f.zero ∧
    Dot ⟨0, 0, 1⟩ (_BezierPatchHighQuality_derivU 2 2
      ⟨fun k => ⟨⟨0, 0⟩, 0, ⟨0, 0, 0⟩, ⟨((k % 4 : Nat) : ℚ), ((k / 4 : Nat) : ℚ), 5⟩⟩, 0, 0, 0,
        GEPatchPrimType.GE_PATCHPRIM_TRIANGLES, true, false⟩ 1 1) = 0 :=
  ⟨by decide,
   (BezierPatchHighQuality_flat_patch_normal ⟨unpackRGBA, fun _ => 0, fun v => v⟩ 2 2
      ⟨fun k => ⟨⟨0, 0⟩, 0, ⟨0, 0, 0⟩, ⟨((k % 4 : Nat) : ℚ), ((k / 4 : Nat) : ℚ), 5⟩⟩, 0, 0, 0,
        GEPatchPrimType.GE_PATCHPRIM_TRIANGLES, true, false⟩ ⟨false, false, false⟩ 1 1
      ⟨0, 0, 1⟩ 5 (by decide) (by intro k _; simp [Dot]) rfl).1⟩

/-! ## Divisor sets of spline_knot -/

theorem spline_knot_divs_apply (n type i : Nat) (knots0 : Nat → ℚ) :
    (spline_knot n type knots0 newKnotDivs).2 i = spline_knot_divs_closed n type i {} := by
  have hne : n > 1 → n - 1 ≠ n - 2 := by omega
  by_cases hb0 : type &&& 1 = 0 <;> by_cases hb1 : type &&& 2 = 0 <;>
    by_cases h1 : n > 1 <;>
    simp only [spline_knot, spline_knot_divs_closed, ne_eq, hb0, hb1, h1, not_true_eq_false,
      not_false_eq_true, if_true, if_false, true_and, false_and, Function.update_apply,
      newKnotDivs] <;>
    split_ifs <;>
    first
    | rfl
    | contradiction
    | (exfalso; omega)


set_option maxHeartbeats 2000000 in
theorem spline_knot_divs_closed_eq_spec (n type i : Nat) (hi : i < n)
    (hx : ¬ (n = 1 ∧ type &&& 1 ≠ 0 ∧ type &&& 2 ≠ 0)) :
    spline_knot_divs_closed n type i {} = knotDivSpec (clampedKnotSpec n type) i := by
  obtain ⟨r, rfl⟩ : ∃ r, n = i + 1 + r := ⟨n - 1 - i, by omega⟩
  simp only [spline_knot_divs_closed, knotDivSpec, clampedKnotSpec, ne_eq]
  generalize type &&& 1 = a at hx ⊢
  generalize type &&& 2 = b at hx ⊢
  rcases Nat.eq_zero_or_pos a with ha | ha <;> rcases Nat.eq_zero_or_pos b with hb | hb <;>
    rcases i with _ | _ | _ | i <;> rcases r with _ | _ | _ | r <;>
    first
    | (exfalso; omega)
    | (simp (disch := omega) only [if_pos, if_neg, if_true, if_false, and_true, and_false]
       try simp only [KnotDiv.mk.injEq]
       push_cast
       refine ⟨?_, ?_, ?_, ?_, ?_, ?_⟩ <;> first | trivial | ring_nf)



theorem spline_knot_knots_clamped (n type j : Nat) (hj : j < n + 2) (knots0 : Nat → ℚ)
    (divs0 : Nat → KnotDiv) :
    (spline_knot n type knots0 divs0).1 j = clampedKnotSpec n type j := by
  have h2 : ¬ (n + 2 ≤ j) := by omega
  by_cases hb : type &&& 1 = 0
  · simp only [spline_knot, clampedKnotSpec, ne_eq, hb, not_true_eq_false, if_false, false_and,
      h2, and_false]
    simp [spline_knot_fill_apply, hj]
  · simp only [spline_knot, clampedKnotSpec, ne_eq, hb, not_false_eq_true, if_true, true_and,
      h2, and_false, if_false]
    rcases j with _ | _ | _ | j
    · simp [Function.update_apply]
    · simp [Function.update_apply]
    · simp [Function.update_apply, spline_knot_fill_apply, hj]
    · have h3 : ¬ (j + 1 + 1 + 1 ≤ 2) := by omega
      simp [Function.update_apply, spline_knot_fill_apply, hj, h3]

theorem spline_knot_divs_reciprocal (n type i : Nat) (hi : i < n)
    (hx : ¬ (n = 1 ∧ type &&& 1 ≠ 0 ∧ type &&& 2 ≠ 0)) (knots0 : Nat → ℚ) :
    (spline_knot n type knots0 newKnotDivs).2 i = knotDivSpec (clampedKnotSpec n type) i := by
  rw [spline_knot_divs_apply n type i knots0, spline_knot_divs_closed_eq_spec n type i hi hx]

/-- C14: with a single segment and both ends open (`n = 1`, `type = 3`) `spline_knot` leaves
`divs[0]._4_1 = 1/2`, while the clamped knot vector `(0,0,0,1,1,1)` has
`1/(k[4] - k[1]) = 1`; the other five divisors agree.  At `t = 1/2` the weights computed from
the code's divisors are `(1/8, 1/2, 1/4, 1/8)`, those of the clamped knot vector are the
symmetric `(1/8, 3/8, 3/8, 1/8)`. -/
theorem spline_knot_single_segment_divs (knots0 : Nat → ℚ) :
    (spline_knot 1 3 knots0 newKnotDivs).2 0 =
      { _3_0 := 1, _4_1 := 1 / 2, _5_2 := 1, _3_1 := 1, _4_2 := 1, _3_2 := 1 } ∧
    knotDivSpec (clampedKnotSpec 1 3) 0 =
      { _3_0 := 1, _4_1 := 1, _5_2 := 1, _3_1 := 1, _4_2 := 1, _3_2 := 1 } ∧
    ((spline_knot 1 3 knots0 newKnotDivs).2 0)._4_1 ≠ (knotDivSpec (clampedKnotSpec 1 3) 0)._4_1 ∧
    (spline_n_4 0 (1 / 2) (spline_knot 1 3 knots0 newKnotDivs).1
        ((spline_knot 1 3 knots0 newKnotDivs).2 0)).splineVal = [1 / 8, 1 / 2, 1 / 4, 1 / 8] ∧
    (spline_n_4 0 (1 / 2) (clampedKnotSpec 1 3) (knotDivSpec (clampedKnotSpec 1 3) 0)).splineVal =
      [1 / 8, 3 / 8, 3 / 8, 1 / 8] := by
  have hd : (spline_knot 1 3 knots0 newKnotDivs).2 0 =
      { _3_0 := 1, _4_1 := 1 / 2, _5_2 := 1, _3_1 := 1, _4_2 := 1, _3_2 := 1 } := by
    rw [spline_knot_divs_apply 1 3 0 knots0]
    rfl
  have hk : knotDivSpec (clampedKnotSpec 1 3) 0 =
      { _3_0 := 1, _4_1 := 1, _5_2 := 1, _3_1 := 1, _4_2 := 1, _3_2 := 1 } := by
    simp [knotDivSpec, clampedKnotSpec]
  have h0 : (spline_knot 1 3 knots0 newKnotDivs).1 0 = 0 := by
    rw [spline_knot_knots_clamped 1 3 0 (by omega)]; simp [clampedKnotSpec]
  have h1 : (spline_knot 1 3 knots0 newKnotDivs).1 1 = 0 := by
    rw [spline_knot_knots_clamped 1 3 1 (by omega)]; simp [clampedKnotSpec]
  have h2 : (spline_knot 1 3 knots0 newKnotDivs).1 2 = 0 := by
    rw [spline_knot_knots_clamped 1 3 2 (by omega)]; simp [clampedKnotSpec]
  refine ⟨hd, hk, ?_, ?_, ?_⟩
  · rw [hd, hk]; norm_num
  · rw [hd]
    simp only [spline_n_4, add_zero, zero_add, h0, h1, h2]
    norm_num
  · rw [hk]
    simp only [spline_n_4, add_zero, zero_add, clampedKnotSpec]
    norm_num

/-! ## SimpleBufferManager: theorems -/

theorem Allocate_align_eq (w size : Nat) (h : size + 15 < 2 ^ w) :
    Allocate_align w size = (size + 15) / 16 * 16 := by
  unfold Allocate_align
  rw [Nat.mod_eq_of_lt h]

theorem Allocate_align_bounds (w size : Nat) (h : size + 15 < 2 ^ w) :
    size ≤ Allocate_align w size ∧ Allocate_align w size < size + 16 ∧
    Allocate_align w size % 16 = 0 := by
  rw [Allocate_align_eq w size h]
  omega

theorem Allocate_fits (w : Nat) (b : SimpleBufferManager) (size : Nat)
    (hw : b.maxSize_ + size + 15 < 2 ^ w) (hb : b.totalSize ≤ b.maxSize_)
    (hfit : b.totalSize + Allocate_align w size ≤ b.maxSize_) :
    b.Allocate w size =
      (some b.totalSize, { b with totalSize := b.totalSize + Allocate_align w size }) := by
  have hr := Allocate_align_bounds w size (by omega)
  have hlt : b.totalSize + Allocate_align w size < 2 ^ w := by omega
  simp only [SimpleBufferManager.Allocate, Nat.mod_eq_of_lt hlt]
  rw [if_neg (by omega)]

theorem Allocate_full (w : Nat) (b : SimpleBufferManager) (size : Nat)
    (hw : b.maxSize_ + size + 15 < 2 ^ w) (hb : b.totalSize ≤ b.maxSize_)
    (hfit : ¬ b.totalSize + Allocate_align w size ≤ b.maxSize_) :
    b.Allocate w size = (none, b) := by
  have hr := Allocate_align_bounds w size (by omega)
  have hlt : b.totalSize + Allocate_align w size < 2 ^ w := by omega
  simp only [SimpleBufferManager.Allocate, Nat.mod_eq_of_lt hlt]
  rw [if_pos (by omega)]

theorem Allocate_invariant (w : Nat) (b : SimpleBufferManager) (size : Nat)
    (hw : b.maxSize_ + size + 15 < 2 ^ w) (hb : b.totalSize ≤ b.maxSize_)
    (h16 : b.totalSize % 16 = 0) :
    (b.Allocate w size).2.maxSize_ = b.maxSize_ ∧
    (b.Allocate w size).2.totalSize ≤ b.maxSize_ ∧
    (b.Allocate w size).2.totalSize % 16 = 0 ∧
    b.totalSize ≤ (b.Allocate w size).2.totalSize := by
  have hr := Allocate_align_bounds w size (by omega)
  by_cases hfit : b.totalSize + Allocate_align w size ≤ b.maxSize_
  · rw [Allocate_fits w b size hw hb hfit]
    refine ⟨rfl, ?_, ?_, ?_⟩ <;> dsimp only <;> omega
  · rw [Allocate_full w b size hw hb hfit]
    refine ⟨rfl, ?_, ?_, ?_⟩ <;> dsimp only <;> omega

theorem after_invariant (w : Nat) (sizes : List Nat) (b : SimpleBufferManager)
    (hw : ∀ s ∈ sizes, b.maxSize_ + s + 15 < 2 ^ w) (hb : b.totalSize ≤ b.maxSize_)
    (h16 : b.totalSize % 16 = 0) :
    (b.after w sizes).maxSize_ = b.maxSize_ ∧ (b.after w sizes).totalSize ≤ b.maxSize_ ∧
    (b.after w sizes).totalSize % 16 = 0 := by
  induction sizes generalizing b with
  | nil => exact ⟨rfl, hb, h16⟩
  | cons s rest ih =>
    obtain ⟨h1, h2, h3, _⟩ := Allocate_invariant w b s (hw s (List.mem_cons_self _ _)) hb h16
    have := ih (b.Allocate w s).2
      (fun t ht => by rw [h1]; exact hw t (List.mem_cons_of_mem _ ht)) (by rw [h1]; exact h2) h3
    simp only [SimpleBufferManager.after, List.foldl_cons] at this ⊢
    rw [h1] at this
    exact this

theorem slices_ordered (w : Nat) (sizes : List Nat) (b : SimpleBufferManager)
    (hw : ∀ s ∈ sizes, b.maxSize_ + s + 15 < 2 ^ w) (hb : b.totalSize ≤ b.maxSize_)
    (h16 : b.totalSize % 16 = 0) :
    (∀ a ∈ b.slices w sizes, b.totalSize ≤ a.1 ∧ a.1 + a.2 ≤ b.maxSize_ ∧ a.1 % 16 = 0) ∧
    (b.slices w sizes).Pairwise (fun a c => a.1 + a.2 ≤ c.1) := by
  induction sizes generalizing b with
  | nil => simp [SimpleBufferManager.slices]
  | cons s rest ih =>
    have hws := hw s (List.mem_cons_self _ _)
    obtain ⟨h1, h2, h3, h4⟩ := Allocate_invariant w b s hws hb h16
    obtain ⟨ihm, ihp⟩ := ih (b.Allocate w s).2
      (fun t ht => by rw [h1]; exact hw t (List.mem_cons_of_mem _ ht)) (by rw [h1]; exact h2) h3
    rw [h1] at ihm
    by_cases hfit : b.totalSize + Allocate_align w s ≤ b.maxSize_
    · have e := Allocate_fits w b s hws hb hfit
      have e1 : (b.Allocate w s).1 = some b.totalSize := by rw [e]
      have e2 : (b.Allocate w s).2.totalSize = b.totalSize + Allocate_align w s := by rw [e]
      simp only [SimpleBufferManager.slices, e1]
      refine ⟨?_, ?_⟩
      · intro a ha
        rcases List.mem_cons.1 ha with rfl | ha
        · exact ⟨le_refl _, hfit, h16⟩
        · obtain ⟨p, q, r⟩ := ihm a ha
          exact ⟨by omega, q, r⟩
      · refine List.pairwise_cons.2 ⟨?_, ihp⟩
        intro a ha
        obtain ⟨p, _, _⟩ := ihm a ha
        simp only
        omega
    · have e := Allocate_full w b s hws hb hfit
      have e1 : (b.Allocate w s).1 = none := by rw [e]
      simp only [SimpleBufferManager.slices, e1]
      refine ⟨?_, ihp⟩
      intro a ha
      obtain ⟨p, q, r⟩ := ihm a ha
      exact ⟨by omega, q, r⟩

/-- C17: `SimpleBufferManager::Allocate` is a bump allocator.  Without `size_t` wrap-around, in
any state with `totalSize <= maxSize_` and with `r` the request rounded up to the next multiple
of 16: if `totalSize + r <= maxSize_` it returns offset `totalSize` and advances `totalSize` by
exactly `r`, otherwise it returns null and leaves the object unchanged.  In every state reached
from the constructor `totalSize` is a multiple of 16 and at most `maxSize`, and the slices handed
out by successive calls start at multiples of 16, end at or before `maxSize`, and each ends at or
before the start of every later one. -/
theorem SimpleBufferManager_Allocate_bump (w maxSize : Nat) (sizes : List Nat) (size : Nat)
    (hw : ∀ s ∈ size :: sizes, maxSize + s + 15 < 2 ^ w) :
    (Allocate_align w size = (size + 15) / 16 * 16 ∧ size ≤ (size + 15) / 16 * 16 ∧
      (size + 15) / 16 * 16 < size + 16 ∧ (size + 15) / 16 * 16 % 16 = 0) ∧
    (∀ b : SimpleBufferManager, b.maxSize_ = maxSize → b.totalSize ≤ b.maxSize_ →
      (b.totalSize + (size + 15) / 16 * 16 ≤ b.maxSize_ →
        b.Allocate w size =
          (some b.totalSize, { b with totalSize := b.totalSize + (size + 15) / 16 * 16 })) ∧
      (¬ b.totalSize + (size + 15) / 16 * 16 ≤ b.maxSize_ → b.Allocate w size = (none, b))) ∧
    (((SimpleBufferManager.init maxSize).after w sizes).maxSize_ = maxSize ∧
      ((SimpleBufferManager.init maxSize).after w sizes).totalSize ≤ maxSize ∧
      ((SimpleBufferManager.init maxSize).after w sizes).totalSize % 16 = 0) ∧
    (∀ a ∈ (SimpleBufferManager.init maxSize).slices w sizes,
      a.1 + a.2 ≤ maxSize ∧ a.1 % 16 = 0) ∧
    ((SimpleBufferManager.init maxSize).slices w sizes).Pairwise (fun a c => a.1 + a.2 ≤ c.1) := by
  have hs : maxSize + size + 15 < 2 ^ w := hw size (List.mem_cons_self _ _)
  have hrest : ∀ s ∈ sizes, (SimpleBufferManager.init maxSize).maxSize_ + s + 15 < 2 ^ w :=
    fun s h => hw s (List.mem_cons_of_mem _ h)
  have he := Allocate_align_eq w size (by omega)
  have hr := Allocate_align_bounds w size (by omega)
  rw [he] at hr
  obtain ⟨hm, hp⟩ := slices_ordered w sizes (SimpleBufferManager.init maxSize) hrest
    (Nat.zero_le _) rfl
  refine ⟨⟨he, hr⟩, ?_, after_invariant w sizes (SimpleBufferManager.init maxSize) hrest
    (Nat.zero_le _) rfl, fun a ha => ⟨(hm a ha).2.1, (hm a ha).2.2⟩, hp⟩
  intro b hbm hb
  rw [← he]
  exact ⟨Allocate_fits w b size (by rw [hbm]; exact hs) hb,
    Allocate_full w b size (by rw [hbm]; exact hs) hb⟩

theorem SimpleBufferManager_Allocate_bump_witness :
    (∀ s ∈ 40 :: [1, 20], 64 + s + 15 < 2 ^ 64) ∧
    (((SimpleBufferManager.init 64).after 64 [1, 20]).maxSize_ = 64 ∧
      ((SimpleBufferManager.init 64).after 64 [1, 20]).totalSize ≤ 64 ∧
      ((SimpleBufferManager.init 64).after 64 [1, 20]).totalSize % 16 = 0) ∧
    ((SimpleBufferManager.init 64).slices 64 [1, 20]).Pairwise (fun a c => a.1 + a.2 ≤ c.1) :=
  ⟨by decide, (SimpleBufferManager_Allocate_bump 64 64 [1, 20] 40 (by decide)).2.2.1,
    (SimpleBufferManager_Allocate_bump 64 64 [1, 20] 40 (by decide)).2.2.2.2⟩


/-! ## Spline normals and patchFacing -/

/-- C20: `SplinePatchFullQuality` never reads `patchFacing`.  In medium and in high quality the
whole output of `TessellateSplinePatch` is the same with `patchFacing = true` as with
`patchFacing = false`, for every input; and on the flat 4 x 4 grid `P(i, j) = (i, j, 0)` with
normals requested, the normal written at grid point (0, 0) is `(0, 0, 1)` for either value of
`patchFacing`, which is not its own negation. -/
theorem SplinePatchFullQuality_ignores_patchFacing :
    (∀ (m : Math3D) (fuel : Nat) (knot_u0 knot_v0 : Nat → ℚ) (st : TessState)
        (spatch : SplinePatchLocal) (origVertType : VertType) (maxVertexCount : Int),
        TessellateSplinePatch m SplineQuality.MEDIUM_QUALITY fuel knot_u0 knot_v0 st
            { spatch with patchFacing := true } origVertType maxVertexCount =
          TessellateSplinePatch m SplineQuality.MEDIUM_QUALITY fuel knot_u0 knot_v0 st
            { spatch with patchFacing := false } origVertType maxVertexCount ∧
        TessellateSplinePatch m SplineQuality.HIGH_QUALITY fuel knot_u0 knot_v0 st
            { spatch with patchFacing := true } origVertType maxVertexCount =
          TessellateSplinePatch m SplineQuality.HIGH_QUALITY fuel knot_u0 knot_v0 st
            { spatch with patchFacing := false } origVertType maxVertexCount) ∧
    (∀ pf : Bool,
      (SplinePatchFullQuality_vertex ⟨unpackRGBA, fun _ => 0, fun v => v⟩
        ⟨1, 1, 0, 0, 4, 4, flatGrid, true, GEPatchPrimType.GE_PATCHPRIM_TRIANGLES, pf⟩
        ⟨true, false, false⟩
        (spline_knot 1 0 (fun _ => 0) newKnotDivs).1 (spline_knot 1 0 (fun _ => 0) newKnotDivs).1
        (spline_knot 1 0 (fun _ => 0) newKnotDivs).2 (spline_knot 1 0 (fun _ => 0) newKnotDivs).2
        1 1 0 0).nrm = ⟨0, 0, 1⟩) ∧
    (⟨0, 0, 1⟩ : Vec3f) ≠ (⟨0, 0, 1⟩ : Vec3f) * (-1 : ℚ) := by
  refine ⟨fun m fuel knot_u0 knot_v0 st spatch origVertType maxVertexCount => ⟨rfl, rfl⟩, ?_, ?_⟩
  · intro pf
    obtain ⟨hk, hd⟩ := spline_knot_closed 1 (fun _ => 0) newKnotDivs
    have hf : Rat.floor 0 = 0 := by rfl
    have hs : spline_n_4 0 0 (spline_knot 1 0 (fun _ => 0) newKnotDivs).1 {} =
        { splineVal := [1 / 6, 2 / 3, 1 / 6, 0], derivs := [-1 / 2, 0, 1 / 2, 0] } := by
      have h0 := hk 0 (by omega)
      have h1 := hk 1 (by omega)
      have h2 := hk 2 (by omega)
      simp only [spline_n_4, add_zero, zero_add, h0, h1, h2]
      norm_num
    have hr : List.range 4 = [0, 1, 2, 3] := rfl
    simp only [SplinePatchFullQuality_vertex, hd, newKnotDivs]
    simp only [one_div] at hs
    simp [hf, hs, hr, AccumulateWeighted, flatGrid, Cross, Vec3f_add_def, Vec3f_scale_def,
      Vec3f.zero]
    norm_num
  · intro h
    have hz := congrArg Vec3f.z h
    simp only [Vec3f_scale_def] at hz
    norm_num at hz

/-! ## SubmitSpline and SubmitBezier: theorems -/

theorem SubmitSpline_null (env : SubmitEnv) (fuel : Nat) (s : DrawEngineCommon)
    (indices : Bool) (tess_u tess_v count_u count_v : Int) (type_u type_v : Nat)
    (prim_type : GEPatchPrimType) (computeNormals patchFacing : Bool) (vertType : VertType)
    (hu : 4 ≤ count_u) (hv : 4 ≤ count_v)
    (ha : Submit_points env
      (Submit_opening env (s.call Call.DispatchFlush) indices count_u count_v).2
      indices = none) :
    SubmitSpline env fuel s indices tess_u tess_v count_u count_v type_u type_v
      prim_type computeNormals patchFacing vertType = none := by
  have hg : ¬ (count_u < 4 ∨ count_v < 4) := by omega
  simp only [SubmitSpline, hg, ha, if_false]

theorem SubmitBezier_null (env : SubmitEnv) (fuel : Nat) (s : DrawEngineCommon)
    (indices : Bool) (tess_u tess_v count_u count_v : Int)
    (prim_type : GEPatchPrimType) (computeNormals patchFacing : Bool) (vertType : VertType)
    (hu : 4 ≤ count_u) (hv : 4 ≤ count_v)
    (ha : Submit_points env
      (Submit_opening env (s.call Call.DispatchFlush) indices count_u count_v).2
      indices = none) :
    SubmitBezier env fuel s indices tess_u tess_v count_u count_v
      prim_type computeNormals patchFacing vertType = none := by
  have hg : ¬ (count_u < 4 ∨ count_v < 4) := by omega
  simp only [SubmitBezier, hg, ha, if_false]

/-- C12: a call of `SubmitSpline` or `SubmitBezier` with `count_u < 4` or `count_v < 4` returns
after its first `DispatchFlush`: the state afterwards is the state at entry with that one call
added, so nothing is stored into the vertex or index buffer, `DispatchSubmitPrim` and the
methods of `tessDataTransfer` are not called, and the UV transform, `numPatches` and
`*bytesRead` are as they were. -/
theorem Submit_degenerate_only_flushes (env : SubmitEnv) (fuel : Nat) (s : DrawEngineCommon)
    (indices : Bool) (tess_u tess_v count_u count_v : Int) (type_u type_v : Nat)
    (prim_type : GEPatchPrimType) (computeNormals patchFacing : Bool) (vertType : VertType)
    (h : count_u < 4 ∨ count_v < 4) :
    SubmitSpline env fuel s indices tess_u tess_v count_u count_v type_u type_v prim_type
        computeNormals patchFacing vertType =
      some { s with calls := s.calls ++ [(Call.DispatchFlush, s.uv)] } ∧
    SubmitBezier env fuel s indices tess_u tess_v count_u count_v prim_type
        computeNormals patchFacing vertType =
      some { s with calls := s.calls ++ [(Call.DispatchFlush, s.uv)] } := by
  constructor
  · simp only [SubmitSpline, h, if_true, DrawEngineCommon.call]
  · simp only [SubmitBezier, h, if_true, DrawEngineCommon.call]

theorem Submit_degenerate_only_flushes_witness :
    ((3 : Int) < 4 ∨ (4 : Int) < 4) ∧
    SubmitSpline sampleEnv 0 sampleState false 1 1 3 4 0 0
        GEPatchPrimType.GE_PATCHPRIM_TRIANGLES true false ⟨true, true, true⟩ =
      some { sampleState with
        calls := sampleState.calls ++ [(Call.DispatchFlush, sampleState.uv)] } ∧
    SubmitBezier sampleEnv 0 sampleState false 1 1 3 4
        GEPatchPrimType.GE_PATCHPRIM_TRIANGLES true false ⟨true, true, true⟩ =
      some { sampleState with
        calls := sampleState.calls ++ [(Call.DispatchFlush, sampleState.uv)] } :=
  ⟨by decide, Submit_degenerate_only_flushes sampleEnv 0 sampleState false 1 1 3 4 0 0
    GEPatchPrimType.GE_PATCHPRIM_TRIANGLES true false ⟨true, true, true⟩ (by decide)⟩

theorem SplinePatchFullQuality_vertex_eq (m : Math3D) (spatch : SplinePatchLocal)
    (origVertType : VertType) (knot_u knot_v : Nat → ℚ) (divs_u divs_v : Nat → KnotDiv)
    (patch_div_s patch_div_t : Int) (tile_u tile_v : Nat) :
    SplinePatchFullQuality_vertex m spatch origVertType knot_u knot_v divs_u divs_v
        patch_div_s patch_div_t tile_u tile_v =
      { pos := (SplinePatchFullQuality_accum m spatch origVertType knot_u knot_v divs_u divs_v
          patch_div_s patch_div_t tile_u tile_v).vert_pos
        uv := (SplinePatchFullQuality_accum m spatch origVertType knot_u knot_v divs_u divs_v
          patch_div_s patch_div_t tile_u tile_v).uv
        nrm :=
          if origVertType.NRM then
            m.Normalized (Cross
              (SplinePatchFullQuality_accum m spatch origVertType knot_u knot_v divs_u divs_v
                patch_div_s patch_div_t tile_u tile_v).du
              (SplinePatchFullQuality_accum m spatch origVertType knot_u knot_v divs_u divs_v
                patch_div_s patch_div_t tile_u tile_v).dv)
          else ⟨0, 0, 1⟩
        color_32 :=
          if origVertType.COL then
            m.ToRGBA (SplinePatchFullQuality_accum m spatch origVertType knot_u knot_v divs_u
              divs_v patch_div_s patch_div_t tile_u tile_v).vert_color
          else (spatch.points 0).color_32 } := rfl

theorem SplinePatchFullQuality_patch_div_scale (fuel : Nat)
    (count_u count_v tess_u tess_v quality maxVertices : Int) :
    SplinePatchFullQuality_patch_div fuel count_u count_v tess_u tess_v quality maxVertices =
      match SplinePatchFullQuality_downsample fuel
          (SplinePatchFullQuality_scale ((count_u - 3) * tess_u) quality)
          (SplinePatchFullQuality_scale ((count_v - 3) * tess_v) quality) maxVertices with
      | none => none
      | some (patch_div_s, patch_div_t) =>
        some (if patch_div_s < 1 then 1 else patch_div_s,
          if patch_div_t < 1 then 1 else patch_div_t) := rfl

/-! ## Densities -/

/-- C28 (failing input): in medium quality (`quality = 2`) the scaling step of
`SplinePatchFullQuality` turns the density 3 into 1: the test is `patch_div > 2` and
`3 / 2 = 1`.  With `count_u = 6`, `tess_u = 1`, `count_v = 4`, `tess_v = 3` both densities
start at 3 and the grid tessellated is 1 x 1.  Every other starting density of at least 2
stays at 2 or more. -/
theorem SplinePatchFullQuality_scale_cuts_below_two :
    SplinePatchFullQuality_scale 3 2 = 1 ∧
    SplinePatchFullQuality_patch_div 1 6 4 1 3 2 100 = some (1, 1) ∧
    (∀ patch_div : Int, 2 ≤ patch_div →
      (2 ≤ SplinePatchFullQuality_scale patch_div 2 ↔ patch_div ≠ 3)) := by
  refine ⟨by decide, by decide, ?_⟩
  intro d hd
  unfold SplinePatchFullQuality_scale
  simp only [show ((2 : Int) > 1) = True from by decide, if_true]
  by_cases h : d > 2
  · rw [if_pos h, tdiv_two d (by omega)]
    omega
  · rw [if_neg h]
    omega

/-- C29 (failing input): in high quality `SubmitBezier` hands the halved densities to
`_BezierPatchHighQuality` as they are, and the halving loop can leave a density of 0.  With
`count_u = 253`, `count_v = 232` (84 x 77 sub-patches), `tess_u = 1`, `tess_v = 16` and room for
58254 vertices the loop stops at `(0, 8)`, and every sub-patch is tessellated with
`tess_u = 0`; with `count_u = count_v = 4`, `tess_u = tess_v = 1` and room for 3 vertices it
stops at `(0, 0)`.  In medium quality both densities are at least 1. -/
theorem SubmitBezier_high_quality_density_zero :
    SubmitBezier_downsample 2 1 16 ((253 - 1 : Int).tdiv 3) ((232 - 1 : Int).tdiv 3) 58254 =
      some (0, 8) ∧
    TessellateBezierPatch_densities SplineQuality.HIGH_QUALITY 0 8 = (0, 8) ∧
    (∀ (m : Math3D) (points : Int → SimpleVertex) (patches0 : Int → BezierPatch)
        (prim_type : GEPatchPrimType) (computeNormals patchFacing : Bool)
        (origVertType : VertType),
      SubmitBezier_software m SplineQuality.HIGH_QUALITY 2 points patches0 1 16 253 232
          prim_type computeNormals patchFacing origVertType 58254 =
        some ((List.range ((253 - 1 : Int).tdiv 3 * (232 - 1 : Int).tdiv 3).toNat).foldl
          (fun (st : TessState) (patch_idx : Nat) =>
            _BezierPatchHighQuality m st 0 8
              (SubmitBezier_patches points 253 ((253 - 1 : Int).tdiv 3)
                ((232 - 1 : Int).tdiv 3) prim_type computeNormals patchFacing patches0
                (patch_idx : Int)) origVertType)
          TessState.init)) ∧
    SubmitBezier_downsample 2 1 1 ((4 - 1 : Int).tdiv 3) ((4 - 1 : Int).tdiv 3) 3 =
      some (0, 0) ∧
    (∀ tess_u tess_v : Int,
      1 ≤ (TessellateBezierPatch_densities SplineQuality.MEDIUM_QUALITY tess_u tess_v).1 ∧
      1 ≤ (TessellateBezierPatch_densities SplineQuality.MEDIUM_QUALITY tess_u tess_v).2) := by
  have h1 : SubmitBezier_downsample 2 1 16 ((253 - 1 : Int).tdiv 3) ((232 - 1 : Int).tdiv 3)
      58254 = some (0, 8) := by decide
  refine ⟨h1, rfl, ?_, by decide, ?_⟩
  · intro m points patches0 prim_type computeNormals patchFacing origVertType
    exact SubmitBezier_software_of_downsample m SplineQuality.HIGH_QUALITY 2 points patches0
      1 16 253 232 prim_type computeNormals patchFacing origVertType 58254 0 8 h1
  · intro tess_u tess_v
    simp only [TessellateBezierPatch_densities]
    omega

/-! ## Hardware grids -/

theorem grid_eq_map {α : Type} (H W : Nat) (g : Nat → Nat → α) :
    (List.range H).flatMap (fun tv => (List.range W).map (fun tu => g tu tv)) =
      (List.range (H * W)).map (fun k => g (k % W) (k / W)) := by
  rw [← range_grid, List.map_flatMap]
  apply List.flatMap_congr
  intro tv _
  rw [List.map_map]
  apply List.map_congr_left
  intro tu htu
  have hlt : tu < W := List.mem_range.mp htu
  have hW : 0 < W := by omega
  simp only [Function.comp]
  rw [Nat.mul_comm tv W, Nat.mul_add_mod, Nat.mod_eq_of_lt hlt, Nat.mul_add_div hW,
    Nat.div_eq_of_lt hlt, Nat.add_zero]

theorem writeGrid_get (dest div_u div_v : Int) (vertex : Nat → Nat → SimpleVertex)
    (vs : List (Int × SimpleVertex)) (tile_u tile_v : Nat)
    (hu : tile_u < (div_u + 1).toNat) (hv : tile_v < (div_v + 1).toNat) :
    (writeGrid dest div_u div_v vertex vs)[vs.length + (tile_v * (div_u + 1).toNat + tile_u)]? =
      some (dest + ((tile_v : Int) * (div_u + 1) + (tile_u : Int)), vertex tile_u tile_v) := by
  rw [writeGrid_eq, grid_eq_map (div_v + 1).toNat (div_u + 1).toNat
    (fun tu tv => (dest + ((tv : Int) * (div_u + 1) + (tu : Int)), vertex tu tv))]
  have hk : tile_v * (div_u + 1).toNat + tile_u < (div_v + 1).toNat * (div_u + 1).toNat := by
    calc tile_v * (div_u + 1).toNat + tile_u
        < tile_v * (div_u + 1).toNat + (div_u + 1).toNat := by omega
      _ = (tile_v + 1) * (div_u + 1).toNat := by ring
      _ ≤ (div_v + 1).toNat * (div_u + 1).toNat := Nat.mul_le_mul_right _ hv
  rw [List.getElem?_append_right (by omega), Nat.add_sub_cancel_left, List.getElem?_map,
    List.getElem?_range hk]
  have hW : 0 < (div_u + 1).toNat := by omega
  simp only [Option.map_some']
  rw [Nat.mul_comm tile_v, Nat.mul_add_mod, Nat.mod_eq_of_lt hu, Nat.mul_add_div hW,
    Nat.div_eq_of_lt hu, Nat.add_zero]

theorem TessellateSplinePatchHardware_get (mem : Int → SimpleVertex) (st : TessState)
    (spatch : SplinePatchLocal) (tile_u tile_v : Nat)
    (hu : tile_u < (spatch.tess_u + 1).toNat) (hv : tile_v < (spatch.tess_v + 1).toNat) :
    (TessellateSplinePatchHardware mem st spatch).vertices[st.vertices.length +
        (tile_v * (spatch.tess_u + 1).toNat + tile_u)]? =
      some (st.dest + ((tile_v : Int) * (spatch.tess_u + 1) + (tile_u : Int)),
        { mem (st.dest + ((tile_v : Int) * (spatch.tess_u + 1) + (tile_u : Int))) with
          pos := { (mem (st.dest + ((tile_v : Int) * (spatch.tess_u + 1) + (tile_u : Int)))).pos
            with x := (tile_u : ℚ) * (1 / (spatch.tess_u : ℚ)),
                 y := (tile_v : ℚ) * (1 / (spatch.tess_v : ℚ)) }
          nrm := { (mem (st.dest + ((tile_v : Int) * (spatch.tess_u + 1) + (tile_u : Int)))).nrm
            with x := 1 / (spatch.tess_u : ℚ), y := 1 / (spatch.tess_v : ℚ) } }) := by
  simp only [TessellateSplinePatchHardware]
  rw [writeGrid_get _ _ _ _ _ tile_u tile_v hu hv]

theorem TessellateBezierPatchHardware_get (mem : Int → SimpleVertex) (st : TessState)
    (tess_u tess_v : Int) (primType : GEPatchPrimType) (tile_u tile_v : Nat)
    (hu : tile_u < (tess_u + 1).toNat) (hv : tile_v < (tess_v + 1).toNat) :
    (TessellateBezierPatchHardware mem st tess_u tess_v primType).vertices[st.vertices.length +
        (tile_v * (tess_u + 1).toNat + tile_u)]? =
      some (st.dest + ((tile_v : Int) * (tess_u + 1) + (tile_u : Int)),
        { mem (st.dest + ((tile_v : Int) * (tess_u + 1) + (tile_u : Int))) with
          pos := { (mem (st.dest + ((tile_v : Int) * (tess_u + 1) + (tile_u : Int)))).pos
            with x := (tile_u : ℚ) * (1 / (tess_u : ℚ)),
                 y := (tile_v : ℚ) * (1 / (tess_v : ℚ)) } }) := by
  simp only [TessellateBezierPatchHardware]
  rw [writeGrid_get _ _ _ _ _ tile_u tile_v hu hv]

/-- C30 (as stated, refuted): `TessellateBezierPatchHardware` does not store the grid spacing
into the normal.  On a buffer whose records hold the normal `(7, 7, 7)`, with
`tess_u = tess_v = 2`, the record written at slot `1 * 3 + 1 = 4` still has the normal
`(7, 7, 7)`, and `7` is not `1 / 2`. -/
theorem TessellateBezierPatchHardware_keeps_normal :
    ((TessellateBezierPatchHardware (fun _ => ⟨⟨0, 0⟩, 0, ⟨7, 7, 7⟩, ⟨0, 0, 0⟩⟩) TessState.init
        2 2 GEPatchPrimType.GE_PATCHPRIM_TRIANGLES).vertices[4]?).map
      (fun (p : Int × SimpleVertex) => (p.1, p.2.nrm)) = some (4, ⟨7, 7, 7⟩) ∧
    (7 : ℚ) ≠ 1 / 2 := by
  constructor
  · have h := TessellateBezierPatchHardware_get (fun _ => ⟨⟨0, 0⟩, 0, ⟨7, 7, 7⟩, ⟨0, 0, 0⟩⟩)
      TessState.init 2 2 GEPatchPrimType.GE_PATCHPRIM_TRIANGLES 1 1 (by decide) (by decide)
    have e : TessState.init.vertices.length + (1 * ((2 : Int) + 1).toNat + 1) = 4 := by decide
    rw [e] at h
    rw [h]
    rfl
  · norm_num

/-- C30 (amended): on the hardware path, for every `tess_u, tess_v >= 1` and every grid point
`tile_u <= tess_u`, `tile_v <= tess_v`, the record written for grid slot
`tile_v * (tess_u + 1) + tile_u` has `pos.x = tile_u / tess_u` and `pos.y = tile_v / tess_v` in
both functions.  `TessellateSplinePatchHardware` also stores `nrm.x = 1 / tess_u` and
`nrm.y = 1 / tess_v`; `TessellateBezierPatchHardware` leaves the normal as the buffer held it.
Every other field keeps what the buffer held. -/
theorem Hardware_grid_vertex (mem : Int → SimpleVertex) (st : TessState)
    (spatch : SplinePatchLocal) (tile_u tile_v : Nat)
    (hu : 1 ≤ spatch.tess_u) (hv : 1 ≤ spatch.tess_v)
    (htu : (tile_u : Int) ≤ spatch.tess_u) (htv : (tile_v : Int) ≤ spatch.tess_v) :
    ∃ vs vb : SimpleVertex,
      (TessellateSplinePatchHardware mem st spatch).vertices[st.vertices.length +
          (tile_v * (spatch.tess_u + 1).toNat + tile_u)]? =
        some (st.dest + ((tile_v : Int) * (spatch.tess_u + 1) + (tile_u : Int)), vs) ∧
      (TessellateBezierPatchHardware mem st spatch.tess_u spatch.tess_v
          spatch.primType).vertices[st.vertices.length +
          (tile_v * (spatch.tess_u + 1).toNat + tile_u)]? =
        some (st.dest + ((tile_v : Int) * (spatch.tess_u + 1) + (tile_u : Int)), vb) ∧
      vs.pos.x = (tile_u : ℚ) / (spatch.tess_u : ℚ) ∧
      vs.pos.y = (tile_v : ℚ) / (spatch.tess_v : ℚ) ∧
      vs.nrm.x = 1 / (spatch.tess_u : ℚ) ∧ vs.nrm.y = 1 / (spatch.tess_v : ℚ) ∧
      vs.nrm.z = (mem (st.dest + ((tile_v : Int) * (spatch.tess_u + 1) + (tile_u : Int)))).nrm.z ∧
      vb.pos.x = (tile_u : ℚ) / (spatch.tess_u : ℚ) ∧
      vb.pos.y = (tile_v : ℚ) / (spatch.tess_v : ℚ) ∧
      vb.nrm = (mem (st.dest + ((tile_v : Int) * (spatch.tess_u + 1) + (tile_u : Int)))).nrm ∧
      vs.pos.z = (mem (st.dest + ((tile_v : Int) * (spatch.tess_u + 1) + (tile_u : Int)))).pos.z ∧
      vb.pos.z = (mem (st.dest + ((tile_v : Int) * (spatch.tess_u + 1) + (tile_u : Int)))).pos.z ∧
      vs.uv = (mem (st.dest + ((tile_v : Int) * (spatch.tess_u + 1) + (tile_u : Int)))).uv ∧
      vb.uv = (mem (st.dest + ((tile_v : Int) * (spatch.tess_u + 1) + (tile_u : Int)))).uv ∧
      vs.color_32 =
        (mem (st.dest + ((tile_v : Int) * (spatch.tess_u + 1) + (tile_u : Int)))).color_32 ∧
      vb.color_32 =
        (mem (st.dest + ((tile_v : Int) * (spatch.tess_u + 1) + (tile_u : Int)))).color_32 := by
  have h1 : tile_u < (spatch.tess_u + 1).toNat := by omega
  have h2 : tile_v < (spatch.tess_v + 1).toNat := by omega
  refine ⟨_, _, TessellateSplinePatchHardware_get mem st spatch tile_u tile_v h1 h2,
    TessellateBezierPatchHardware_get mem st spatch.tess_u spatch.tess_v spatch.primType
      tile_u tile_v h1 h2, ?_, ?_, rfl, rfl, rfl, ?_, ?_, rfl, rfl, rfl, rfl, rfl, rfl, rfl⟩ <;>
    simp only [mul_one_div]

theorem Hardware_grid_vertex_witness :
    ((1 : Int) ≤ 2 ∧ ((1 : Nat) : Int) ≤ 2) ∧
    ∃ vs vb : SimpleVertex,
      (TessellateSplinePatchHardware (fun _ => ⟨⟨0, 0⟩, 0, ⟨7, 7, 7⟩, ⟨0, 0, 0⟩⟩) TessState.init
          ⟨2, 2, 0, 0, 4, 4, flatGrid, true, GEPatchPrimType.GE_PATCHPRIM_TRIANGLES,
            false⟩).vertices[TessState.init.vertices.length +
          (1 * ((2 : Int) + 1).toNat + 1)]? =
        some (TessState.init.dest + (((1 : Nat) : Int) * (2 + 1) + ((1 : Nat) : Int)), vs) ∧
      (TessellateBezierPatchHardware (fun _ => ⟨⟨0, 0⟩, 0, ⟨7, 7, 7⟩, ⟨0, 0, 0⟩⟩) TessState.init
          2 2 GEPatchPrimType.GE_PATCHPRIM_TRIANGLES).vertices[TessState.init.vertices.length +
          (1 * ((2 : Int) + 1).toNat + 1)]? =
        some (TessState.init.dest + (((1 : Nat) : Int) * (2 + 1) + ((1 : Nat) : Int)), vb) ∧
      vs.pos.x = ((1 : Nat) : ℚ) / ((2 : Int) : ℚ) ∧ vs.nrm.x = 1 / ((2 : Int) : ℚ) ∧
      vb.pos.x = ((1 : Nat) : ℚ) / ((2 : Int) : ℚ) ∧ vb.nrm = ⟨7, 7, 7⟩ := by
  obtain ⟨vs, vb, h1, h2, h3, _, h5, _, _, h8, _, h10, _⟩ :=
    Hardware_grid_vertex (fun _ => ⟨⟨0, 0⟩, 0, ⟨7, 7, 7⟩, ⟨0, 0, 0⟩⟩) TessState.init
      ⟨2, 2, 0, 0, 4, 4, flatGrid, true, GEPatchPrimType.GE_PATCHPRIM_TRIANGLES, false⟩ 1 1
      (by decide) (by decide) (by decide) (by decide)
  exact ⟨⟨by decide, by decide⟩, vs, vb, h1, h2, h3, h5, h8, h10⟩

/-! ## Spline normals and the vertex format -/

theorem spline_n_4_closed_at_zero (knots0 : Nat → ℚ) :
    spline_n_4 0 0 (spline_knot 1 0 knots0 newKnotDivs).1 {} =
      { splineVal := [1 / 6, 2 / 3, 1 / 6, 0], derivs := [-1 / 2, 0, 1 / 2, 0] } := by
  obtain ⟨hk, _⟩ := spline_knot_closed 1 knots0 newKnotDivs
  have h0 := hk 0 (by omega)
  have h1 := hk 1 (by omega)
  have h2 := hk 2 (by omega)
  simp only [spline_n_4, add_zero, zero_add, h0, h1, h2]
  norm_num

theorem SplinePatchFullQuality_accum_upright (m : Math3D) (cn pf : Bool) (col tc : Bool) :
    (SplinePatchFullQuality_accum m
        ⟨1, 1, 0, 0, 4, 4, uprightGrid, cn, GEPatchPrimType.GE_PATCHPRIM_TRIANGLES, pf⟩
        ⟨true, col, tc⟩
        (spline_knot 1 0 (fun _ => 0) newKnotDivs).1 (spline_knot 1 0 (fun _ => 0) newKnotDivs).1
        (spline_knot 1 0 (fun _ => 0) newKnotDivs).2 (spline_knot 1 0 (fun _ => 0) newKnotDivs).2
        1 1 0 0).du = ⟨1, 0, 0⟩ ∧
    (SplinePatchFullQuality_accum m
        ⟨1, 1, 0, 0, 4, 4, uprightGrid, cn, GEPatchPrimType.GE_PATCHPRIM_TRIANGLES, pf⟩
        ⟨true, col, tc⟩
        (spline_knot 1 0 (fun _ => 0) newKnotDivs).1 (spline_knot 1 0 (fun _ => 0) newKnotDivs).1
        (spline_knot 1 0 (fun _ => 0) newKnotDivs).2 (spline_knot 1 0 (fun _ => 0) newKnotDivs).2
        1 1 0 0).dv = ⟨0, 0, 1⟩ := by
  obtain ⟨_, hd⟩ := spline_knot_closed 1 (fun _ => 0) newKnotDivs
  have hf : Rat.floor 0 = 0 := by rfl
  have hs := spline_n_4_closed_at_zero (fun _ => 0)
  have hr : List.range 4 = [0, 1, 2, 3] := rfl
  simp only [SplinePatchFullQuality_accum, SplinePatchFullQuality_u, SplinePatchFullQuality_iu,
    hd, newKnotDivs]
  simp only [one_div] at hs
  constructor <;>
  · simp [hf, hs, hr, AccumulateWeighted, uprightGrid, Vec3f_add_def, Vec3f_scale_def,
      Vec3f.zero]
    norm_num

/-- C21 (failing input): the normal branch of `SplinePatchFullQuality` is chosen by the
template flag `origNrm` (whether the original vertex format has a normal), never by
`spatch.computeNormals`, which is copied into a local and not read again.  The record written
is the same for `computeNormals = true` and `false`; with a format without normals it carries
`(0, 0, 1)` even when normals are requested, and with a format with normals it carries the
normalised `Cross(du, dv)` even when they are not.  On the grid `P(i, j) = (i, 0, j)`, whose
normal is `(0, -1, 0)`: requested, format without normals, gives `(0, 0, 1)`; not requested,
format with normals, gives `(0, -1, 0)`. -/
theorem SplinePatchFullQuality_normal_ignores_computeNormals :
    (∀ (m : Math3D) (spatch : SplinePatchLocal) (origVertType : VertType)
        (knot_u knot_v : Nat → ℚ) (divs_u divs_v : Nat → KnotDiv) (patch_div_s patch_div_t : Int)
        (tile_u tile_v : Nat),
      SplinePatchFullQuality_vertex m { spatch with computeNormals := true } origVertType
          knot_u knot_v divs_u divs_v patch_div_s patch_div_t tile_u tile_v =
        SplinePatchFullQuality_vertex m { spatch with computeNormals := false } origVertType
          knot_u knot_v divs_u divs_v patch_div_s patch_div_t tile_u tile_v) ∧
    (∀ (m : Math3D) (spatch : SplinePatchLocal) (col tc : Bool)
        (knot_u knot_v : Nat → ℚ) (divs_u divs_v : Nat → KnotDiv) (patch_div_s patch_div_t : Int)
        (tile_u tile_v : Nat),
      (SplinePatchFullQuality_vertex m spatch ⟨false, col, tc⟩ knot_u knot_v divs_u divs_v
          patch_div_s patch_div_t tile_u tile_v).nrm = ⟨0, 0, 1⟩ ∧
      (SplinePatchFullQuality_vertex m spatch ⟨true, col, tc⟩ knot_u knot_v divs_u divs_v
          patch_div_s patch_div_t tile_u tile_v).nrm =
        m.Normalized (Cross
          (SplinePatchFullQuality_accum m spatch ⟨true, col, tc⟩ knot_u knot_v divs_u divs_v
            patch_div_s patch_div_t tile_u tile_v).du
          (SplinePatchFullQuality_accum m spatch ⟨true, col, tc⟩ knot_u knot_v divs_u divs_v
            patch_div_s patch_div_t tile_u tile_v).dv)) ∧
    (SplinePatchFullQuality_vertex ⟨unpackRGBA, fun _ => 0, fun v => v⟩
        ⟨1, 1, 0, 0, 4, 4, uprightGrid, true, GEPatchPrimType.GE_PATCHPRIM_TRIANGLES, false⟩
        ⟨false, false, false⟩
        (spline_knot 1 0 (fun _ => 0) newKnotDivs).1 (spline_knot 1 0 (fun _ => 0) newKnotDivs).1
        (spline_knot 1 0 (fun _ => 0) newKnotDivs).2 (spline_knot 1 0 (fun _ => 0) newKnotDivs).2
        1 1 0 0).nrm = ⟨0, 0, 1⟩ ∧
    (SplinePatchFullQuality_vertex ⟨unpackRGBA, fun _ => 0, fun v => v⟩
        ⟨1, 1, 0, 0, 4, 4, uprightGrid, false, GEPatchPrimType.GE_PATCHPRIM_TRIANGLES, false⟩
        ⟨true, false, false⟩
        (spline_knot 1 0 (fun _ => 0) newKnotDivs).1 (spline_knot 1 0 (fun _ => 0) newKnotDivs).1
        (spline_knot 1 0 (fun _ => 0) newKnotDivs).2 (spline_knot 1 0 (fun _ => 0) newKnotDivs).2
        1 1 0 0).nrm = ⟨0, -1, 0⟩ := by
  refine ⟨fun _ _ _ _ _ _ _ _ _ _ _ => rfl, fun _ _ _ _ _ _ _ _ _ _ _ _ => ⟨rfl, rfl⟩, rfl, ?_⟩
  obtain ⟨hu, hv⟩ := SplinePatchFullQuality_accum_upright ⟨unpackRGBA, fun _ => 0, fun v => v⟩
    false false false false
  rw [SplinePatchFullQuality_vertex_eq]
  simp only [hu, hv, if_true, Cross]
  norm_num

/-! ## The window of a spline grid point -/

theorem SplinePatchFullQuality_u_nonneg (count_u patch_div_s : Int) (tile_u : Nat) :
    0 ≤ SplinePatchFullQuality_u count_u patch_div_s tile_u := by
  unfold SplinePatchFullQuality_u
  simp only
  split_ifs with h
  · exact le_refl _
  · exact not_lt.mp h

theorem SplinePatchFullQuality_iu_bounds (count_u : Int) (u : ℚ) (hc : 4 ≤ count_u)
    (hu : 0 ≤ u) :
    0 ≤ SplinePatchFullQuality_iu count_u u ∧ SplinePatchFullQuality_iu count_u u ≤ count_u - 4 := by
  have hf : 0 ≤ Rat.floor u := Rat.le_floor.mpr (by exact_mod_cast hu)
  unfold SplinePatchFullQuality_iu
  simp only
  split_ifs with h <;> omega

/-- C22: for `count_u, count_v >= 4` and every grid point, the segment indices computed by
`SplinePatchFullQuality` satisfy `0 <= iu <= count_u - 4` and `0 <= iv <= count_v - 4`: `iu` is
inside the `count_u - 3` divisor sets, `iu .. iu + 2` are among the `count_u - 1` knots stored
by `spline_knot`, the window is the full `4 x 4`, and every control-point index
`count_u * (iv + jj) + (iu + ii)` read in the two loops is non-negative and below
`count_u * count_v`. -/
theorem SplinePatchFullQuality_window_in_bounds (count_u count_v patch_div_s patch_div_t : Int)
    (tile_u tile_v : Nat) (hu : 4 ≤ count_u) (hv : 4 ≤ count_v) :
    (0 ≤ SplinePatchFullQuality_iu count_u (SplinePatchFullQuality_u count_u patch_div_s tile_u) ∧
      SplinePatchFullQuality_iu count_u (SplinePatchFullQuality_u count_u patch_div_s tile_u) ≤
        count_u - 4) ∧
    (0 ≤ SplinePatchFullQuality_iu count_v (SplinePatchFullQuality_u count_v patch_div_t tile_v) ∧
      SplinePatchFullQuality_iu count_v (SplinePatchFullQuality_u count_v patch_div_t tile_v) ≤
        count_v - 4) ∧
    ((SplinePatchFullQuality_iu count_u
        (SplinePatchFullQuality_u count_u patch_div_s tile_u)).toNat < (count_u - 3).toNat ∧
      (SplinePatchFullQuality_iu count_v
        (SplinePatchFullQuality_u count_v patch_div_t tile_v)).toNat < (count_v - 3).toNat) ∧
    ((SplinePatchFullQuality_iu count_u
        (SplinePatchFullQuality_u count_u patch_div_s tile_u)).toNat + 2 <
          (count_u - 3).toNat + 2 ∧
      (SplinePatchFullQuality_iu count_v
        (SplinePatchFullQuality_u count_v patch_div_t tile_v)).toNat + 2 <
          (count_v - 3).toNat + 2) ∧
    (min (count_u - SplinePatchFullQuality_iu count_u
        (SplinePatchFullQuality_u count_u patch_div_s tile_u)) 4 = 4 ∧
      min (count_v - SplinePatchFullQuality_iu count_v
        (SplinePatchFullQuality_u count_v patch_div_t tile_v)) 4 = 4) ∧
    ∀ ii jj : Nat,
      ii < (min (count_u - SplinePatchFullQuality_iu count_u
        (SplinePatchFullQuality_u count_u patch_div_s tile_u)) 4).toNat →
      jj < (min (count_v - SplinePatchFullQuality_iu count_v
        (SplinePatchFullQuality_u count_v patch_div_t tile_v)) 4).toNat →
      0 ≤ count_u * (SplinePatchFullQuality_iu count_v
            (SplinePatchFullQuality_u count_v patch_div_t tile_v) + (jj : Int)) +
          (SplinePatchFullQuality_iu count_u
            (SplinePatchFullQuality_u count_u patch_div_s tile_u) + (ii : Int)) ∧
      count_u * (SplinePatchFullQuality_iu count_v
            (SplinePatchFullQuality_u count_v patch_div_t tile_v) + (jj : Int)) +
          (SplinePatchFullQuality_iu count_u
            (SplinePatchFullQuality_u count_u patch_div_s tile_u) + (ii : Int)) <
        count_u * count_v := by
  obtain ⟨a0, a1⟩ := SplinePatchFullQuality_iu_bounds count_u _ hu
    (SplinePatchFullQuality_u_nonneg count_u patch_div_s tile_u)
  obtain ⟨b0, b1⟩ := SplinePatchFullQuality_iu_bounds count_v _ hv
    (SplinePatchFullQuality_u_nonneg count_v patch_div_t tile_v)
  generalize SplinePatchFullQuality_iu count_u
    (SplinePatchFullQuality_u count_u patch_div_s tile_u) = iu at a0 a1 ⊢
  generalize SplinePatchFullQuality_iu count_v
    (SplinePatchFullQuality_u count_v patch_div_t tile_v) = iv at b0 b1 ⊢
  have mu : min (count_u - iu) 4 = 4 := by omega
  have mv : min (count_v - iv) 4 = 4 := by omega
  refine ⟨⟨a0, a1⟩, ⟨b0, b1⟩, ⟨by omega, by omega⟩, ⟨by omega, by omega⟩, ⟨mu, mv⟩, ?_⟩
  intro ii jj hii hjj
  rw [mu] at hii
  rw [mv] at hjj
  have hii' : (ii : Int) < 4 := by omega
  have hjj' : (jj : Int) < 4 := by omega
  constructor
  · have : 0 ≤ count_u * (iv + (jj : Int)) := Int.mul_nonneg (by omega) (by omega)
    omega
  · have h1 : count_u * (iv + (jj : Int)) ≤ count_u * (count_v - 1) :=
      Int.mul_le_mul_of_nonneg_left (by omega) (by omega)
    have h2 : count_u * (count_v - 1) = count_u * count_v - count_u := by ring
    omega

theorem SplinePatchFullQuality_window_in_bounds_witness :
    ((4 : Int) ≤ 5 ∧ (4 : Int) ≤ 4) ∧
    (0 ≤ SplinePatchFullQuality_iu 5 (SplinePatchFullQuality_u 5 3 2) ∧
      SplinePatchFullQuality_iu 5 (SplinePatchFullQuality_u 5 3 2) ≤ 5 - 4) :=
  ⟨⟨by decide, by decide⟩,
    (SplinePatchFullQuality_window_in_bounds 5 4 3 2 2 1 (by decide) (by decide)).1⟩

/-! ## Sub-patches of SubmitBezier -/

theorem foldl_nested {σ α β : Type} (g : σ → α → β → σ) (la : List α) (lb : List β) (s : σ) :
    la.foldl (fun s a => lb.foldl (fun s b => g s a b) s) s =
      (la.flatMap (fun a => lb.map (fun b => (a, b)))).foldl (fun s p => g s p.1 p.2) s := by
  induction la generalizing s with
  | nil => rfl
  | cons a la ih =>
    rw [List.foldl_cons, ih, List.flatMap_cons, List.foldl_append, List.foldl_map]

theorem foldl_update_cases {β κ V : Type} [DecidableEq κ] (key : β → κ) (val : β → V)
    (l : List β) (f0 : κ → V) (k : κ) :
    ((l.foldl (fun f a => Function.update f (key a) (val a)) f0) k = f0 k ∧
        ∀ a ∈ l, key a ≠ k) ∨
      ∃ a ∈ l, key a = k ∧ (l.foldl (fun f a => Function.update f (key a) (val a)) f0) k = val a := by
  induction l generalizing f0 with
  | nil => exact Or.inl ⟨rfl, fun a ha => absurd ha (List.not_mem_nil a)⟩
  | cons a l ih =>
    rw [List.foldl_cons]
    rcases ih (Function.update f0 (key a) (val a)) with ⟨h1, h2⟩ | ⟨b, hb, hk, hv⟩
    · by_cases hka : key a = k
      · refine Or.inr ⟨a, List.mem_cons_self _ _, hka, ?_⟩
        rw [h1, ← hka, Function.update_same]
      · refine Or.inl ⟨?_, ?_⟩
        · rw [h1, Function.update_noteq (Ne.symm hka)]
        · intro b hb
          rcases List.mem_cons.1 hb with rfl | hb
          · exact hka
          · exact h2 b hb
    · exact Or.inr ⟨b, List.mem_cons_of_mem _ hb, hk, hv⟩

theorem SubmitBezier_slot_inj (npu : Int) (a b a' b' : Nat) (ha : (a : Int) < npu)
    (ha' : (a' : Int) < npu)
    (h : (a : Int) + (b : Int) * npu = (a' : Int) + (b' : Int) * npu) : a = a' ∧ b = b' := by
  have hb : b = b' := by
    rcases lt_trichotomy b b' with hlt | heq | hgt
    · exfalso
      have h1 : ((b : Int) + 1) * npu ≤ (b' : Int) * npu :=
        Int.mul_le_mul_of_nonneg_right (by omega) (by omega)
      have h2 : ((b : Int) + 1) * npu = (b : Int) * npu + npu := by ring
      omega
    · exact heq
    · exfalso
      have h1 : ((b' : Int) + 1) * npu ≤ (b : Int) * npu :=
        Int.mul_le_mul_of_nonneg_right (by omega) (by omega)
      have h2 : ((b' : Int) + 1) * npu = (b' : Int) * npu + npu := by ring
      omega
  subst hb
  exact ⟨by omega, rfl⟩

theorem SubmitBezier_patches_apply (points : Int → SimpleVertex)
    (count_u num_patches_u num_patches_v : Int) (prim_type : GEPatchPrimType)
    (computeNormals patchFacing : Bool) (patches : Int → BezierPatch) (patch_u patch_v : Nat)
    (hu : patch_u < num_patches_u.toNat) (hv : patch_v < num_patches_v.toNat) :
    SubmitBezier_patches points count_u num_patches_u num_patches_v prim_type computeNormals
        patchFacing patches ((patch_u : Int) + (patch_v : Int) * num_patches_u) =
      { points := fun point => points (SubmitBezier_idx count_u patch_u patch_v point)
        u_index := (patch_u : Int) * 3
        v_index := (patch_v : Int) * 3
        index := (patch_v : Int) * num_patches_u + (patch_u : Int)
        primType := prim_type
        computeNormals := computeNormals
        patchFacing := patchFacing } := by
  unfold SubmitBezier_patches
  rw [foldl_nested (fun (patches : Int → BezierPatch) (patch_u patch_v : Nat) =>
    Function.update patches ((patch_u : Int) + (patch_v : Int) * num_patches_u)
      { points := fun point =>
          points (((patch_u : Int) * 3 + ((point % 4 : Nat) : Int)) +
            ((patch_v : Int) * 3 + ((point / 4 : Nat) : Int)) * count_u)
        u_index := (patch_u : Int) * 3
        v_index := (patch_v : Int) * 3
        index := (patch_v : Int) * num_patches_u + (patch_u : Int)
        primType := prim_type
        computeNormals := computeNormals
        patchFacing := patchFacing })]
  have hmem : (patch_u, patch_v) ∈ (List.range num_patches_u.toNat).flatMap
      (fun a => (List.range num_patches_v.toNat).map (fun b => (a, b))) := by
    rw [List.mem_flatMap]
    exact ⟨patch_u, List.mem_range.mpr hu, List.mem_map.mpr ⟨patch_v, List.mem_range.mpr hv, rfl⟩⟩
  rcases foldl_update_cases
    (fun (p : Nat × Nat) => (p.1 : Int) + (p.2 : Int) * num_patches_u)
    (fun (p : Nat × Nat) =>
      ({ points := fun point =>
           points (((p.1 : Int) * 3 + ((point % 4 : Nat) : Int)) +
             ((p.2 : Int) * 3 + ((point / 4 : Nat) : Int)) * count_u)
         u_index := (p.1 : Int) * 3
         v_index := (p.2 : Int) * 3
         index := (p.2 : Int) * num_patches_u + (p.1 : Int)
         primType := prim_type
         computeNormals := computeNormals
         patchFacing := patchFacing } : BezierPatch))
    ((List.range num_patches_u.toNat).flatMap
      (fun a => (List.range num_patches_v.toNat).map (fun b => (a, b)))) patches
    ((patch_u : Int) + (patch_v : Int) * num_patches_u) with ⟨_, h2⟩ | ⟨q, hq, hk, hval⟩
  · exact absurd rfl (h2 (patch_u, patch_v) hmem)
  · rw [List.mem_flatMap] at hq
    obtain ⟨a, ha, hq⟩ := hq
    rw [List.mem_map] at hq
    obtain ⟨b, _, rfl⟩ := hq
    have ha' : a < num_patches_u.toNat := List.mem_range.mp ha
    obtain ⟨rfl, rfl⟩ := SubmitBezier_slot_inj num_patches_u a b patch_u patch_v (by omega)
      (by omega) hk
    exact hval

theorem SubmitBezier_idx_bounds (count_u count_v : Int) (hu : 4 ≤ count_u) (hv : 4 ≤ count_v)
    (patch_u patch_v point : Nat) (hpu : patch_u < ((count_u - 1).tdiv 3).toNat)
    (hpv : patch_v < ((count_v - 1).tdiv 3).toNat) (hp : point < 16) :
    0 ≤ SubmitBezier_idx count_u patch_u patch_v point ∧
    SubmitBezier_idx count_u patch_u patch_v point < count_u * count_v := by
  rw [Int.tdiv_eq_ediv (by omega) (by decide)] at hpu hpv
  unfold SubmitBezier_idx
  have h4 : point % 4 < 4 := Nat.mod_lt _ (by decide)
  have h5 : point / 4 < 4 := by omega
  have hcol : (patch_u : Int) * 3 + ((point % 4 : Nat) : Int) ≤ count_u - 1 := by omega
  have hrow : (patch_v : Int) * 3 + ((point / 4 : Nat) : Int) ≤ count_v - 1 := by omega
  have hrow0 : 0 ≤ (patch_v : Int) * 3 + ((point / 4 : Nat) : Int) := by omega
  have h1 : ((patch_v : Int) * 3 + ((point / 4 : Nat) : Int)) * count_u ≤
      (count_v - 1) * count_u := Int.mul_le_mul_of_nonneg_right hrow (by omega)
  have h2 : 0 ≤ ((patch_v : Int) * 3 + ((point / 4 : Nat) : Int)) * count_u :=
    Int.mul_nonneg hrow0 (by omega)
  have h3 : (count_v - 1) * count_u = count_u * count_v - count_u := by ring
  constructor <;> omega

theorem SubmitBezier_idx_shared_u (count_u : Int) (hu : 7 ≤ count_u) (patch_u patch_v p q : Nat)
    (hp : p < 16) (hq : q < 16) :
    SubmitBezier_idx count_u patch_u patch_v p = SubmitBezier_idx count_u (patch_u + 1) patch_v q ↔
      p % 4 = 3 ∧ q % 4 = 0 ∧ p / 4 = q / 4 := by
  unfold SubmitBezier_idx
  have hp4 : p % 4 < 4 := Nat.mod_lt _ (by decide)
  have hq4 : q % 4 < 4 := Nat.mod_lt _ (by decide)
  have hpd : p / 4 < 4 := by omega
  have hqd : q / 4 < 4 := by omega
  generalize p % 4 = a at hp4 ⊢
  generalize q % 4 = c at hq4 ⊢
  generalize p / 4 = b at hpd ⊢
  generalize q / 4 = d at hqd ⊢
  push_cast
  have e1 : ((patch_v : Int) * 3 + (b : Int)) * count_u =
      (patch_v : Int) * 3 * count_u + (b : Int) * count_u := by ring
  have e2 : ((patch_v : Int) * 3 + (d : Int)) * count_u =
      (patch_v : Int) * 3 * count_u + (d : Int) * count_u := by ring
  rw [e1, e2]
  clear e1 e2
  interval_cases b <;> interval_cases d <;> simp only [Nat.cast_ofNat, Nat.cast_zero,
    Nat.cast_one, zero_mul, one_mul, and_true] <;> omega

theorem SubmitBezier_idx_shared_v (count_u : Int) (hu : 4 ≤ count_u) (patch_u patch_v p q : Nat)
    (hp : p < 16) (hq : q < 16) :
    SubmitBezier_idx count_u patch_u patch_v p = SubmitBezier_idx count_u patch_u (patch_v + 1) q ↔
      p / 4 = 3 ∧ q / 4 = 0 ∧ p % 4 = q % 4 := by
  unfold SubmitBezier_idx
  have hp4 : p % 4 < 4 := Nat.mod_lt _ (by decide)
  have hq4 : q % 4 < 4 := Nat.mod_lt _ (by decide)
  have hpd : p / 4 < 4 := by omega
  have hqd : q / 4 < 4 := by omega
  generalize p % 4 = a at hp4 ⊢
  generalize q % 4 = c at hq4 ⊢
  generalize p / 4 = b at hpd ⊢
  generalize q / 4 = d at hqd ⊢
  push_cast
  have e1 : ((patch_v : Int) * 3 + (b : Int)) * count_u =
      (patch_v : Int) * 3 * count_u + (b : Int) * count_u := by ring
  have e2 : ((patch_v : Int) + 1) * 3 * count_u =
      (patch_v : Int) * 3 * count_u + 3 * count_u := by ring
  have e3 : (((patch_v : Int) + 1) * 3 + (d : Int)) * count_u =
      (patch_v : Int) * 3 * count_u + 3 * count_u + (d : Int) * count_u := by ring
  rw [e1, e3]
  clear e1 e2 e3
  interval_cases b <;> interval_cases d <;> simp only [Nat.cast_ofNat, Nat.cast_zero,
    Nat.cast_one, zero_mul, one_mul, true_and, and_true] <;> omega

/-- C23: for `count_u, count_v >= 4`, `SubmitBezier` builds `(count - 1) / 3 >= 1` sub-patches
per axis.  Point `point < 16` of sub-patch `(patch_u, patch_v)` is the control point with index
`(patch_u*3 + point%4) + (patch_v*3 + point/4)*count_u`, which is non-negative and below
`count_u * count_v`.  Two points of horizontally adjacent sub-patches have the same index exactly
when one is in column 3 of the left patch and the other in column 0 of the right patch, in the
same row; two points of vertically adjacent sub-patches exactly when one is in row 3 of the
upper patch and the other in row 0 of the lower patch, in the same column. -/
theorem SubmitBezier_patches_share_edges (points : Int → SimpleVertex) (count_u count_v : Int)
    (prim_type : GEPatchPrimType) (computeNormals patchFacing : Bool)
    (patches : Int → BezierPatch) (hu : 4 ≤ count_u) (hv : 4 ≤ count_v) :
    (1 ≤ (count_u - 1).tdiv 3 ∧ 1 ≤ (count_v - 1).tdiv 3 ∧
      (count_u - 1).tdiv 3 = (count_u - 1) / 3 ∧ (count_v - 1).tdiv 3 = (count_v - 1) / 3) ∧
    (∀ patch_u patch_v point : Nat, patch_u < ((count_u - 1).tdiv 3).toNat →
      patch_v < ((count_v - 1).tdiv 3).toNat → point < 16 →
      ((SubmitBezier_patches points count_u ((count_u - 1).tdiv 3) ((count_v - 1).tdiv 3)
          prim_type computeNormals patchFacing patches
          ((patch_u : Int) + (patch_v : Int) * (count_u - 1).tdiv 3)).points point =
        points (SubmitBezier_idx count_u patch_u patch_v point)) ∧
      0 ≤ SubmitBezier_idx count_u patch_u patch_v point ∧
      SubmitBezier_idx count_u patch_u patch_v point < count_u * count_v) ∧
    (∀ patch_u patch_v p q : Nat, patch_u + 1 < ((count_u - 1).tdiv 3).toNat → p < 16 → q < 16 →
      (SubmitBezier_idx count_u patch_u patch_v p =
          SubmitBezier_idx count_u (patch_u + 1) patch_v q ↔
        p % 4 = 3 ∧ q % 4 = 0 ∧ p / 4 = q / 4)) ∧
    (∀ patch_u patch_v p q : Nat, patch_v + 1 < ((count_v - 1).tdiv 3).toNat → p < 16 → q < 16 →
      (SubmitBezier_idx count_u patch_u patch_v p =
          SubmitBezier_idx count_u patch_u (patch_v + 1) q ↔
        p / 4 = 3 ∧ q / 4 = 0 ∧ p % 4 = q % 4)) := by
  refine ⟨⟨num_patches_pos count_u hu, num_patches_pos count_v hv,
    Int.tdiv_eq_ediv (by omega) (by decide), Int.tdiv_eq_ediv (by omega) (by decide)⟩, ?_, ?_, ?_⟩
  · intro patch_u patch_v point hpu hpv hp
    refine ⟨?_, SubmitBezier_idx_bounds count_u count_v hu hv patch_u patch_v point hpu hpv hp⟩
    rw [SubmitBezier_patches_apply points count_u _ _ prim_type computeNormals patchFacing
      patches patch_u patch_v hpu hpv]
  · intro patch_u patch_v p q hpu hp hq
    have h7 : 7 ≤ count_u := by
      rw [Int.tdiv_eq_ediv (by omega) (by decide)] at hpu
      omega
    exact SubmitBezier_idx_shared_u count_u h7 patch_u patch_v p q hp hq
  · intro patch_u patch_v p q _ hp hq
    exact SubmitBezier_idx_shared_v count_u hu patch_u patch_v p q hp hq

theorem SubmitBezier_patches_share_edges_witness :
    ((4 : Int) ≤ 7 ∧ (4 : Int) ≤ 4) ∧
    (1 ≤ ((7 : Int) - 1).tdiv 3 ∧ 1 ≤ ((4 : Int) - 1).tdiv 3 ∧
      ((7 : Int) - 1).tdiv 3 = (7 - 1) / 3 ∧ ((4 : Int) - 1).tdiv 3 = (4 - 1) / 3) :=
  ⟨⟨by decide, by decide⟩,
    (SubmitBezier_patches_share_edges flatGrid 7 4 GEPatchPrimType.GE_PATCHPRIM_TRIANGLES true
      false (fun _ => ⟨fun _ => flatGrid 0, 0, 0, 0, GEPatchPrimType.GE_PATCHPRIM_TRIANGLES,
        false, false⟩) (by decide) (by decide)).1⟩

/-! ## The spline basis and the Cox-de Boor recursion -/

theorem spline_n_4_uniform_derivs (i : Nat) (s : ℚ) (knot : Nat → ℚ)
    (h0 : knot i = (i : ℚ) - 2) (h1 : knot (i + 1) = ((i + 1 : Nat) : ℚ) - 2)
    (h2 : knot (i + 2) = ((i + 2 : Nat) : ℚ) - 2) :
    (spline_n_4 i ((i : ℚ) + s) knot {}).derivs =
      [-(1 - s) ^ 2 / 2, (3 * s ^ 2 - 4 * s) / 2, (-3 * s ^ 2 + 2 * s + 1) / 2, s ^ 2 / 2] ∧
    (spline_n_4_sse i ((i : ℚ) + s) knot {}).derivs =
      [-(1 - s) ^ 2 / 2, (3 * s ^ 2 - 4 * s) / 2, (-3 * s ^ 2 + 2 * s + 1) / 2, s ^ 2 / 2] := by
  constructor
  · simp only [spline_n_4, add_zero, h0, h1, h2, List.cons.injEq, and_true]
    push_cast
    refine ⟨?_, ?_, ?_, ?_⟩ <;> ring
  · simp only [spline_n_4_sse, add_zero, h0, h1, h2, List.cons.injEq, and_true]
    push_cast
    refine ⟨?_, ?_, ?_, ?_⟩ <;> ring

theorem eval_shift (q : Polynomial ℚ) (a t : ℚ) :
    (q.comp (Polynomial.X - Polynomial.C a)).eval t = q.eval (t - a) := by
  simp [Polynomial.eval_comp]

theorem eval_derivative_shift (q : Polynomial ℚ) (a t : ℚ) :
    (Polynomial.derivative (q.comp (Polynomial.X - Polynomial.C a))).eval t =
      (Polynomial.derivative q).eval (t - a) := by
  rw [Polynomial.derivative_comp]
  simp [Polynomial.eval_comp]

/-- C25: on a closed axis (type 0), for every segment `i < n`, the four values `derivs[0..3]`
written by `spline_n_4` are the derivatives with respect to `t` of the four weights
`splineVal[0..3]`: there are four polynomials whose values at `t` are the weights and whose
formal derivatives have the values `derivs` at `t`, for every `t`, on both code paths. -/
theorem spline_n_4_derivs_are_derivatives (n i : Nat) (hi : i < n) (knots0 : Nat → ℚ) :
    ∃ p0 p1 p2 p3 : Polynomial ℚ, ∀ t : ℚ,
      (spline_n_4 i t (spline_knot n 0 knots0 newKnotDivs).1
          ((spline_knot n 0 knots0 newKnotDivs).2 i)).splineVal =
        [p0.eval t, p1.eval t, p2.eval t, p3.eval t] ∧
      (spline_n_4 i t (spline_knot n 0 knots0 newKnotDivs).1
          ((spline_knot n 0 knots0 newKnotDivs).2 i)).derivs =
        [(Polynomial.derivative p0).eval t, (Polynomial.derivative p1).eval t,
         (Polynomial.derivative p2).eval t, (Polynomial.derivative p3).eval t] ∧
      (spline_n_4_sse i t (spline_knot n 0 knots0 newKnotDivs).1
          ((spline_knot n 0 knots0 newKnotDivs).2 i)).splineVal =
        [p0.eval t, p1.eval t, p2.eval t, p3.eval t] ∧
      (spline_n_4_sse i t (spline_knot n 0 knots0 newKnotDivs).1
          ((spline_knot n 0 knots0 newKnotDivs).2 i)).derivs =
        [(Polynomial.derivative p0).eval t, (Polynomial.derivative p1).eval t,
         (Polynomial.derivative p2).eval t, (Polynomial.derivative p3).eval t] := by
  obtain ⟨hk, hd⟩ := spline_knot_closed n knots0 newKnotDivs
  have e : (spline_knot n 0 knots0 newKnotDivs).2 i = {} := by rw [hd]; rfl
  rw [e]
  refine ⟨Polynomial.comp (Polynomial.C (1 / 6 : ℚ) - Polynomial.C (1 / 2 : ℚ) * Polynomial.X +
        Polynomial.C (1 / 2 : ℚ) * Polynomial.X ^ 2 - Polynomial.C (1 / 6 : ℚ) * Polynomial.X ^ 3)
        (Polynomial.X - Polynomial.C (i : ℚ)),
    Polynomial.comp (Polynomial.C (2 / 3 : ℚ) - Polynomial.X ^ 2 +
        Polynomial.C (1 / 2 : ℚ) * Polynomial.X ^ 3)
        (Polynomial.X - Polynomial.C (i : ℚ)),
    Polynomial.comp (Polynomial.C (1 / 6 : ℚ) + Polynomial.C (1 / 2 : ℚ) * Polynomial.X +
        Polynomial.C (1 / 2 : ℚ) * Polynomial.X ^ 2 - Polynomial.C (1 / 2 : ℚ) * Polynomial.X ^ 3)
        (Polynomial.X - Polynomial.C (i : ℚ)),
    Polynomial.comp (Polynomial.C (1 / 6 : ℚ) * Polynomial.X ^ 3)
        (Polynomial.X - Polynomial.C (i : ℚ)), ?_⟩
  intro t
  have ht : t = (i : ℚ) + (t - (i : ℚ)) := by ring
  obtain ⟨w1, w2⟩ := spline_n_4_uniform_weights i (t - (i : ℚ)) _ (hk i (by omega))
    (hk (i + 1) (by omega)) (hk (i + 2) (by omega))
  obtain ⟨d1, d2⟩ := spline_n_4_uniform_derivs i (t - (i : ℚ)) _ (hk i (by omega))
    (hk (i + 1) (by omega)) (hk (i + 2) (by omega))
  rw [← ht] at w1 w2 d1 d2
  simp only [eval_shift, eval_derivative_shift]
  rw [w1, w2, d1, d2]
  generalize t - (i : ℚ) = s
  refine ⟨?_, ?_, ?_, ?_⟩ <;>
  · simp only [List.cons.injEq, and_true]
    refine ⟨?_, ?_, ?_, ?_⟩ <;> simp <;> ring

theorem spline_n_4_derivs_are_derivatives_witness :
    (1 < 2) ∧
    ∃ p0 p1 p2 p3 : Polynomial ℚ, ∀ t : ℚ,
      (spline_n_4 1 t (spline_knot 2 0 (fun _ => 7) newKnotDivs).1
          ((spline_knot 2 0 (fun _ => 7) newKnotDivs).2 1)).splineVal =
        [p0.eval t, p1.eval t, p2.eval t, p3.eval t] ∧
      (spline_n_4 1 t (spline_knot 2 0 (fun _ => 7) newKnotDivs).1
          ((spline_knot 2 0 (fun _ => 7) newKnotDivs).2 1)).derivs =
        [(Polynomial.derivative p0).eval t, (Polynomial.derivative p1).eval t,
         (Polynomial.derivative p2).eval t, (Polynomial.derivative p3).eval t] := by
  obtain ⟨p0, p1, p2, p3, h⟩ := spline_n_4_derivs_are_derivatives 2 1 (by decide) (fun _ => 7)
  exact ⟨by decide, p0, p1, p2, p3, fun t => ⟨(h t).1, (h t).2.1⟩⟩

/-! ## Non-negative spline weights -/

theorem clampedKnotSpec_mono (n type j : Nat) :
    clampedKnotSpec n type j ≤ clampedKnotSpec n type (j + 1) := by
  simp only [clampedKnotSpec, ne_eq]
  generalize type &&& 1 = a
  generalize type &&& 2 = b
  split_ifs <;> push_neg at * <;> qify at * <;>
    first
    | linarith
    | (simp_all; linarith)

theorem clampedKnotSpec_segment (n type i : Nat) (hi : i < n) :
    clampedKnotSpec n type (i + 2) = (i : ℚ) ∧ clampedKnotSpec n type (i + 3) = (i : ℚ) + 1 := by
  simp only [clampedKnotSpec, ne_eq]
  generalize type &&& 1 = a
  generalize type &&& 2 = b
  constructor
  · split_ifs with h1 h2
    · have : i = 0 := by omega
      subst this
      simp
    · omega
    · push_cast; ring
  · split_ifs with h1 h2
    · omega
    · have : n = i + 1 := by omega
      subst this
      push_cast; ring
    · push_cast; ring

theorem frac_bounds (t a b d : ℚ) (h1 : a ≤ t) (h2 : t ≤ b) (h3 : a < b) (hd : d = 1 / (b - a)) :
    0 ≤ (t - a) * d ∧ (t - a) * d ≤ 1 := by
  subst hd
  rw [mul_one_div]
  have hpos : 0 < b - a := by linarith
  exact ⟨div_nonneg (by linarith) hpos.le, (div_le_one hpos).mpr (by linarith)⟩

theorem spline_n_4_weights_nonneg (i : Nat) (t : ℚ) (knot : Nat → ℚ) (div : KnotDiv)
    (h30 : 0 ≤ (t - knot i) * div._3_0 ∧ (t - knot i) * div._3_0 ≤ 1)
    (h41 : 0 ≤ (t - knot (i + 1)) * div._4_1 ∧ (t - knot (i + 1)) * div._4_1 ≤ 1)
    (h52 : 0 ≤ (t - knot (i + 2)) * div._5_2 ∧ (t - knot (i + 2)) * div._5_2 ≤ 1)
    (h31 : 0 ≤ (t - knot (i + 1)) * div._3_1 ∧ (t - knot (i + 1)) * div._3_1 ≤ 1)
    (h42 : 0 ≤ (t - knot (i + 2)) * div._4_2 ∧ (t - knot (i + 2)) * div._4_2 ≤ 1)
    (h32 : 0 ≤ (t - knot (i + 2)) * div._3_2 ∧ (t - knot (i + 2)) * div._3_2 ≤ 1) (k : Nat) :
    0 ≤ (spline_n_4 i t knot div).splineVal.getD k 0 := by
  simp only [spline_n_4, add_zero]
  generalize (t - knot i) * div._3_0 = f30 at h30 ⊢
  generalize (t - knot (i + 1)) * div._4_1 = f41 at h41 ⊢
  generalize (t - knot (i + 2)) * div._5_2 = f52 at h52 ⊢
  generalize (t - knot (i + 1)) * div._3_1 = f31 at h31 ⊢
  generalize (t - knot (i + 2)) * div._4_2 = f42 at h42 ⊢
  generalize (t - knot (i + 2)) * div._3_2 = f32 at h32 ⊢
  have g30 : 0 ≤ 1 - f30 := by linarith [h30.2]
  have g41 : 0 ≤ 1 - f41 := by linarith [h41.2]
  have g52 : 0 ≤ 1 - f52 := by linarith [h52.2]
  have g31 : 0 ≤ 1 - f31 := by linarith [h31.2]
  have g42 : 0 ≤ 1 - f42 := by linarith [h42.2]
  have g32 : 0 ≤ 1 - f32 := by linarith [h32.2]
  rcases k with _ | _ | _ | _ | k
  · have e : (1 - f30) * (1 - f31) - (1 - f30) * (1 - f31) * f32 =
        (1 - f30) * ((1 - f31) * (1 - f32)) := by ring
    simp only [List.getD_cons_zero]
    rw [e]
    exact mul_nonneg g30 (mul_nonneg g31 g32)
  · have e : 1 - (1 - f30) * (1 - f31) - f31 * f41 +
        ((1 - f30) * (1 - f31) + f31 * f41 + (1 - f41) * (1 - f42) - 1) * f32 =
        f30 * ((1 - f31) * (1 - f32)) + (1 - f41) * (f31 * (1 - f32) + (1 - f42) * f32) := by
      ring
    simp only [List.getD_cons_succ, List.getD_cons_zero]
    rw [e]
    exact add_nonneg (mul_nonneg h30.1 (mul_nonneg g31 g32))
      (mul_nonneg g41 (add_nonneg (mul_nonneg h31.1 g32) (mul_nonneg g42 h32.1)))
  · have e : f31 * f41 + (1 - f31 * f41 - (1 - f41) * (1 - f42) - f42 * f52) * f32 =
        f41 * (f31 * (1 - f32) + (1 - f42) * f32) + (1 - f52) * (f42 * f32) := by ring
    simp only [List.getD_cons_succ, List.getD_cons_zero]
    rw [e]
    exact add_nonneg (mul_nonneg h41.1 (add_nonneg (mul_nonneg h31.1 g32) (mul_nonneg g42 h32.1)))
      (mul_nonneg g52 (mul_nonneg h42.1 h32.1))
  · simp only [List.getD_cons_succ, List.getD_cons_zero]
    exact mul_nonneg (mul_nonneg h42.1 h52.1) h32.1
  · simp

theorem spline_knot_weights_nonneg (n type i : Nat) (hi : i < n) (knots0 : Nat → ℚ) (t : ℚ)
    (ht0 : (i : ℚ) ≤ t) (ht1 : t ≤ (i : ℚ) + 1) (k : Nat) :
    0 ≤ (spline_n_4 i t (spline_knot n type knots0 newKnotDivs).1
      ((spline_knot n type knots0 newKnotDivs).2 i)).splineVal.getD k 0 := by
  have k0 := spline_knot_knots_clamped n type i (by omega) knots0 newKnotDivs
  have k1 := spline_knot_knots_clamped n type (i + 1) (by omega) knots0 newKnotDivs
  have k2 := spline_knot_knots_clamped n type (i + 2) (by omega) knots0 newKnotDivs
  obtain ⟨s2, s3⟩ := clampedKnotSpec_segment n type i hi
  have m0 : clampedKnotSpec n type i ≤ clampedKnotSpec n type (i + 1) :=
    clampedKnotSpec_mono n type i
  have m1 : clampedKnotSpec n type (i + 1) ≤ clampedKnotSpec n type (i + 2) :=
    clampedKnotSpec_mono n type (i + 1)
  have m3 : clampedKnotSpec n type (i + 3) ≤ clampedKnotSpec n type (i + 4) :=
    clampedKnotSpec_mono n type (i + 3)
  have m4 : clampedKnotSpec n type (i + 4) ≤ clampedKnotSpec n type (i + 5) :=
    clampedKnotSpec_mono n type (i + 4)
  by_cases hx : n = 1 ∧ type &&& 1 ≠ 0 ∧ type &&& 2 ≠ 0
  · obtain ⟨rfl, hb0, hb1⟩ := hx
    have hi0 : i = 0 := by omega
    subst hi0
    have hD : (spline_knot 1 type knots0 newKnotDivs).2 0 =
        { _3_0 := 1, _4_1 := 1 / 2, _5_2 := 1, _3_1 := 1, _4_2 := 1, _3_2 := 1 } := by
      rw [spline_knot_divs_apply]
      simp only [spline_knot_divs_closed, ne_eq, hb0, hb1, not_false_eq_true, if_true]
    have z2 : clampedKnotSpec 1 type (0 + 2) = 0 := by rw [s2]; simp
    have z1 : clampedKnotSpec 1 type (0 + 1) = 0 := by
      simp only [clampedKnotSpec, ne_eq, hb0, not_false_eq_true, true_and]
      rw [if_pos (by decide)]
    have z0 : clampedKnotSpec 1 type 0 = 0 := by
      simp only [clampedKnotSpec, ne_eq, hb0, not_false_eq_true, true_and]
      rw [if_pos (by decide)]
    simp only [Nat.cast_zero, zero_add] at ht0 ht1
    apply spline_n_4_weights_nonneg <;> rw [hD] <;>
      simp only [k0, k1, k2, z0, z1, z2, sub_zero, mul_one] <;> constructor <;> linarith
  · rw [spline_knot_divs_reciprocal n type i hi hx knots0]
    have a2 : clampedKnotSpec n type (i + 2) ≤ t := by rw [s2]; exact ht0
    have b3 : t ≤ clampedKnotSpec n type (i + 3) := by rw [s3]; exact ht1
    have l23 : clampedKnotSpec n type (i + 2) < clampedKnotSpec n type (i + 3) := by
      rw [s2, s3]; linarith
    apply spline_n_4_weights_nonneg
    · rw [k0]
      exact frac_bounds t _ _ _ (by linarith) b3 (by linarith) rfl
    · rw [k1]
      exact frac_bounds t _ _ _ (by linarith) (by linarith) (by linarith) rfl
    · rw [k2]
      exact frac_bounds t _ _ _ a2 (by linarith) (by linarith) rfl
    · rw [k1]
      exact frac_bounds t _ _ _ (by linarith) b3 (by linarith) rfl
    · rw [k2]
      exact frac_bounds t _ _ _ a2 (by linarith) (by linarith) rfl
    · rw [k2, s2]
      simp only [knotDivSpec, mul_one]
      constructor <;> linarith

/-! ## The position as a full window sum -/

theorem SplinePatchFullQuality_u_in_segment (count patch_div : Int) (tile : Nat)
    (hc : 4 ≤ count) (hp : 1 ≤ patch_div) (ht : (tile : Int) ≤ patch_div) :
    (((SplinePatchFullQuality_iu count (SplinePatchFullQuality_u count patch_div tile)).toNat
        : Nat) : ℚ) ≤ SplinePatchFullQuality_u count patch_div tile ∧
    SplinePatchFullQuality_u count patch_div tile ≤
      (((SplinePatchFullQuality_iu count (SplinePatchFullQuality_u count patch_div tile)).toNat
        : Nat) : ℚ) + 1 ∧
    (SplinePatchFullQuality_iu count (SplinePatchFullQuality_u count patch_div tile)).toNat <
      (count - 3).toNat := by
  have hu0 := SplinePatchFullQuality_u_nonneg count patch_div tile
  have hule : SplinePatchFullQuality_u count patch_div tile ≤ ((count - 3 : Int) : ℚ) := by
    unfold SplinePatchFullQuality_u
    simp only
    have hc3 : (0 : ℚ) ≤ ((count - 3 : Int) : ℚ) := by exact_mod_cast (by omega : 0 ≤ count - 3)
    split_ifs with h
    · exact hc3
    · have hpq : (0 : ℚ) < (patch_div : ℚ) := by exact_mod_cast (by omega : 0 < patch_div)
      have htq : ((tile : ℚ)) ≤ (patch_div : ℚ) := by exact_mod_cast ht
      have e : (tile : ℚ) * ((count - 3 : Int) : ℚ) * (1 / (patch_div : ℚ)) =
          ((tile : ℚ) / (patch_div : ℚ)) * ((count - 3 : Int) : ℚ) := by
        field_simp
      rw [e]
      have h1 : (tile : ℚ) / (patch_div : ℚ) ≤ 1 := (div_le_one hpq).mpr htq
      calc (tile : ℚ) / (patch_div : ℚ) * ((count - 3 : Int) : ℚ)
          ≤ 1 * ((count - 3 : Int) : ℚ) := mul_le_mul_of_nonneg_right h1 hc3
        _ = ((count - 3 : Int) : ℚ) := one_mul _
  obtain ⟨b0, b1⟩ := SplinePatchFullQuality_iu_bounds count _ hc hu0
  generalize SplinePatchFullQuality_u count patch_div tile = u at hu0 hule b0 b1 ⊢
  have hfl : ((Rat.floor u : Int) : ℚ) ≤ u := Rat.le_floor.mp (le_refl _)
  have hfu : u < ((Rat.floor u : Int) : ℚ) + 1 := by
    by_contra hcon
    push_neg at hcon
    have h2 : Rat.floor u + 1 ≤ Rat.floor u := Rat.le_floor.mpr (by push_cast; exact hcon)
    omega
  have hcast : (((SplinePatchFullQuality_iu count u).toNat : Nat) : ℚ) =
      ((SplinePatchFullQuality_iu count u : Int) : ℚ) := by
    have : (((SplinePatchFullQuality_iu count u).toNat : Nat) : Int) =
        SplinePatchFullQuality_iu count u := Int.toNat_of_nonneg b0
    exact_mod_cast this
  rw [hcast]
  refine ⟨?_, ?_, by omega⟩
  · unfold SplinePatchFullQuality_iu
    simp only
    split_ifs with h
    · have h3 : ((count - 3 : Int) : ℚ) ≤ ((Rat.floor u : Int) : ℚ) := by exact_mod_cast h
      push_cast at h3 ⊢
      linarith
    · exact hfl
  · unfold SplinePatchFullQuality_iu
    simp only
    split_ifs with h
    · push_cast at hule ⊢
      linarith
    · linarith

theorem SplinePatchFullQuality_basis_nonneg (count : Int) (type : Nat) (knot0 : Nat → ℚ)
    (patch_div : Int) (tile : Nat) (hc : 4 ≤ count) (hp : 1 ≤ patch_div)
    (ht : (tile : Int) ≤ patch_div) (k : Nat) :
    0 ≤ (SplinePatchFullQuality_basis count type knot0 patch_div tile).splineVal.getD k 0 := by
  obtain ⟨h1, h2, h3⟩ := SplinePatchFullQuality_u_in_segment count patch_div tile hc hp ht
  exact spline_knot_weights_nonneg (count - 3).toNat type _ h3 knot0 _ h1 h2 k

theorem foldl_proj {σ τ β : Type} (μ : σ → τ) (f : σ → β → σ) (g : τ → β → τ)
    (h : ∀ s b, μ (f s b) = g (μ s) b) (l : List β) (s : σ) :
    μ (l.foldl f s) = l.foldl g (μ s) := by
  induction l generalizing s with
  | nil => rfl
  | cons a l ih => rw [List.foldl_cons, List.foldl_cons, ih, h]

theorem foldl_nested_proj {σ τ α β : Type} (μ : σ → τ) (f : σ → α → β → σ)
    (g : τ → α → β → τ) (h : ∀ s a b, μ (f s a b) = g (μ s) a b) (la : List α) (lb : List β)
    (s : σ) :
    μ (la.foldl (fun s a => lb.foldl (fun s b => f s a b) s) s) =
      la.foldl (fun t a => lb.foldl (fun t b => g t a b) t) (μ s) :=
  foldl_proj μ _ _ (fun s a => foldl_proj μ _ _ (fun s b => h s a b) lb s) la s

theorem foldl_congr_mem {τ β : Type} (g g' : τ → β → τ) (l : List β)
    (h : ∀ t, ∀ b ∈ l, g t b = g' t b) (t : τ) : l.foldl g t = l.foldl g' t := by
  induction l generalizing t with
  | nil => rfl
  | cons a l ih =>
    rw [List.foldl_cons, List.foldl_cons, h t a (List.mem_cons_self _ _)]
    exact ih (fun t b hb => h t b (List.mem_cons_of_mem _ hb)) _

theorem foldl_nested_congr {τ α β : Type} (g g' : τ → α → β → τ) (la : List α) (lb : List β)
    (h : ∀ t a b, g t a b = g' t a b) (t : τ) :
    la.foldl (fun t a => lb.foldl (fun t b => g t a b) t) t =
      la.foldl (fun t a => lb.foldl (fun t b => g' t a b) t) t := by
  have e : g = g' := by
    funext t a b
    exact h t a b
  rw [e]

theorem AccumulateWeighted_or_skip (p x : Vec3f) (w : ℚ) (hw : 0 ≤ w) :
    (if w > 0 then AccumulateWeighted p x w else p) = p + x * w := by
  split_ifs with h
  · rfl
  · have h0 : w = 0 := le_antisymm (not_lt.mp h) hw
    subst h0
    rw [Vec3f_scale_def, Vec3f_add_def]
    simp

/-- C26: for `count_u, count_v >= 4`, every open/closed type and every grid point
`tile_u <= patch_div_s`, `tile_v <= patch_div_t` (densities at least 1), all four basis weights
of either axis are non-negative, and the position written by `SplinePatchFullQuality` is the
full sum over the 4 x 4 window of `u_weights[ii] * v_weights[jj] * P(iu + ii, iv + jj)`: the
test `f > 0` drops only terms whose weight is zero. -/
theorem SplinePatchFullQuality_position_full_sum (m : Math3D) (spatch : SplinePatchLocal)
    (origVertType : VertType) (knot_u0 knot_v0 : Nat → ℚ) (patch_div_s patch_div_t : Int)
    (tile_u tile_v : Nat) (hcu : 4 ≤ spatch.count_u) (hcv : 4 ≤ spatch.count_v)
    (hs : 1 ≤ patch_div_s) (ht : 1 ≤ patch_div_t) (htu : (tile_u : Int) ≤ patch_div_s)
    (htv : (tile_v : Int) ≤ patch_div_t) :
    (∀ k, 0 ≤ (SplinePatchFullQuality_basis spatch.count_u spatch.type_u knot_u0 patch_div_s
        tile_u).splineVal.getD k 0) ∧
    (∀ k, 0 ≤ (SplinePatchFullQuality_basis spatch.count_v spatch.type_v knot_v0 patch_div_t
        tile_v).splineVal.getD k 0) ∧
    (SplinePatchFullQuality_vertex m spatch origVertType
        (spline_knot (spatch.count_u - 3).toNat spatch.type_u knot_u0 newKnotDivs).1
        (spline_knot (spatch.count_v - 3).toNat spatch.type_v knot_v0 newKnotDivs).1
        (spline_knot (spatch.count_u - 3).toNat spatch.type_u knot_u0 newKnotDivs).2
        (spline_knot (spatch.count_v - 3).toNat spatch.type_v knot_v0 newKnotDivs).2
        patch_div_s patch_div_t tile_u tile_v).pos =
      SplineWindowSum
        (fun ii jj =>
          (SplinePatchFullQuality_basis spatch.count_u spatch.type_u knot_u0 patch_div_s
              tile_u).splineVal.getD ii 0 *
            (SplinePatchFullQuality_basis spatch.count_v spatch.type_v knot_v0 patch_div_t
              tile_v).splineVal.getD jj 0)
        (fun ii jj =>
          (spatch.points (spatch.count_u *
              (SplinePatchFullQuality_iu spatch.count_v
                  (SplinePatchFullQuality_u spatch.count_v patch_div_t tile_v) + (jj : Int)) +
              (SplinePatchFullQuality_iu spatch.count_u
                  (SplinePatchFullQuality_u spatch.count_u patch_div_s tile_u) +
                (ii : Int)))).pos) := by
  have nu := SplinePatchFullQuality_basis_nonneg spatch.count_u spatch.type_u knot_u0
    patch_div_s tile_u hcu hs htu
  have nv := SplinePatchFullQuality_basis_nonneg spatch.count_v spatch.type_v knot_v0
    patch_div_t tile_v hcv ht htv
  refine ⟨nu, nv, ?_⟩
  obtain ⟨_, a1⟩ := SplinePatchFullQuality_iu_bounds spatch.count_u _ hcu
    (SplinePatchFullQuality_u_nonneg spatch.count_u patch_div_s tile_u)
  obtain ⟨_, b1⟩ := SplinePatchFullQuality_iu_bounds spatch.count_v _ hcv
    (SplinePatchFullQuality_u_nonneg spatch.count_v patch_div_t tile_v)
  have mu : min (spatch.count_u - SplinePatchFullQuality_iu spatch.count_u
      (SplinePatchFullQuality_u spatch.count_u patch_div_s tile_u)) 4 = 4 := by omega
  have mv : min (spatch.count_v - SplinePatchFullQuality_iu spatch.count_v
      (SplinePatchFullQuality_u spatch.count_v patch_div_t tile_v)) 4 = 4 := by omega
  rw [SplinePatchFullQuality_vertex_eq]
  simp only [SplinePatchFullQuality_accum, mu, mv]
  have h4 : (4 : Int).toNat = 4 := rfl
  rw [h4]
  refine (foldl_nested_proj SplineAccum.vert_pos _
    (fun (p : Vec3f) (ii jj : Nat) =>
      if (SplinePatchFullQuality_basis spatch.count_u spatch.type_u knot_u0 patch_div_s
              tile_u).splineVal.getD ii 0 *
            (SplinePatchFullQuality_basis spatch.count_v spatch.type_v knot_v0 patch_div_t
              tile_v).splineVal.getD jj 0 > 0 then
        AccumulateWeighted p (spatch.points (spatch.count_u *
              (SplinePatchFullQuality_iu spatch.count_v
                  (SplinePatchFullQuality_u spatch.count_v patch_div_t tile_v) + (jj : Int)) +
              (SplinePatchFullQuality_iu spatch.count_u
                  (SplinePatchFullQuality_u spatch.count_u patch_div_s tile_u) +
                (ii : Int)))).pos
          ((SplinePatchFullQuality_basis spatch.count_u spatch.type_u knot_u0 patch_div_s
              tile_u).splineVal.getD ii 0 *
            (SplinePatchFullQuality_basis spatch.count_v spatch.type_v knot_v0 patch_div_t
              tile_v).splineVal.getD jj 0)
      else p) ?_ _ _ _).trans ?_
  · intro s a b
    simp only [SplinePatchFullQuality_basis]
    split_ifs <;> rfl
  · unfold SplineWindowSum
    apply foldl_nested_congr
    intro p ii jj
    exact AccumulateWeighted_or_skip p _ _ (mul_nonneg (nu ii) (nv jj))

theorem SplinePatchFullQuality_position_full_sum_witness :
    ((4 : Int) ≤ 4 ∧ (1 : Int) ≤ 2 ∧ ((1 : Nat) : Int) ≤ 2) ∧
    (∀ k, 0 ≤ (SplinePatchFullQuality_basis 4 3 (fun _ => 0) 2 1).splineVal.getD k 0) :=
  ⟨⟨by decide, by decide, by decide⟩,
    (SplinePatchFullQuality_position_full_sum ⟨unpackRGBA, fun _ => 0, fun v => v⟩
      ⟨1, 1, 3, 0, 4, 4, flatGrid, true, GEPatchPrimType.GE_PATCHPRIM_TRIANGLES, false⟩
      ⟨true, false, false⟩ (fun _ => 0) (fun _ => 0) 2 2 1 1 (by decide) (by decide)
      (by decide) (by decide) (by decide) (by decide)).1⟩

/-! ## The derivative accumulators at an open end -/

theorem spline_n_4_open_at_zero (knots0 : Nat → ℚ) :
    spline_n_4 0 0 (spline_knot 1 1 knots0 newKnotDivs).1
        ((spline_knot 1 1 knots0 newKnotDivs).2 0) =
      { splineVal := [1, 0, 0, 0], derivs := [-3, 3, 0, 0] } := by
  obtain ⟨h0, h1, h2⟩ := spline_knot_start 1 1 (le_refl _) (by decide) knots0 newKnotDivs
  have hD : (spline_knot 1 1 knots0 newKnotDivs).2 0 =
      { _3_0 := 1, _4_1 := 1 / 2, _5_2 := 1 / 3, _3_1 := 1, _4_2 := 1 / 2, _3_2 := 1 } := by
    rw [spline_knot_divs_apply]
    rfl
  rw [hD]
  simp only [spline_n_4, add_zero, zero_add, h0, h1, h2]
  norm_num

theorem SplinePatchFullQuality_basis_open_at_zero :
    SplinePatchFullQuality_basis 4 1 (fun _ => 0) 1 0 =
      { splineVal := [1, 0, 0, 0], derivs := [-3, 3, 0, 0] } ∧
    SplinePatchFullQuality_basis 4 0 (fun _ => 0) 1 0 =
      { splineVal := [1 / 6, 2 / 3, 1 / 6, 0], derivs := [-1 / 2, 0, 1 / 2, 0] } := by
  have hf : Rat.floor 0 = 0 := by rfl
  have e : ((4 : Int) - 3).toNat = 1 := rfl
  have hD : (spline_knot 1 0 (fun _ => (0 : ℚ)) newKnotDivs).2 0 = {} := by
    rw [(spline_knot_closed 1 (fun _ => 0) newKnotDivs).2]
    rfl
  constructor
  · have hs := spline_n_4_open_at_zero (fun _ => 0)
    simp only [SplinePatchFullQuality_basis, SplinePatchFullQuality_u, SplinePatchFullQuality_iu,
      e]
    simp [hf, hs]
  · have hs := spline_n_4_closed_at_zero (fun _ => 0)
    rw [← hD] at hs
    simp only [SplinePatchFullQuality_basis, SplinePatchFullQuality_u, SplinePatchFullQuality_iu,
      e]
    simp [hf, hs]

/-- C27 (failing input): the derivative accumulators are updated under the same test `f > 0`
as the position, where `f = u_weights[ii] * v_weights[jj]`, so a control point whose weight is
zero is skipped even when its derivative weight is not.  On the flat grid `P(i, j) = (i, j, 0)`
with the u axis open at the start (`type_u = 1`), at grid point (0, 0) the u weights are
`(1, 0, 0, 0)` and the u derivative weights `(-3, 3, 0, 0)`: the code gives `du = (0, -3, 0)`
where the full sum is `(3, 0, 0)`; `dv = (0, 1, 0)` either way; `Cross(du, dv)` is the zero
vector where the full sums give `(0, 0, 3)`. -/
theorem SplinePatchFullQuality_du_skips_terms (m : Math3D) :
    (SplinePatchFullQuality_basis 4 1 (fun _ => 0) 1 0 =
        { splineVal := [1, 0, 0, 0], derivs := [-3, 3, 0, 0] } ∧
      SplinePatchFullQuality_basis 4 0 (fun _ => 0) 1 0 =
        { splineVal := [1 / 6, 2 / 3, 1 / 6, 0], derivs := [-1 / 2, 0, 1 / 2, 0] }) ∧
    (SplinePatchFullQuality_accum m
        ⟨1, 1, 1, 0, 4, 4, flatGrid, true, GEPatchPrimType.GE_PATCHPRIM_TRIANGLES, false⟩
        ⟨true, false, false⟩
        (spline_knot 1 1 (fun _ => 0) newKnotDivs).1 (spline_knot 1 0 (fun _ => 0) newKnotDivs).1
        (spline_knot 1 1 (fun _ => 0) newKnotDivs).2 (spline_knot 1 0 (fun _ => 0) newKnotDivs).2
        1 1 0 0).du = ⟨0, -3, 0⟩ ∧
    SplineWindowSum
        (fun ii jj => (SplinePatchFullQuality_basis 4 1 (fun _ => 0) 1 0).derivs.getD ii 0 *
          (SplinePatchFullQuality_basis 4 0 (fun _ => 0) 1 0).splineVal.getD jj 0)
        (fun ii jj => (flatGrid (4 * (0 + (jj : Int)) + (0 + (ii : Int)))).pos) = ⟨3, 0, 0⟩ ∧
    (SplinePatchFullQuality_accum m
        ⟨1, 1, 1, 0, 4, 4, flatGrid, true, GEPatchPrimType.GE_PATCHPRIM_TRIANGLES, false⟩
        ⟨true, false, false⟩
        (spline_knot 1 1 (fun _ => 0) newKnotDivs).1 (spline_knot 1 0 (fun _ => 0) newKnotDivs).1
        (spline_knot 1 1 (fun _ => 0) newKnotDivs).2 (spline_knot 1 0 (fun _ => 0) newKnotDivs).2
        1 1 0 0).dv = ⟨0, 1, 0⟩ ∧
    SplineWindowSum
        (fun ii jj => (SplinePatchFullQuality_basis 4 1 (fun _ => 0) 1 0).splineVal.getD ii 0 *
          (SplinePatchFullQuality_basis 4 0 (fun _ => 0) 1 0).derivs.getD jj 0)
        (fun ii jj => (flatGrid (4 * (0 + (jj : Int)) + (0 + (ii : Int)))).pos) = ⟨0, 1, 0⟩ ∧
    Cross ⟨0, -3, 0⟩ ⟨0, 1, 0⟩ = ⟨0, 0, 0⟩ ∧ Cross ⟨3, 0, 0⟩ ⟨0, 1, 0⟩ = ⟨0, 0, 3⟩ := by
  obtain ⟨bu, bv⟩ := SplinePatchFullQuality_basis_open_at_zero
  have hf : Rat.floor 0 = 0 := by rfl
  have hr : List.range 4 = [0, 1, 2, 3] := rfl
  have hsu := spline_n_4_open_at_zero (fun _ => 0)
  have hD : (spline_knot 1 0 (fun _ => (0 : ℚ)) newKnotDivs).2 0 = {} := by
    rw [(spline_knot_closed 1 (fun _ => 0) newKnotDivs).2]
    rfl
  have hsv := spline_n_4_closed_at_zero (fun _ => 0)
  rw [← hD] at hsv
  refine ⟨⟨bu, bv⟩, ?_, ?_, ?_, ?_, ?_, ?_⟩
  · simp only [SplinePatchFullQuality_accum, SplinePatchFullQuality_u,
      SplinePatchFullQuality_iu]
    simp [hf, hsu, hsv, hr, AccumulateWeighted, flatGrid, Vec3f_add_def, Vec3f_scale_def,
      Vec3f.zero]
    norm_num
  · rw [bu, bv]
    simp [SplineWindowSum, hr, flatGrid, Vec3f_add_def, Vec3f_scale_def, Vec3f.zero]
    norm_num
  · simp only [SplinePatchFullQuality_accum, SplinePatchFullQuality_u,
      SplinePatchFullQuality_iu]
    simp [hf, hsu, hsv, hr, AccumulateWeighted, flatGrid, Vec3f_add_def, Vec3f_scale_def,
      Vec3f.zero]
  · rw [bu, bv]
    simp [SplineWindowSum, hr, flatGrid, Vec3f_add_def, Vec3f_scale_def, Vec3f.zero]
  · simp [Cross]
  · simp [Cross]


/-! ## The scratch slice of the normalised control points -/

theorem Allocate_align_le (w size : Nat) : Allocate_align w size ≤ size + 15 := by
  unfold Allocate_align
  have h1 : (size + 15) % 2 ^ w ≤ size + 15 := Nat.mod_le _ _
  have h2 : (size + 15) % 2 ^ w / 16 * 16 ≤ (size + 15) % 2 ^ w := Nat.div_mul_le_self _ _
  omega

theorem Allocate_offset (w : Nat) (b : SimpleBufferManager) (size q : Nat)
    (h : (b.Allocate w size).1 = some q) : q = b.totalSize := by
  simp only [SimpleBufferManager.Allocate] at h
  split_ifs at h
  simp at h
  exact h.symm

theorem Allocate_totalSize_le (w : Nat) (b : SimpleBufferManager) (size : Nat) :
    (b.Allocate w size).2.totalSize ≤ b.totalSize + Allocate_align w size := by
  simp only [SimpleBufferManager.Allocate]
  split_ifs
  · exact Nat.le_add_right _ _
  · exact Nat.mod_le _ _

theorem Submit_opening_offsets (env : SubmitEnv) (s : DrawEngineCommon) (indices : Bool)
    (count_u count_v : Int) (p t : Nat)
    (hp : (Submit_opening env s indices count_u count_v).2.simplified_control_points = some p)
    (ht : (Submit_opening env s indices count_u count_v).2.temp_buffer = some t) :
    p = 0 ∧
    t ≤ Allocate_align env.size_t_bits (env.sizeof_SimpleVertex *
      (Submit_opening env s indices count_u count_v).2.index_upper_bound.toNat + 1) := by
  simp only [Submit_opening] at hp ht ⊢
  have h1 := Allocate_offset _ _ _ _ hp
  have h2 := Allocate_offset _ _ _ _ ht
  have h3 := Allocate_totalSize_le env.size_t_bits
    (SimpleBufferManager.init env.DECODED_VERTEX_BUFFER_SIZE)
    (env.sizeof_SimpleVertex *
      (if indices = true then env.indexBounds.2 else (count_u * count_v - 1) % 65536).toNat + 1)
  have h0 : (SimpleBufferManager.init env.DECODED_VERTEX_BUFFER_SIZE).totalSize = 0 := rfl
  rw [h0] at h1 h3
  exact ⟨h1, by omega⟩

/-- C33 (failing input): the size passed to `Allocate` for the normalised control points is
`sizeof(SimpleVertex) * index_upper_bound + 1`, one byte more than `index_upper_bound` records,
not `index_upper_bound + 1` records.  With 36-byte records the slice reserved, after rounding up
to 16, is always shorter than `36 * (index_upper_bound + 1)`; `simplified_control_points` is at
offset 0 and `temp_buffer` begins before the end of the last normalised record.  For a 4 x 4
patch without indices (`index_upper_bound = 15`) the slice is 544 bytes, `temp_buffer` is at
offset 544, and the sixteen records need 576 bytes; the next allocation, written
`sizeof(SimpleVertex) * count_u * count_v`, does reserve 576 bytes for sixteen records. -/
theorem Submit_opening_control_points_slice_short :
    (∀ w ub : Nat, Allocate_align w (36 * ub + 1) < 36 * (ub + 1)) ∧
    (∀ (env : SubmitEnv) (s : DrawEngineCommon) (indices : Bool) (count_u count_v : Int)
        (p t : Nat), env.sizeof_SimpleVertex = 36 →
      (Submit_opening env s indices count_u count_v).2.simplified_control_points = some p →
      (Submit_opening env s indices count_u count_v).2.temp_buffer = some t →
      p = 0 ∧
      t < p + 36 * ((Submit_opening env s indices count_u count_v).2.index_upper_bound.toNat
        + 1)) ∧
    ((Submit_opening sampleEnv sampleState false 4 4).2.index_upper_bound = 15 ∧
      (Submit_opening sampleEnv sampleState false 4 4).2.simplified_control_points = some 0 ∧
      (Submit_opening sampleEnv sampleState false 4 4).2.temp_buffer = some 544 ∧
      Allocate_align 64 (36 * 15 + 1) = 544 ∧ 544 < 36 * (15 + 1) ∧
      Allocate_align 64 (36 * (4 : Int).toNat * (4 : Int).toNat) = 36 * (15 + 1)) := by
  have h1 : ∀ w ub : Nat, Allocate_align w (36 * ub + 1) < 36 * (ub + 1) := by
    intro w ub
    have := Allocate_align_le w (36 * ub + 1)
    omega
  refine ⟨h1, ?_, ?_⟩
  · intro env s indices count_u count_v p t hS hp ht
    obtain ⟨e, hle⟩ := Submit_opening_offsets env s indices count_u count_v p t hp ht
    rw [hS] at hle
    have := h1 env.size_t_bits
      (Submit_opening env s indices count_u count_v).2.index_upper_bound.toNat
    exact ⟨e, by omega⟩
  · refine ⟨by decide, by decide, by decide, by decide, by decide, by decide⟩

/-! ## Bezier sub-patches: shared edges of the tessellated grids -/

theorem _BezierPatchHighQuality_vertex_pos (m : Math3D) (tess_u tess_v : Int)
    (patch : BezierPatch) (origVertType : VertType) (tile_u tile_v : Nat) :
    (_BezierPatchHighQuality_vertex m tess_u tess_v patch origVertType tile_u tile_v).pos =
      Bernstein3D_Vec3f
        (Bernstein3D_Vec3f (patch.points 0).pos (patch.points 1).pos (patch.points 2).pos
          (patch.points 3).pos ((tile_u : ℚ) / (tess_u : ℚ)))
        (Bernstein3D_Vec3f (patch.points 4).pos (patch.points 5).pos (patch.points 6).pos
          (patch.points 7).pos ((tile_u : ℚ) / (tess_u : ℚ)))
        (Bernstein3D_Vec3f (patch.points 8).pos (patch.points 9).pos (patch.points 10).pos
          (patch.points 11).pos ((tile_u : ℚ) / (tess_u : ℚ)))
        (Bernstein3D_Vec3f (patch.points 12).pos (patch.points 13).pos (patch.points 14).pos
          (patch.points 15).pos ((tile_u : ℚ) / (tess_u : ℚ)))
        ((tile_v : ℚ) / (tess_v : ℚ)) := rfl

theorem Bernstein3D_Vec3f_ends (p0 p1 p2 p3 : Vec3f) :
    Bernstein3D_Vec3f p0 p1 p2 p3 0 = p0 ∧ Bernstein3D_Vec3f p0 p1 p2 p3 1 = p3 := by
  simp [Bernstein3D_Vec3f]

theorem toNat_div_self (t : Int) (h : 1 ≤ t) : ((t.toNat : Nat) : ℚ) / (t : ℚ) = 1 := by
  have e : ((t.toNat : Nat) : Int) = t := Int.toNat_of_nonneg (by omega)
  have e2 : ((t.toNat : Nat) : ℚ) = (t : ℚ) := by exact_mod_cast e
  have h0 : (t : ℚ) ≠ 0 := by
    have : (0 : ℚ) < (t : ℚ) := by exact_mod_cast (show (0 : Int) < t by omega)
    exact ne_of_gt this
  rw [e2, div_self h0]

theorem _BezierPatchHighQuality_edges (m : Math3D) (tess_u tess_v : Int)
    (patch : BezierPatch) (origVertType : VertType) (hu : 1 ≤ tess_u) (hv : 1 ≤ tess_v)
    (tile_u tile_v : Nat) :
    (_BezierPatchHighQuality_vertex m tess_u tess_v patch origVertType 0 tile_v).pos =
      Bernstein3D_Vec3f (patch.points 0).pos (patch.points 4).pos (patch.points 8).pos
        (patch.points 12).pos ((tile_v : ℚ) / (tess_v : ℚ)) ∧
    (_BezierPatchHighQuality_vertex m tess_u tess_v patch origVertType tess_u.toNat tile_v).pos =
      Bernstein3D_Vec3f (patch.points 3).pos (patch.points 7).pos (patch.points 11).pos
        (patch.points 15).pos ((tile_v : ℚ) / (tess_v : ℚ)) ∧
    (_BezierPatchHighQuality_vertex m tess_u tess_v patch origVertType tile_u 0).pos =
      Bernstein3D_Vec3f (patch.points 0).pos (patch.points 1).pos (patch.points 2).pos
        (patch.points 3).pos ((tile_u : ℚ) / (tess_u : ℚ)) ∧
    (_BezierPatchHighQuality_vertex m tess_u tess_v patch origVertType tile_u tess_v.toNat).pos =
      Bernstein3D_Vec3f (patch.points 12).pos (patch.points 13).pos (patch.points 14).pos
        (patch.points 15).pos ((tile_u : ℚ) / (tess_u : ℚ)) := by
  have h3 := Bernstein3D_Vec3f_ends
  refine ⟨?_, ?_, ?_, ?_⟩
  · rw [_BezierPatchHighQuality_vertex_pos]
    simp only [Nat.cast_zero, zero_div, (h3 _ _ _ _).1]
  · rw [_BezierPatchHighQuality_vertex_pos]
    simp only [toNat_div_self tess_u hu, (h3 _ _ _ _).2]
  · rw [_BezierPatchHighQuality_vertex_pos]
    simp only [Nat.cast_zero, zero_div, (h3 _ _ _ _).1]
  · rw [_BezierPatchHighQuality_vertex_pos]
    simp only [toNat_div_self tess_v hv, (h3 _ _ _ _).2]

theorem _BezierPatchHighQuality_get (m : Math3D) (st : TessState) (tess_u tess_v : Int)
    (patch : BezierPatch) (origVertType : VertType) (tile_u tile_v : Nat)
    (hu : tile_u < (tess_u + 1).toNat) (hv : tile_v < (tess_v + 1).toNat) :
    (_BezierPatchHighQuality m st tess_u tess_v patch origVertType).vertices[st.vertices.length +
        (tile_v * (tess_u + 1).toNat + tile_u)]? =
      some (st.dest + ((tile_v : Int) * (tess_u + 1) + (tile_u : Int)),
        _BezierPatchHighQuality_vertex m tess_u tess_v patch origVertType tile_u tile_v) := by
  simp only [_BezierPatchHighQuality]
  rw [writeGrid_get _ _ _ _ _ tile_u tile_v hu hv]

/-- C34 (counterexample): a control grid of 7 x 4 points (two sub-patches side by side) whose
point `idx` lies at `x = idx % 4`, tessellation factors 1 x 1 and room for 7 vertices.  The
downsampling loop of `SubmitBezier` halves the factors to 0 x 0, and in high quality
`_BezierPatchHighQuality` is run with these densities: each sub-patch writes the single grid
point `(0, 0)`, which is at once its vertex `(tess_u, tile_v)` and its vertex `(0, tile_v)`.
Its parameter is `0 / 0`; in the model the quotient is 0 and the point is control point 0 of
its own sub-patch (in `float` it is a NaN, equal to nothing).  So the vertex
`(tess_u, 0)` of the left sub-patch is not the vertex `(0, 0)` of the right one, and the corner
`(tess_u, 0)` of the left sub-patch is not its control point 3. -/
theorem BezierPatchHighQuality_gap_at_density_zero :
    SubmitBezier_downsample 2 1 1 (((7 : Int) - 1).tdiv 3) (((4 : Int) - 1).tdiv 3) 7 =
      some (0, 0) ∧
    TessellateBezierPatch_densities SplineQuality.HIGH_QUALITY 0 0 = (0, 0) ∧
    (_BezierPatchHighQuality_vertex ⟨unpackRGBA, fun _ => 0, fun v => v⟩ 0 0
        (SubmitBezier_patches flatGrid 7 (((7 : Int) - 1).tdiv 3) (((4 : Int) - 1).tdiv 3)
          GEPatchPrimType.GE_PATCHPRIM_TRIANGLES true false
          (fun _ => ⟨fun _ => flatGrid 0, 0, 0, 0, GEPatchPrimType.GE_PATCHPRIM_TRIANGLES,
            false, false⟩)
          (((0 : Nat) : Int) + ((0 : Nat) : Int) * ((7 : Int) - 1).tdiv 3))
        ⟨false, false, false⟩ (0 : Int).toNat 0).pos ≠
      (_BezierPatchHighQuality_vertex ⟨unpackRGBA, fun _ => 0, fun v => v⟩ 0 0
        (SubmitBezier_patches flatGrid 7 (((7 : Int) - 1).tdiv 3) (((4 : Int) - 1).tdiv 3)
          GEPatchPrimType.GE_PATCHPRIM_TRIANGLES true false
          (fun _ => ⟨fun _ => flatGrid 0, 0, 0, 0, GEPatchPrimType.GE_PATCHPRIM_TRIANGLES,
            false, false⟩)
          (((0 + 1 : Nat) : Int) + ((0 : Nat) : Int) * ((7 : Int) - 1).tdiv 3))
        ⟨false, false, false⟩ 0 0).pos ∧
    (_BezierPatchHighQuality_vertex ⟨unpackRGBA, fun _ => 0, fun v => v⟩ 0 0
        (SubmitBezier_patches flatGrid 7 (((7 : Int) - 1).tdiv 3) (((4 : Int) - 1).tdiv 3)
          GEPatchPrimType.GE_PATCHPRIM_TRIANGLES true false
          (fun _ => ⟨fun _ => flatGrid 0, 0, 0, 0, GEPatchPrimType.GE_PATCHPRIM_TRIANGLES,
            false, false⟩)
          (((0 : Nat) : Int) + ((0 : Nat) : Int) * ((7 : Int) - 1).tdiv 3))
        ⟨false, false, false⟩ (0 : Int).toNat 0).pos ≠
      ((SubmitBezier_patches flatGrid 7 (((7 : Int) - 1).tdiv 3) (((4 : Int) - 1).tdiv 3)
          GEPatchPrimType.GE_PATCHPRIM_TRIANGLES true false
          (fun _ => ⟨fun _ => flatGrid 0, 0, 0, 0, GEPatchPrimType.GE_PATCHPRIM_TRIANGLES,
            false, false⟩)
          (((0 : Nat) : Int) + ((0 : Nat) : Int) * ((7 : Int) - 1).tdiv 3)).points 3).pos := by
  have e0 := SubmitBezier_patches_apply flatGrid 7 (((7 : Int) - 1).tdiv 3)
    (((4 : Int) - 1).tdiv 3) GEPatchPrimType.GE_PATCHPRIM_TRIANGLES true false
    (fun _ => ⟨fun _ => flatGrid 0, 0, 0, 0, GEPatchPrimType.GE_PATCHPRIM_TRIANGLES,
      false, false⟩) 0 0 (by decide) (by decide)
  have e1 := SubmitBezier_patches_apply flatGrid 7 (((7 : Int) - 1).tdiv 3)
    (((4 : Int) - 1).tdiv 3) GEPatchPrimType.GE_PATCHPRIM_TRIANGLES true false
    (fun _ => ⟨fun _ => flatGrid 0, 0, 0, 0, GEPatchPrimType.GE_PATCHPRIM_TRIANGLES,
      false, false⟩) (0 + 1) 0 (by decide) (by decide)
  have h3 := Bernstein3D_Vec3f_ends
  refine ⟨by decide, rfl, ?_, ?_⟩
  · rw [e0, e1, _BezierPatchHighQuality_vertex_pos, _BezierPatchHighQuality_vertex_pos]
    simp only [Int.toNat_zero, Nat.cast_zero, Int.cast_zero, div_zero, (h3 _ _ _ _).1]
    intro h
    have hx := congrArg Vec3f.x h
    simp [SubmitBezier_idx, flatGrid] at hx
  · rw [e0, _BezierPatchHighQuality_vertex_pos]
    simp only [Int.toNat_zero, Nat.cast_zero, Int.cast_zero, div_zero, (h3 _ _ _ _).1]
    intro h
    have hx := congrArg Vec3f.x h
    simp [SubmitBezier_idx, flatGrid] at hx

/-- C34 (amended): with densities `tess_u, tess_v >= 1`, the grids `_BezierPatchHighQuality`
writes for the sub-patches built by `SubmitBezier` meet without gaps.  The record
written for grid point `(tile_u, tile_v)` is `_BezierPatchHighQuality_vertex`.  For horizontally
adjacent sub-patches the position at `(tess_u, tile_v)` of the left one equals the position at
`(0, tile_v)` of the right one, for every row; for vertically adjacent sub-patches the position
at `(tile_u, tess_v)` of the upper one equals the position at `(tile_u, 0)` of the lower one, for
every column; and the positions at the four corners `(0, 0)`, `(tess_u, 0)`, `(0, tess_v)`,
`(tess_u, tess_v)` of any sub-patch are those of its control points 0, 3, 12 and 15. -/
theorem BezierPatchHighQuality_watertight (m : Math3D) (points : Int → SimpleVertex)
    (count_u count_v tess_u tess_v : Int) (prim_type : GEPatchPrimType)
    (computeNormals patchFacing : Bool) (patches0 : Int → BezierPatch)
    (origVertType : VertType) (htu : 1 ≤ tess_u) (htv : 1 ≤ tess_v) :
    (∀ (st : TessState) (patch : BezierPatch) (tile_u tile_v : Nat),
      (tile_u : Int) ≤ tess_u → (tile_v : Int) ≤ tess_v →
      (_BezierPatchHighQuality m st tess_u tess_v patch origVertType).vertices[st.vertices.length +
          (tile_v * (tess_u + 1).toNat + tile_u)]? =
        some (st.dest + ((tile_v : Int) * (tess_u + 1) + (tile_u : Int)),
          _BezierPatchHighQuality_vertex m tess_u tess_v patch origVertType tile_u tile_v)) ∧
    (∀ patch_u patch_v tile_v : Nat, patch_u + 1 < ((count_u - 1).tdiv 3).toNat →
      patch_v < ((count_v - 1).tdiv 3).toNat →
      (_BezierPatchHighQuality_vertex m tess_u tess_v
          (SubmitBezier_patches points count_u ((count_u - 1).tdiv 3) ((count_v - 1).tdiv 3)
            prim_type computeNormals patchFacing patches0
            ((patch_u : Int) + (patch_v : Int) * (count_u - 1).tdiv 3))
          origVertType tess_u.toNat tile_v).pos =
        (_BezierPatchHighQuality_vertex m tess_u tess_v
          (SubmitBezier_patches points count_u ((count_u - 1).tdiv 3) ((count_v - 1).tdiv 3)
            prim_type computeNormals patchFacing patches0
            (((patch_u + 1 : Nat) : Int) + (patch_v : Int) * (count_u - 1).tdiv 3))
          origVertType 0 tile_v).pos) ∧
    (∀ patch_u patch_v tile_u : Nat, patch_u < ((count_u - 1).tdiv 3).toNat →
      patch_v + 1 < ((count_v - 1).tdiv 3).toNat →
      (_BezierPatchHighQuality_vertex m tess_u tess_v
          (SubmitBezier_patches points count_u ((count_u - 1).tdiv 3) ((count_v - 1).tdiv 3)
            prim_type computeNormals patchFacing patches0
            ((patch_u : Int) + (patch_v : Int) * (count_u - 1).tdiv 3))
          origVertType tile_u tess_v.toNat).pos =
        (_BezierPatchHighQuality_vertex m tess_u tess_v
          (SubmitBezier_patches points count_u ((count_u - 1).tdiv 3) ((count_v - 1).tdiv 3)
            prim_type computeNormals patchFacing patches0
            ((patch_u : Int) + ((patch_v + 1 : Nat) : Int) * (count_u - 1).tdiv 3))
          origVertType tile_u 0).pos) ∧
    (∀ patch : BezierPatch,
      (_BezierPatchHighQuality_vertex m tess_u tess_v patch origVertType 0 0).pos =
        (patch.points 0).pos ∧
      (_BezierPatchHighQuality_vertex m tess_u tess_v patch origVertType tess_u.toNat 0).pos =
        (patch.points 3).pos ∧
      (_BezierPatchHighQuality_vertex m tess_u tess_v patch origVertType 0 tess_v.toNat).pos =
        (patch.points 12).pos ∧
      (_BezierPatchHighQuality_vertex m tess_u tess_v patch origVertType tess_u.toNat
          tess_v.toNat).pos = (patch.points 15).pos) := by
  have h3 := Bernstein3D_Vec3f_ends
  have hidx_u : ∀ (patch_u patch_v r : Nat), r < 4 →
      SubmitBezier_idx count_u patch_u patch_v (4 * r + 3) =
        SubmitBezier_idx count_u (patch_u + 1) patch_v (4 * r) := by
    intro patch_u patch_v r _
    have a1 : (4 * r + 3) % 4 = 3 := by omega
    have a2 : (4 * r + 3) / 4 = r := by omega
    have a3 : 4 * r % 4 = 0 := by omega
    have a4 : 4 * r / 4 = r := by omega
    simp only [SubmitBezier_idx, a1, a2, a3, a4]
    push_cast
    ring
  have hidx_v : ∀ (patch_u patch_v c : Nat), c < 4 →
      SubmitBezier_idx count_u patch_u patch_v (12 + c) =
        SubmitBezier_idx count_u patch_u (patch_v + 1) c := by
    intro patch_u patch_v c hc
    have a1 : (12 + c) % 4 = c := by omega
    have a2 : (12 + c) / 4 = 3 := by omega
    have a3 : c % 4 = c := by omega
    have a4 : c / 4 = 0 := by omega
    simp only [SubmitBezier_idx, a1, a2, a3, a4]
    push_cast
    ring
  refine ⟨?_, ?_, ?_, ?_⟩
  · intro st patch tile_u tile_v h1 h2
    exact _BezierPatchHighQuality_get m st tess_u tess_v patch origVertType tile_u tile_v
      (by omega) (by omega)
  · intro patch_u patch_v tile_v hpu hpv
    rw [SubmitBezier_patches_apply points count_u _ _ prim_type computeNormals patchFacing
      patches0 patch_u patch_v (by omega) hpv,
      SubmitBezier_patches_apply points count_u _ _ prim_type computeNormals patchFacing
      patches0 (patch_u + 1) patch_v hpu hpv]
    rw [(_BezierPatchHighQuality_edges m tess_u tess_v _ origVertType htu htv 0 tile_v).2.1,
      (_BezierPatchHighQuality_edges m tess_u tess_v _ origVertType htu htv 0 tile_v).1]
    have e0 := hidx_u patch_u patch_v 0 (by decide)
    have e1 := hidx_u patch_u patch_v 1 (by decide)
    have e2 := hidx_u patch_u patch_v 2 (by decide)
    have e3 := hidx_u patch_u patch_v 3 (by decide)
    simp only [Nat.reduceMul, Nat.reduceAdd] at e0 e1 e2 e3
    simp only [e0, e1, e2, e3]
  · intro patch_u patch_v tile_u hpu hpv
    rw [SubmitBezier_patches_apply points count_u _ _ prim_type computeNormals patchFacing
      patches0 patch_u patch_v hpu (by omega),
      SubmitBezier_patches_apply points count_u _ _ prim_type computeNormals patchFacing
      patches0 patch_u (patch_v + 1) hpu hpv]
    rw [(_BezierPatchHighQuality_edges m tess_u tess_v _ origVertType htu htv tile_u 0).2.2.2,
      (_BezierPatchHighQuality_edges m tess_u tess_v _ origVertType htu htv tile_u 0).2.2.1]
    have e0 := hidx_v patch_u patch_v 0 (by decide)
    have e1 := hidx_v patch_u patch_v 1 (by decide)
    have e2 := hidx_v patch_u patch_v 2 (by decide)
    have e3 := hidx_v patch_u patch_v 3 (by decide)
    simp only [Nat.reduceAdd] at e0 e1 e2 e3
    simp only [e0, e1, e2, e3]
  · intro patch
    obtain ⟨a, b, _, _⟩ := _BezierPatchHighQuality_edges m tess_u tess_v patch origVertType
      htu htv 0 0
    obtain ⟨_, c, _, _⟩ := _BezierPatchHighQuality_edges m tess_u tess_v patch origVertType
      htu htv 0 tess_v.toNat
    refine ⟨?_, ?_, ?_, ?_⟩
    · rw [a]
      simp only [Nat.cast_zero, zero_div, (h3 _ _ _ _).1]
    · rw [b]
      simp only [Nat.cast_zero, zero_div, (h3 _ _ _ _).1]
    · rw [(_BezierPatchHighQuality_edges m tess_u tess_v patch origVertType htu htv 0
        tess_v.toNat).1]
      simp only [toNat_div_self tess_v htv, (h3 _ _ _ _).2]
    · rw [c]
      simp only [toNat_div_self tess_v htv, (h3 _ _ _ _).2]

theorem BezierPatchHighQuality_watertight_witness :
    ((1 : Int) ≤ 2 ∧ (1 : Int) ≤ 2) ∧
    (_BezierPatchHighQuality_vertex ⟨unpackRGBA, fun _ => 0, fun v => v⟩ 2 2
        (SubmitBezier_patches flatGrid 7 (((7 : Int) - 1).tdiv 3) (((4 : Int) - 1).tdiv 3)
          GEPatchPrimType.GE_PATCHPRIM_TRIANGLES true false
          (fun _ => ⟨fun _ => flatGrid 0, 0, 0, 0, GEPatchPrimType.GE_PATCHPRIM_TRIANGLES,
            false, false⟩)
          (((0 : Nat) : Int) + ((0 : Nat) : Int) * ((7 : Int) - 1).tdiv 3))
        ⟨false, false, false⟩ (2 : Int).toNat 1).pos =
      (_BezierPatchHighQuality_vertex ⟨unpackRGBA, fun _ => 0, fun v => v⟩ 2 2
        (SubmitBezier_patches flatGrid 7 (((7 : Int) - 1).tdiv 3) (((4 : Int) - 1).tdiv 3)
          GEPatchPrimType.GE_PATCHPRIM_TRIANGLES true false
          (fun _ => ⟨fun _ => flatGrid 0, 0, 0, 0, GEPatchPrimType.GE_PATCHPRIM_TRIANGLES,
            false, false⟩)
          (((0 + 1 : Nat) : Int) + ((0 : Nat) : Int) * ((7 : Int) - 1).tdiv 3))
        ⟨false, false, false⟩ 0 1).pos :=
  ⟨⟨by decide, by decide⟩,
    (BezierPatchHighQuality_watertight ⟨unpackRGBA, fun _ => 0, fun v => v⟩ flatGrid 7 4 2 2
      GEPatchPrimType.GE_PATCHPRIM_TRIANGLES true false
      (fun _ => ⟨fun _ => flatGrid 0, 0, 0, 0, GEPatchPrimType.GE_PATCHPRIM_TRIANGLES,
        false, false⟩)
      ⟨false, false, false⟩ (by decide) (by decide)).2.1 0 0 1 (by decide) (by decide)⟩

/-! ## Spline normals of a flat patch at an open end -/

/-- C31 (failing input): on the flat grid `P(i, j) = (i, j, 1)`, all of whose control positions
lie in the plane `z = 1` with normal `n = (0, 0, 1)`, with the u axis open at the start
(`type_u = 1`, `type_v = 0`, densities 1 x 1, normals in the vertex format), the accumulators of
`SplinePatchFullQuality` at grid point (0, 0) are `du = (0, -3, -3)` and `dv = (0, 1, 0)`:
`Dot n du = -3`, `Cross(du, dv) = (3, 0, 0)` is not a multiple of `n`, and the normal written is
`Normalized (3, 0, 0)`.  The full sums over the window are `(3, 0, 0)` and `(0, 1, 0)`, both
orthogonal to `n`, with cross product `(0, 0, 3)`.  On the same grid with both axes closed the
accumulators are `du = (1, 0, 0)` and `dv = (0, 1, 0)`, orthogonal to `n`. -/
theorem SplinePatchFullQuality_flat_patch_normal_off_plane (m : Math3D) :
    (∀ idx : Int, Dot ⟨0, 0, 1⟩ (raisedGrid idx).pos = 1) ∧
    ((SplinePatchFullQuality_accum m
        ⟨1, 1, 1, 0, 4, 4, raisedGrid, true, GEPatchPrimType.GE_PATCHPRIM_TRIANGLES, false⟩
        ⟨true, false, false⟩
        (spline_knot 1 1 (fun _ => 0) newKnotDivs).1 (spline_knot 1 0 (fun _ => 0) newKnotDivs).1
        (spline_knot 1 1 (fun _ => 0) newKnotDivs).2 (spline_knot 1 0 (fun _ => 0) newKnotDivs).2
        1 1 0 0).du = ⟨0, -3, -3⟩ ∧
      (SplinePatchFullQuality_accum m
        ⟨1, 1, 1, 0, 4, 4, raisedGrid, true, GEPatchPrimType.GE_PATCHPRIM_TRIANGLES, false⟩
        ⟨true, false, false⟩
        (spline_knot 1 1 (fun _ => 0) newKnotDivs).1 (spline_knot 1 0 (fun _ => 0) newKnotDivs).1
        (spline_knot 1 1 (fun _ => 0) newKnotDivs).2 (spline_knot 1 0 (fun _ => 0) newKnotDivs).2
        1 1 0 0).dv = ⟨0, 1, 0⟩) ∧
    (Dot ⟨0, 0, 1⟩ ⟨0, -3, -3⟩ = -3 ∧ Dot ⟨0, 0, 1⟩ ⟨0, 1, 0⟩ = 0 ∧
      Cross ⟨0, -3, -3⟩ ⟨0, 1, 0⟩ = ⟨3, 0, 0⟩ ∧
      ∀ c : ℚ, Cross ⟨0, -3, -3⟩ ⟨0, 1, 0⟩ ≠ (⟨0, 0, 1⟩ : Vec3f) * c) ∧
    (SplinePatchFullQuality_vertex m
        ⟨1, 1, 1, 0, 4, 4, raisedGrid, true, GEPatchPrimType.GE_PATCHPRIM_TRIANGLES, false⟩
        ⟨true, false, false⟩
        (spline_knot 1 1 (fun _ => 0) newKnotDivs).1 (spline_knot 1 0 (fun _ => 0) newKnotDivs).1
        (spline_knot 1 1 (fun _ => 0) newKnotDivs).2 (spline_knot 1 0 (fun _ => 0) newKnotDivs).2
        1 1 0 0).nrm = m.Normalized ⟨3, 0, 0⟩ ∧
    (SplineWindowSum
        (fun ii jj => (SplinePatchFullQuality_basis 4 1 (fun _ => 0) 1 0).derivs.getD ii 0 *
          (SplinePatchFullQuality_basis 4 0 (fun _ => 0) 1 0).splineVal.getD jj 0)
        (fun ii jj => (raisedGrid (4 * (0 + (jj : Int)) + (0 + (ii : Int)))).pos) = ⟨3, 0, 0⟩ ∧
      SplineWindowSum
        (fun ii jj => (SplinePatchFullQuality_basis 4 1 (fun _ => 0) 1 0).splineVal.getD ii 0 *
          (SplinePatchFullQuality_basis 4 0 (fun _ => 0) 1 0).derivs.getD jj 0)
        (fun ii jj => (raisedGrid (4 * (0 + (jj : Int)) + (0 + (ii : Int)))).pos) = ⟨0, 1, 0⟩ ∧
      Dot ⟨0, 0, 1⟩ ⟨3, 0, 0⟩ = 0 ∧ Cross ⟨3, 0, 0⟩ ⟨0, 1, 0⟩ = (⟨0, 0, 1⟩ : Vec3f) * (3 : ℚ)) ∧
    ((SplinePatchFullQuality_accum m
        ⟨1, 1, 0, 0, 4, 4, raisedGrid, true, GEPatchPrimType.GE_PATCHPRIM_TRIANGLES, false⟩
        ⟨true, false, false⟩
        (spline_knot 1 0 (fun _ => 0) newKnotDivs).1 (spline_knot 1 0 (fun _ => 0) newKnotDivs).1
        (spline_knot 1 0 (fun _ => 0) newKnotDivs).2 (spline_knot 1 0 (fun _ => 0) newKnotDivs).2
        1 1 0 0).du = ⟨1, 0, 0⟩ ∧
      (SplinePatchFullQuality_accum m
        ⟨1, 1, 0, 0, 4, 4, raisedGrid, true, GEPatchPrimType.GE_PATCHPRIM_TRIANGLES, false⟩
        ⟨true, false, false⟩
        (spline_knot 1 0 (fun _ => 0) newKnotDivs).1 (spline_knot 1 0 (fun _ => 0) newKnotDivs).1
        (spline_knot 1 0 (fun _ => 0) newKnotDivs).2 (spline_knot 1 0 (fun _ => 0) newKnotDivs).2
        1 1 0 0).dv = ⟨0, 1, 0⟩ ∧
      Dot ⟨0, 0, 1⟩ ⟨1, 0, 0⟩ = 0) := by
  obtain ⟨bu, bv⟩ := SplinePatchFullQuality_basis_open_at_zero
  have hf : Rat.floor 0 = 0 := by rfl
  have hr : List.range 4 = [0, 1, 2, 3] := rfl
  have hsu := spline_n_4_open_at_zero (fun _ => 0)
  have hD : (spline_knot 1 0 (fun _ => (0 : ℚ)) newKnotDivs).2 0 = {} := by
    rw [(spline_knot_closed 1 (fun _ => 0) newKnotDivs).2]
    rfl
  have hsv := spline_n_4_closed_at_zero (fun _ => 0)
  rw [← hD] at hsv
  have hdu : (SplinePatchFullQuality_accum m
        ⟨1, 1, 1, 0, 4, 4, raisedGrid, true, GEPatchPrimType.GE_PATCHPRIM_TRIANGLES, false⟩
        ⟨true, false, false⟩
        (spline_knot 1 1 (fun _ => 0) newKnotDivs).1 (spline_knot 1 0 (fun _ => 0) newKnotDivs).1
        (spline_knot 1 1 (fun _ => 0) newKnotDivs).2 (spline_knot 1 0 (fun _ => 0) newKnotDivs).2
        1 1 0 0).du = ⟨0, -3, -3⟩ := by
    simp only [SplinePatchFullQuality_accum, SplinePatchFullQuality_u,
      SplinePatchFullQuality_iu]
    simp [hf, hsu, hsv, hr, AccumulateWeighted, raisedGrid, Vec3f_add_def, Vec3f_scale_def,
      Vec3f.zero]
    norm_num
  have hdv : (SplinePatchFullQuality_accum m
        ⟨1, 1, 1, 0, 4, 4, raisedGrid, true, GEPatchPrimType.GE_PATCHPRIM_TRIANGLES, false⟩
        ⟨true, false, false⟩
        (spline_knot 1 1 (fun _ => 0) newKnotDivs).1 (spline_knot 1 0 (fun _ => 0) newKnotDivs).1
        (spline_knot 1 1 (fun _ => 0) newKnotDivs).2 (spline_knot 1 0 (fun _ => 0) newKnotDivs).2
        1 1 0 0).dv = ⟨0, 1, 0⟩ := by
    simp only [SplinePatchFullQuality_accum, SplinePatchFullQuality_u,
      SplinePatchFullQuality_iu]
    simp [hf, hsu, hsv, hr, AccumulateWeighted, raisedGrid, Vec3f_add_def, Vec3f_scale_def,
      Vec3f.zero]
    norm_num
  have hcross : Cross ⟨0, -3, -3⟩ ⟨0, 1, 0⟩ = ⟨3, 0, 0⟩ := by simp [Cross]
  refine ⟨?_, ⟨hdu, hdv⟩, ⟨?_, ?_, hcross, ?_⟩, ?_, ⟨?_, ?_, ?_, ?_⟩, ⟨?_, ?_, ?_⟩⟩
  · intro idx
    simp [Dot, raisedGrid]
  · simp [Dot]
  · simp [Dot]
  · intro c h
    rw [hcross] at h
    simp only [Vec3f_scale_def, Vec3f.mk.injEq] at h
    norm_num at h
  · rw [SplinePatchFullQuality_vertex_eq, hdu, hdv, hcross]
    rfl
  · rw [bu, bv]
    simp [SplineWindowSum, hr, raisedGrid, Vec3f_add_def, Vec3f_scale_def, Vec3f.zero]
    norm_num
  · rw [bu, bv]
    simp [SplineWindowSum, hr, raisedGrid, Vec3f_add_def, Vec3f_scale_def, Vec3f.zero]
    norm_num
  · simp [Dot]
  · simp [Cross, Vec3f_scale_def]
  · simp only [SplinePatchFullQuality_accum, SplinePatchFullQuality_u,
      SplinePatchFullQuality_iu]
    simp [hf, hsv, hr, AccumulateWeighted, raisedGrid, Vec3f_add_def, Vec3f_scale_def,
      Vec3f.zero]
    norm_num
  · simp only [SplinePatchFullQuality_accum, SplinePatchFullQuality_u,
      SplinePatchFullQuality_iu]
    simp [hf, hsv, hr, AccumulateWeighted, raisedGrid, Vec3f_add_def, Vec3f_scale_def,
      Vec3f.zero]
    norm_num
  · simp [Dot]


/-! ## Index ranges -/

theorem foldl_appends {σ β α : Type} (proj : σ → List α) (Q : α → Prop) (f : σ → β → σ)
    (l : List β)
    (h : ∀ s b, b ∈ l → ∃ new, proj (f s b) = proj s ++ new ∧ ∀ x ∈ new, Q x) (s : σ) :
    ∃ new, proj (l.foldl f s) = proj s ++ new ∧ ∀ x ∈ new, Q x := by
  induction l generalizing s with
  | nil => exact ⟨[], by simp, by simp⟩
  | cons a l ih =>
    obtain ⟨n1, e1, q1⟩ := h s a (List.mem_cons_self _ _)
    obtain ⟨n2, e2, q2⟩ := ih (fun s b hb => h s b (List.mem_cons_of_mem _ hb)) (f s a)
    refine ⟨n1 ++ n2, ?_, ?_⟩
    · rw [List.foldl_cons, e2, e1, List.append_assoc]
    · intro x hx
      rcases List.mem_append.1 hx with hx | hx
      · exact q1 x hx
      · exact q2 x hx

theorem CopyQuadIndex_append (indices : List Int) (type : GEPatchPrimType)
    (idx0 idx1 idx2 idx3 : Int) :
    CopyQuadIndex indices type idx0 idx1 idx2 idx3 =
      indices ++ CopyQuadIndex [] type idx0 idx1 idx2 idx3 := by
  unfold CopyQuadIndex
  split <;> simp

theorem CopyQuadIndex_mem (type : GEPatchPrimType) (idx0 idx1 idx2 idx3 x : Int)
    (h : x ∈ CopyQuadIndex [] type idx0 idx1 idx2 idx3) :
    x = idx0 % 65536 ∨ x = idx1 % 65536 ∨ x = idx2 % 65536 ∨ x = idx3 % 65536 := by
  unfold CopyQuadIndex at h
  split at h <;> simp at h <;> tauto

theorem tessellateGrid_indices (prim_type : GEPatchPrimType) (total div_u div_v : Int)
    (ic : List Int × Int) :
    ∃ new, (tessellateGrid prim_type total div_u div_v ic).1 = ic.1 ++ new ∧
      ∀ x ∈ new, ∃ y : Int, x = y % 65536 ∧ total ≤ y ∧
        y < total + (div_u + 1) * (div_v + 1) := by
  unfold tessellateGrid
  refine foldl_appends (fun (ic : List Int × Int) => ic.1)
    (fun x => ∃ y : Int, x = y % 65536 ∧ total ≤ y ∧ y < total + (div_u + 1) * (div_v + 1))
    _ _ (fun s tile_v hv => ?_) ic
  refine foldl_appends (fun (ic : List Int × Int) => ic.1)
    (fun x => ∃ y : Int, x = y % 65536 ∧ total ≤ y ∧ y < total + (div_u + 1) * (div_v + 1))
    _ _ (fun s2 tile_u hu => ?_) s
  have hv1 : tile_v < div_v.toNat := List.mem_range.mp hv
  have hu1 : tile_u < div_u.toNat := List.mem_range.mp hu
  have hv2 : (tile_v : Int) + 1 ≤ div_v := by omega
  have hu2 : (tile_u : Int) + 1 ≤ div_u := by omega
  have hW : (0 : Int) ≤ div_u + 1 := by omega
  have p0 : (0 : Int) ≤ (tile_v : Int) * (div_u + 1) := Int.mul_nonneg (by omega) hW
  have p1 : ((tile_v : Int) + 1) * (div_u + 1) ≤ div_v * (div_u + 1) :=
    Int.mul_le_mul_of_nonneg_right hv2 hW
  have p2 : ((tile_v : Int) + 1) * (div_u + 1) = (tile_v : Int) * (div_u + 1) + (div_u + 1) := by
    ring
  have p3 : (div_u + 1) * (div_v + 1) = div_v * (div_u + 1) + (div_u + 1) := by ring
  refine ⟨CopyQuadIndex [] prim_type
    (total + (tile_v : Int) * (div_u + 1) + (tile_u : Int))
    (total + (tile_v : Int) * (div_u + 1) + (tile_u : Int) + 1)
    (total + ((tile_v : Int) + 1) * (div_u + 1) + (tile_u : Int))
    (total + ((tile_v : Int) + 1) * (div_u + 1) + (tile_u : Int) + 1), ?_, ?_⟩
  · simp only [tessellateCell]
    exact CopyQuadIndex_append _ _ _ _ _ _
  · intro x hx
    rcases CopyQuadIndex_mem _ _ _ _ _ x hx with h | h | h | h
    · exact ⟨_, h, by omega, by omega⟩
    · exact ⟨_, h, by omega, by omega⟩
    · exact ⟨_, h, by omega, by omega⟩
    · exact ⟨_, h, by omega, by omega⟩

theorem tessellateGrid_indices_zero (prim_type : GEPatchPrimType) (div_u div_v : Int)
    (ic : List Int × Int) :
    ∃ new, (tessellateGrid prim_type 0 div_u div_v ic).1 = ic.1 ++ new ∧
      ∀ x ∈ new, 0 ≤ x ∧ x < (div_u + 1) * (div_v + 1) := by
  obtain ⟨new, e, h⟩ := tessellateGrid_indices prim_type 0 div_u div_v ic
  refine ⟨new, e, fun x hx => ?_⟩
  obtain ⟨y, rfl, h0, h1⟩ := h x hx
  constructor <;> omega

theorem tessellateGrid_indices_fit (prim_type : GEPatchPrimType) (total div_u div_v : Int)
    (ic : List Int × Int) (h0 : 0 ≤ total) (hfit : total + (div_u + 1) * (div_v + 1) ≤ 65536) :
    ∃ new, (tessellateGrid prim_type total div_u div_v ic).1 = ic.1 ++ new ∧
      ∀ x ∈ new, total ≤ x ∧ x < total + (div_u + 1) * (div_v + 1) := by
  obtain ⟨new, e, h⟩ := tessellateGrid_indices prim_type total div_u div_v ic
  refine ⟨new, e, fun x hx => ?_⟩
  obtain ⟨y, rfl, h1, h2⟩ := h x hx
  constructor <;> omega

theorem _BezierPatchLowQuality_tile_out (m : Math3D) (patch : BezierPatch)
    (origVertType : VertType) (tile_v : Nat) (st : TessState) (tile_u : Nat) :
    (_BezierPatchLowQuality_tile m patch origVertType tile_v st tile_u).vertices.map Prod.fst =
      st.vertices.map Prod.fst ++ [st.dest, st.dest + 1, st.dest + 2, st.dest + 3] ∧
    (_BezierPatchLowQuality_tile m patch origVertType tile_v st tile_u).dest = st.dest + 4 ∧
    (_BezierPatchLowQuality_tile m patch origVertType tile_v st tile_u).indices =
      st.indices ++ CopyQuadIndex [] patch.primType
        (patch.index * 3 * 3 * 4 + ((tile_u : Int) + (tile_v : Int) * 3) * 4 + 0)
        (patch.index * 3 * 3 * 4 + ((tile_u : Int) + (tile_v : Int) * 3) * 4 + 1)
        (patch.index * 3 * 3 * 4 + ((tile_u : Int) + (tile_v : Int) * 3) * 4 + 2)
        (patch.index * 3 * 3 * 4 + ((tile_u : Int) + (tile_v : Int) * 3) * 4 + 3) := by
  refine ⟨?_, rfl, ?_⟩
  · simp [_BezierPatchLowQuality_tile, CopyQuad]
  · simp only [_BezierPatchLowQuality_tile, CopyQuad]
    exact CopyQuadIndex_append _ _ _ _ _ _

theorem _BezierPatchLowQuality_quads (m : Math3D) (st : TessState) (tess_u tess_v : Int)
    (patch : BezierPatch) (origVertType : VertType) :
    (_BezierPatchLowQuality m st tess_u tess_v patch origVertType).vertices.map Prod.fst =
      st.vertices.map Prod.fst ++ (List.range 9).flatMap (fun (q : Nat) =>
        [st.dest + 4 * (q : Int), st.dest + 4 * (q : Int) + 1, st.dest + 4 * (q : Int) + 2,
          st.dest + 4 * (q : Int) + 3]) ∧
    (_BezierPatchLowQuality m st tess_u tess_v patch origVertType).indices =
      st.indices ++ (List.range 9).flatMap (fun (q : Nat) =>
        CopyQuadIndex [] patch.primType (patch.index * 36 + 4 * (q : Int))
          (patch.index * 36 + 4 * (q : Int) + 1) (patch.index * 36 + 4 * (q : Int) + 2)
          (patch.index * 36 + 4 * (q : Int) + 3)) := by
  have hr3 : List.range 3 = [0, 1, 2] := rfl
  have hr9 : List.range 9 = [0, 1, 2, 3, 4, 5, 6, 7, 8] := rfl
  simp only [_BezierPatchLowQuality, hr3, hr9, List.foldl_cons, List.foldl_nil,
    List.flatMap_cons, List.flatMap_nil]
  constructor
  · simp only [(_BezierPatchLowQuality_tile_out _ _ _ _ _ _).1,
      (_BezierPatchLowQuality_tile_out _ _ _ _ _ _).2.1]
    simp only [List.append_assoc, List.cons_append, List.nil_append, List.append_nil]
    congr 1
    simp only [List.cons.injEq, and_true]
    repeat' apply And.intro
    all_goals omega
  · simp only [(_BezierPatchLowQuality_tile_out _ _ _ _ _ _).2.2]
    simp only [List.append_assoc, List.cons_append, List.nil_append, List.append_nil]
    have e : ∀ (tu tv : Nat) (j : Int),
        patch.index * 3 * 3 * 4 + ((tu : Int) + (tv : Int) * 3) * 4 + j =
          patch.index * 36 + 4 * ((tu + 3 * tv : Nat) : Int) + j := by
      intro tu tv j
      push_cast
      ring
    simp only [e, Nat.reduceMul, Nat.reduceAdd, add_zero]

theorem CopyQuadIndex_fit (type : GEPatchPrimType) (d : Int) (h0 : 0 ≤ d)
    (h1 : d + 3 < 65536) :
    CopyQuadIndex [] type d (d + 1) (d + 2) (d + 3) =
      if type = GEPatchPrimType.GE_PATCHPRIM_LINES then [d, d + 2, d + 1, d + 3, d + 1, d + 2]
      else [d, d + 2, d + 1, d + 1, d + 2, d + 3] := by
  have e0 : d % 65536 = d := Int.emod_eq_of_lt h0 (by omega)
  have e1 : (d + 1) % 65536 = d + 1 := Int.emod_eq_of_lt (by omega) (by omega)
  have e2 : (d + 2) % 65536 = d + 2 := Int.emod_eq_of_lt (by omega) (by omega)
  have e3 : (d + 3) % 65536 = d + 3 := Int.emod_eq_of_lt (by omega) (by omega)
  simp only [CopyQuadIndex, List.nil_append, e0, e1, e2, e3]

theorem SubmitBezier_loop_dest (m : Math3D) (q : SplineQuality) (tess_u tess_v : Int)
    (patches : Int → BezierPatch) (origVertType : VertType) (k : Nat) :
    ((List.range k).foldl (fun (st : TessState) (patch_idx : Nat) =>
        TessellateBezierPatch m q st tess_u tess_v (patches (patch_idx : Int)) origVertType)
      TessState.init).dest =
      if q = SplineQuality.LOW_QUALITY then 36 * (k : Int)
      else (k : Int) * (((TessellateBezierPatch_densities q tess_u tess_v).1 + 1) *
        ((TessellateBezierPatch_densities q tess_u tess_v).2 + 1)) := by
  induction k with
  | zero =>
    simp only [List.range_zero, List.foldl_nil, Nat.cast_zero, mul_zero, zero_mul, ite_self]
    rfl
  | succ k ih =>
    rw [List.range_succ, List.foldl_append, List.foldl_cons, List.foldl_nil]
    by_cases hq : q = SplineQuality.LOW_QUALITY
    · subst hq
      rw [if_pos rfl] at ih ⊢
      show (_BezierPatchLowQuality m _ tess_u tess_v _ origVertType).dest = _
      rw [(_BezierPatchLowQuality_counts m _ tess_u tess_v _ origVertType).1, ih]
      push_cast
      ring
    · rw [if_neg hq] at ih ⊢
      rw [TessellateBezierPatch_eq_high m q hq, (_BezierPatchHighQuality_counts m _ _ _ _ _).1,
        ih]
      push_cast
      ring

theorem SubmitBezier_patches_index (points : Int → SimpleVertex)
    (count_u num_patches_u num_patches_v : Int) (prim_type : GEPatchPrimType)
    (computeNormals patchFacing : Bool) (patches : Int → BezierPatch) (k : Nat)
    (hu : 0 < num_patches_u) (hk : (k : Int) < num_patches_u * num_patches_v) :
    (SubmitBezier_patches points count_u num_patches_u num_patches_v prim_type computeNormals
        patchFacing patches (k : Int)).index = (k : Int) := by
  have eu : ((num_patches_u.toNat : Nat) : Int) = num_patches_u := Int.toNat_of_nonneg (by omega)
  have hpos : 0 < num_patches_u.toNat := by omega
  have hv0 : 0 < num_patches_v := by
    by_contra hcon
    have : num_patches_u * num_patches_v ≤ 0 :=
      Int.mul_nonpos_of_nonneg_of_nonpos (by omega) (by omega)
    omega
  have ev : ((num_patches_v.toNat : Nat) : Int) = num_patches_v := Int.toNat_of_nonneg (by omega)
  have hk2 : k < num_patches_u.toNat * num_patches_v.toNat := by
    have : (k : Int) < ((num_patches_u.toNat * num_patches_v.toNat : Nat) : Int) := by
      push_cast
      rw [eu, ev]
      exact hk
    exact_mod_cast this
  have h1 : k % num_patches_u.toNat < num_patches_u.toNat := Nat.mod_lt _ hpos
  have h2 : k / num_patches_u.toNat < num_patches_v.toNat :=
    (Nat.div_lt_iff_lt_mul hpos).2 (by rw [Nat.mul_comm]; exact hk2)
  have hdecomp : (k : Int) = ((k % num_patches_u.toNat : Nat) : Int) +
      ((k / num_patches_u.toNat : Nat) : Int) * num_patches_u := by
    have := Nat.mod_add_div k num_patches_u.toNat
    have h3 : ((k % num_patches_u.toNat + num_patches_u.toNat * (k / num_patches_u.toNat) : Nat)
        : Int) = (k : Int) := by rw [this]
    push_cast at h3
    rw [eu] at h3
    push_cast
    rw [eu]
    linarith
  have happ := SubmitBezier_patches_apply points count_u num_patches_u num_patches_v prim_type
    computeNormals patchFacing patches (k % num_patches_u.toNat) (k / num_patches_u.toNat) h1 h2
  rw [← hdecomp] at happ
  rw [happ]
  show ((k / num_patches_u.toNat : Nat) : Int) * num_patches_u +
    ((k % num_patches_u.toNat : Nat) : Int) = (k : Int)
  rw [hdecomp]
  push_cast
  ring

theorem tessellateGrid_indices_patch (prim_type : GEPatchPrimType) (k div_u div_v : Int)
    (ic : List Int × Int) (hk : 0 ≤ k) (hu : 0 ≤ div_u) (hv : 0 ≤ div_v)
    (hfit : (k + 1) * ((div_u + 1) * (div_v + 1)) ≤ 65536) :
    ∃ new, (tessellateGrid prim_type (k * (div_u + 1) * (div_v + 1)) div_u div_v ic).1 =
        ic.1 ++ new ∧
      ∀ x ∈ new, k * ((div_u + 1) * (div_v + 1)) ≤ x ∧
        x < (k + 1) * ((div_u + 1) * (div_v + 1)) := by
  have h0 : 0 ≤ k * (div_u + 1) * (div_v + 1) :=
    Int.mul_nonneg (Int.mul_nonneg hk (by omega)) (by omega)
  have e2 : (k + 1) * ((div_u + 1) * (div_v + 1)) =
      k * (div_u + 1) * (div_v + 1) + (div_u + 1) * (div_v + 1) := by ring
  have e1 : k * ((div_u + 1) * (div_v + 1)) = k * (div_u + 1) * (div_v + 1) := by ring
  obtain ⟨new, e, h⟩ := tessellateGrid_indices_fit prim_type (k * (div_u + 1) * (div_v + 1))
    div_u div_v ic h0 (by rw [← e2]; exact hfit)
  refine ⟨new, e, fun x hx => ?_⟩
  rw [e1, e2]
  exact h x hx

/-- C32 (as stated, refuted): the index buffer holds 16-bit values, so an index of 65536 or more
is stored modulo 65536 and no longer lies in the range of its sub-patch.
`_BezierPatchLowQuality` on the sub-patch with index 1820 (the write pointer at record
`36 * 1820 = 65520`) writes the records 65520..65555 and stores 19 as its last index, where
the last record copied is 65555; `SubmitBezier` builds a sub-patch with that index for a
130 x 130 control grid.  `_BezierPatchHighQuality`, taken alone, on the sub-patch with index
16384 at densities 1 x 1 (`V = 4`, write pointer at record 65536) stores the indices
0, 2, 1, 1, 2, 3, none of them in `[65536, 65540)`. -/
theorem BezierPatch_index_wraps :
    ((_BezierPatchLowQuality ⟨unpackRGBA, fun _ => 0, fun v => v⟩ ⟨65520, [], [], 0⟩ 1 1
        ⟨fun _ => flatGrid 0, 0, 0, 1820, GEPatchPrimType.GE_PATCHPRIM_TRIANGLES, false, false⟩
        ⟨false, false, false⟩).indices.getLast? = some 19 ∧
      ((_BezierPatchLowQuality ⟨unpackRGBA, fun _ => 0, fun v => v⟩ ⟨65520, [], [], 0⟩ 1 1
        ⟨fun _ => flatGrid 0, 0, 0, 1820, GEPatchPrimType.GE_PATCHPRIM_TRIANGLES, false, false⟩
        ⟨false, false, false⟩).vertices.map Prod.fst).getLast? = some 65555 ∧
      ¬ ((36 : Int) * 1820 ≤ 19)) ∧
    (SubmitBezier_patches flatGrid 130 (((130 : Int) - 1).tdiv 3) (((130 : Int) - 1).tdiv 3)
        GEPatchPrimType.GE_PATCHPRIM_TRIANGLES false false
        (fun _ => ⟨fun _ => flatGrid 0, 0, 0, 0, GEPatchPrimType.GE_PATCHPRIM_TRIANGLES,
          false, false⟩) ((1820 : Nat) : Int)).index = 1820 ∧
    ((_BezierPatchHighQuality ⟨unpackRGBA, fun _ => 0, fun v => v⟩ ⟨65536, [], [], 0⟩ 1 1
        ⟨fun _ => flatGrid 0, 0, 0, 16384, GEPatchPrimType.GE_PATCHPRIM_TRIANGLES, false, false⟩
        ⟨false, false, false⟩).indices = [0, 2, 1, 1, 2, 3] ∧
      (_BezierPatchHighQuality ⟨unpackRGBA, fun _ => 0, fun v => v⟩ ⟨65536, [], [], 0⟩ 1 1
        ⟨fun _ => flatGrid 0, 0, 0, 16384, GEPatchPrimType.GE_PATCHPRIM_TRIANGLES, false, false⟩
        ⟨false, false, false⟩).vertices.map Prod.fst = [65536, 65537, 65538, 65539] ∧
      (16384 : Int) * ((1 + 1) * (1 + 1)) = 65536) := by
  refine ⟨⟨?_, ?_, by decide⟩, ?_, ?_, ?_, by decide⟩
  · rw [(_BezierPatchLowQuality_quads _ _ _ _ _ _).2]
    decide
  · rw [(_BezierPatchLowQuality_quads _ _ _ _ _ _).1]
    decide
  · have h := SubmitBezier_patches_index flatGrid 130 (((130 : Int) - 1).tdiv 3)
      (((130 : Int) - 1).tdiv 3) GEPatchPrimType.GE_PATCHPRIM_TRIANGLES false false
      (fun _ => ⟨fun _ => flatGrid 0, 0, 0, 0, GEPatchPrimType.GE_PATCHPRIM_TRIANGLES,
        false, false⟩) 1820 (by decide) (by decide)
    rw [h]
    rfl
  · have hr1 : List.range 1 = [0] := rfl
    simp [_BezierPatchHighQuality, tessellateGrid, tessellateCell, CopyQuadIndex, hr1]
  · rw [(_BezierPatchHighQuality_output _ _ 1 1 _ _ (by decide) (by decide)).1]
    decide

/-- C32 (amended): every index stored refers to a vertex written by the same tessellation as
long as it fits the 16-bit index buffer.  In `SplinePatchFullQuality` (which returns, given
enough fuel for its density loop) and in the two hardware tessellators every index stored is
at least 0 and below `(div_u + 1) * (div_v + 1)`, and the vertex loop writes exactly that many
slots from `dest`.  In `_BezierPatchHighQuality`, for a sub-patch with index `k >= 0` and
`(k + 1) * V <= 65536`, `V = (tess_u + 1) * (tess_v + 1)`, the indices stored lie in
`[k * V, (k + 1) * V)`, and with the write pointer at record `k * V` those are the slots
written.  In `_BezierPatchLowQuality`, for `36 * (k + 1) <= 65536`, the indices stored lie in
`[36 * k, 36 * k + 36)`, and with the write pointer at record `36 * k` the quad number
`q = tile_u + 3 * tile_v` writes the four slots `36 * k + 4 * q + 0..3` and stores six indices
naming exactly these four slots.  In the loop of `SubmitBezier` the write pointer is at record
`k * V` (high and medium quality) or `36 * k` (low quality) when sub-patch number `k` is
tessellated, and that sub-patch has index `k`. -/
theorem tessellation_indices_in_range (m : Math3D) (st : TessState) (tess_u tess_v : Int)
    (patch : BezierPatch) (origVertType : VertType)
    (hk : 0 ≤ patch.index) (hu : 0 ≤ tess_u) (hv : 0 ≤ tess_v) :
    (∀ (knot_u0 knot_v0 : Nat → ℚ) (spatch : SplinePatchLocal) (quality maxVertices : Int),
      1 ≤ maxVertices → 0 ≤ (spatch.count_u - 3) * spatch.tess_u →
      0 ≤ (spatch.count_v - 3) * spatch.tess_v →
      ∃ fuel0 : Nat, ∀ fuel : Nat, fuel0 ≤ fuel →
        ∃ (st1 : TessState) (s t : Int) (new : List Int),
          SplinePatchFullQuality m fuel knot_u0 knot_v0 st spatch origVertType quality
            maxVertices = some st1 ∧
          SplinePatchFullQuality_patch_div fuel spatch.count_u spatch.count_v spatch.tess_u
            spatch.tess_v quality maxVertices = some (s, t) ∧
          st1.indices = st.indices ++ new ∧
          (∀ x ∈ new, 0 ≤ x ∧ x < (s + 1) * (t + 1)) ∧
          st1.vertices.map Prod.fst = st.vertices.map Prod.fst ++
            (List.range ((t + 1).toNat * (s + 1).toNat)).map
              (fun (j : Nat) => st.dest + (j : Int))) ∧
    (∀ (mem : Int → SimpleVertex) (spatch : SplinePatchLocal), ∃ new : List Int,
      (TessellateSplinePatchHardware mem st spatch).indices = st.indices ++ new ∧
      ∀ x ∈ new, 0 ≤ x ∧ x < (spatch.tess_u + 1) * (spatch.tess_v + 1)) ∧
    (∀ (mem : Int → SimpleVertex) (primType : GEPatchPrimType), ∃ new : List Int,
      (TessellateBezierPatchHardware mem st tess_u tess_v primType).indices =
        st.indices ++ new ∧
      ∀ x ∈ new, 0 ≤ x ∧ x < (tess_u + 1) * (tess_v + 1)) ∧
    ((patch.index + 1) * ((tess_u + 1) * (tess_v + 1)) ≤ 65536 →
      ∃ new : List Int,
        (_BezierPatchHighQuality m st tess_u tess_v patch origVertType).indices =
          st.indices ++ new ∧
        (∀ x ∈ new, patch.index * ((tess_u + 1) * (tess_v + 1)) ≤ x ∧
          x < (patch.index + 1) * ((tess_u + 1) * (tess_v + 1))) ∧
        (st.dest = patch.index * ((tess_u + 1) * (tess_v + 1)) →
          (_BezierPatchHighQuality m st tess_u tess_v patch origVertType).vertices.map Prod.fst =
            st.vertices.map Prod.fst ++
              (List.range ((tess_u + 1) * (tess_v + 1)).toNat).map
                (fun (j : Nat) => patch.index * ((tess_u + 1) * (tess_v + 1)) + (j : Int)))) ∧
    (36 * (patch.index + 1) ≤ 65536 →
      ∃ new : List Int,
        (_BezierPatchLowQuality m st tess_u tess_v patch origVertType).indices =
          st.indices ++ new ∧
        (∀ x ∈ new, 36 * patch.index ≤ x ∧ x < 36 * patch.index + 36) ∧
        (st.dest = 36 * patch.index →
          (_BezierPatchLowQuality m st tess_u tess_v patch origVertType).vertices.map Prod.fst =
            st.vertices.map Prod.fst ++ (List.range 9).flatMap (fun (q : Nat) =>
              [st.dest + 4 * (q : Int), st.dest + 4 * (q : Int) + 1,
                st.dest + 4 * (q : Int) + 2, st.dest + 4 * (q : Int) + 3]) ∧
          new = (List.range 9).flatMap (fun (q : Nat) =>
            if patch.primType = GEPatchPrimType.GE_PATCHPRIM_LINES then
              [st.dest + 4 * (q : Int), st.dest + 4 * (q : Int) + 2,
                st.dest + 4 * (q : Int) + 1, st.dest + 4 * (q : Int) + 3,
                st.dest + 4 * (q : Int) + 1, st.dest + 4 * (q : Int) + 2]
            else
              [st.dest + 4 * (q : Int), st.dest + 4 * (q : Int) + 2,
                st.dest + 4 * (q : Int) + 1, st.dest + 4 * (q : Int) + 1,
                st.dest + 4 * (q : Int) + 2, st.dest + 4 * (q : Int) + 3]))) ∧
    (∀ (q : SplineQuality) (patches : Int → BezierPatch) (k : Nat),
      ((List.range k).foldl (fun (st : TessState) (patch_idx : Nat) =>
          TessellateBezierPatch m q st tess_u tess_v (patches (patch_idx : Int)) origVertType)
        TessState.init).dest =
        if q = SplineQuality.LOW_QUALITY then 36 * (k : Int)
        else (k : Int) * (((TessellateBezierPatch_densities q tess_u tess_v).1 + 1) *
          ((TessellateBezierPatch_densities q tess_u tess_v).2 + 1))) ∧
    (∀ (points : Int → SimpleVertex) (count_u num_patches_u num_patches_v : Int)
        (prim_type : GEPatchPrimType) (computeNormals patchFacing : Bool)
        (patches0 : Int → BezierPatch) (k : Nat),
      0 < num_patches_u → (k : Int) < num_patches_u * num_patches_v →
      (SubmitBezier_patches points count_u num_patches_u num_patches_v prim_type computeNormals
        patchFacing patches0 (k : Int)).index = (k : Int)) := by
  refine ⟨?_, ?_, ?_, ?_, ?_, ?_, ?_⟩
  · intro knot_u0 knot_v0 spatch quality maxVertices hm _ _
    obtain ⟨fuel0, hf⟩ := SplinePatchFullQuality_patch_div_returns spatch.count_u
      spatch.count_v spatch.tess_u spatch.tess_v quality maxVertices hm
    refine ⟨fuel0, fun fuel hfuel => ?_⟩
    obtain ⟨s, t, e⟩ := hf fuel hfuel
    obtain ⟨hs1, _⟩ := SplinePatchFullQuality_patch_div_ge_one _ _ _ _ _ _ _ _ _ e
    obtain ⟨st1, e1, _, hvs, hic⟩ := SplinePatchFullQuality_of_patch_div m fuel knot_u0 knot_v0
      st spatch origVertType quality maxVertices s t e
    obtain ⟨new, en, hn⟩ := tessellateGrid_indices_zero spatch.primType s t
      (st.indices, st.count)
    refine ⟨st1, s, t, new, e1, e, ?_, hn, ?_⟩
    · rw [← hic] at en
      exact en
    · rw [hvs, writeGrid_slots _ _ _ (by omega)]
  · intro mem spatch
    exact tessellateGrid_indices_zero spatch.primType spatch.tess_u spatch.tess_v
      (st.indices, st.count)
  · intro mem primType
    exact tessellateGrid_indices_zero primType tess_u tess_v (st.indices, st.count)
  · intro hfit
    obtain ⟨new, e, h⟩ := tessellateGrid_indices_patch patch.primType patch.index tess_u tess_v
      (st.indices, st.count) hk hu hv hfit
    refine ⟨new, e, h, fun hd => ?_⟩
    rw [(_BezierPatchHighQuality_output m st tess_u tess_v patch origVertType hu hv).1, hd]
  · intro hfit
    refine ⟨_, (_BezierPatchLowQuality_quads m st tess_u tess_v patch origVertType).2, ?_, ?_⟩
    · intro x hx
      rw [List.mem_flatMap] at hx
      obtain ⟨q, hq, hx⟩ := hx
      have hq9 : q < 9 := List.mem_range.mp hq
      rcases CopyQuadIndex_mem _ _ _ _ _ x hx with h | h | h | h <;> constructor <;> omega
    · intro hd
      refine ⟨(_BezierPatchLowQuality_quads m st tess_u tess_v patch origVertType).1, ?_⟩
      apply List.flatMap_congr
      intro q hq
      have hq9 : q < 9 := List.mem_range.mp hq
      have ed : patch.index * 36 + 4 * (q : Int) = st.dest + 4 * (q : Int) := by omega
      rw [ed]
      exact CopyQuadIndex_fit _ _ (by omega) (by omega)
  · intro q patches k
    exact SubmitBezier_loop_dest m q tess_u tess_v patches origVertType k
  · intro points count_u npu npv prim cn pf patches0 k h0 hk2
    exact SubmitBezier_patches_index points count_u npu npv prim cn pf patches0 k h0 hk2

theorem tessellation_indices_in_range_witness :
    ((0 : Int) ≤ 0 ∧ (0 : Int) ≤ 1 ∧ (0 : Int) ≤ 1) ∧
    ∃ new : List Int,
      (_BezierPatchLowQuality ⟨unpackRGBA, fun _ => 0, fun v => v⟩ TessState.init 1 1
        ⟨fun _ => flatGrid 0, 0, 0, 0, GEPatchPrimType.GE_PATCHPRIM_TRIANGLES, false, false⟩
        ⟨false, false, false⟩).indices = TessState.init.indices ++ new ∧
      ∀ x ∈ new, 36 * (0 : Int) ≤ x ∧ x < 36 * (0 : Int) + 36 := by
  obtain ⟨new, e, h, _⟩ :=
    (tessellation_indices_in_range ⟨unpackRGBA, fun _ => 0, fun v => v⟩ TessState.init 1 1
      ⟨fun _ => flatGrid 0, 0, 0, 0, GEPatchPrimType.GE_PATCHPRIM_TRIANGLES, false, false⟩
      ⟨false, false, false⟩ (by decide) (by decide) (by decide)).2.2.2.2.1 (by decide)
  exact ⟨⟨by decide, by decide, by decide⟩, new, e, h⟩

end SplineCommon
